import Mathlib

/-!
# Inventory ledger: stock-affecting requests

A shallow embedding of the two request handlers that change stock,
`createTransaction` (backend/controllers/transaction.controller.js) and
`buyItem` (backend/controllers/shop.controller.js), together with the part of
JavaScript's value semantics they rely on; of the handlers that read the
ledger, `verifyBlockchainTransaction` and `getAllTransactions`;
of `deleteItem` (backend/controllers/item.controller.js); of the part of the
seed script (backend/prisma/seed.js) that creates transactions and sets stocks,
and the permissions it creates; of the reports
(backend/controllers/report.controller.js); of the permission guards
(backend/middleware/auth.js); and of the user handlers `login`,
`resetPassword`, `updateProfile` (backend/controllers/auth.controller.js),
`deleteUser` and `updateUserRole` (backend/controllers/admin.controller.js).

Conventions of the embedding.

* A request field is a JSON scalar (`JsVal`): absent, `null`, a boolean, a
  number or a string.  Arrays and objects are not modelled.
* A JavaScript number (`JsNum`) is `NaN`, an infinity, or an exact decimal
  `mant / 10 ^ scale`.  Arithmetic on decimals is exact; the rounding of IEEE
  doubles and their finite range are not modelled.
* The database is a pair of row lists.  An integer column accepts exactly the
  numbers that are integers; its width is not modelled.  A database call can
  fail for reasons outside the handler (`Env.fault`).
* `prisma.$transaction` runs its callback on the current state and keeps the
  resulting state only when the callback returns and the commit succeeds.
* Prices are exact rationals and `Number.parseFloat` of a price is the price.
* The user table and the role table form a state of their own (`UserDb`); the
  library `bcrypt` is a pair of functions taken from the surroundings.
-/

namespace Inventory

/-! ## JavaScript numbers -/

/-- A JavaScript number: `NaN`, plus or minus infinity, or the exact decimal
`mant / 10 ^ scale`. -/
inductive JsNum where
  | nan
  | inf (negative : Bool)
  | dec (mant : Int) (scale : Nat)
deriving DecidableEq

/-- The number with integer value `n`. -/
def JsNum.ofInt (n : Int) : JsNum := .dec n 0

/-- Whether the number is `NaN`. -/
def JsNum.isNaN : JsNum → Bool
  | .nan => true
  | _ => false

/-- Whether the number is zero (of either sign). -/
def JsNum.isZero : JsNum → Bool
  | .dec m _ => decide (m = 0)
  | _ => false

/-- The JavaScript comparison `a < b` yields `true` (it yields `false` or
`undefined` otherwise; `undefined` arises exactly when an operand is `NaN`). -/
def JsNum.lt : JsNum → JsNum → Bool
  | .dec m k, .dec m' k' => decide (m * 10 ^ k' < m' * 10 ^ k)
  | .dec _ _, .inf negative => !negative
  | .inf negative, .dec _ _ => negative
  | .inf negative, .inf negative' => negative && !negative'
  | .nan, _ => false
  | _, .nan => false

/-- The JavaScript comparison `a <= b`: computed as `b < a`, and `true` only
when that comparison is `false` (not `true`, not `undefined`). -/
def JsNum.le (a b : JsNum) : Bool :=
  !a.isNaN && !b.isNaN && !(JsNum.lt b a)

/-- Unary minus. -/
def JsNum.neg : JsNum → JsNum
  | .nan => .nan
  | .inf negative => .inf (!negative)
  | .dec m k => .dec (-m) k

/-- The JavaScript sum `a + b` of two numbers. -/
def JsNum.add : JsNum → JsNum → JsNum
  | .dec m k, .dec m' k' => .dec (m * 10 ^ k' + m' * 10 ^ k) (k + k')
  | .dec _ _, .inf negative => .inf negative
  | .inf negative, .dec _ _ => .inf negative
  | .inf negative, .inf negative' => if negative = negative' then .inf negative else .nan
  | .nan, _ => .nan
  | _, .nan => .nan

/-- The JavaScript difference `a - b` of two numbers. -/
def JsNum.sub (a b : JsNum) : JsNum := a.add b.neg

/-- The integer a number is equal to, when it is one (`5`, `5.0`, `50e-1`);
`none` for `NaN`, the infinities and numbers with a fractional part. -/
def JsNum.toInt? : JsNum → Option Int
  | .dec m k => if m % 10 ^ k = 0 then some (m / 10 ^ k) else none
  | _ => none

/-! ## Rendering a number as a string (ECMAScript `Number::toString`, radix 10) -/

/-- Decimal digits of `n`, least significant first; `fuel` bounds their number. -/
def digitsRev : Nat → Nat → List Nat
  | 0, _ => []
  | fuel + 1, n => if n = 0 then [] else (n % 10) :: digitsRev fuel (n / 10)

/-- Decimal digits of `n`, most significant first (empty for `0`). -/
def decimalDigits (n : Nat) : List Nat := (digitsRev n n).reverse

/-- The character of a decimal digit. -/
def digitChar (d : Nat) : Char := Char.ofNat (48 + d)

/-- The digits of a list as characters. -/
def digitChars (ds : List Nat) : List Char := ds.map digitChar

/-- Drop the zeros at the end of a digit list. -/
def stripTrailingZeros (ds : List Nat) : List Nat :=
  (ds.reverse.dropWhile (fun d => decide (d = 0))).reverse

/-- The exponent part `e+21`, `e-7` of the scientific notation. -/
def exponentChars (e : Int) : List Char :=
  'e' :: (if e < 0 then '-' else '+') :: digitChars (decimalDigits e.natAbs)

/-- `Number::toString` for the positive number `a / 10 ^ scale` (`0 < a`).
With `s` the significant digits of the number, `k` their count and `n` the
position of the decimal point (the number is `0.s * 10 ^ n`):
plain digits padded with zeros when `k ≤ n ≤ 21`, digits with a decimal point
inside when `0 < n ≤ 21`, `0.000ddd` when `-6 < n ≤ 0`, and scientific
notation otherwise. -/
def positiveToString (a scale : Nat) : List Char :=
  let ds := decimalDigits a
  let s := stripTrailingZeros ds
  let k : Int := s.length
  let n : Int := (ds.length : Int) - scale
  if k ≤ n ∧ n ≤ 21 then
    digitChars s ++ List.replicate (n - k).toNat '0'
  else if 0 < n ∧ n ≤ 21 then
    digitChars (s.take n.toNat) ++ '.' :: digitChars (s.drop n.toNat)
  else if -6 < n ∧ n ≤ 0 then
    '0' :: '.' :: (List.replicate (-n).toNat '0' ++ digitChars s)
  else if s.length = 1 then
    digitChars s ++ exponentChars (n - 1)
  else
    digitChars (s.take 1) ++ '.' :: (digitChars (s.drop 1) ++ exponentChars (n - 1))

/-- The string of a number: `String(x)`. -/
def JsNum.toJsString : JsNum → List Char
  | .nan => "NaN".data
  | .inf false => "Infinity".data
  | .inf true => "-Infinity".data
  | .dec m scale =>
    if m = 0 then ['0']
    else if m < 0 then '-' :: positiveToString m.natAbs scale
    else positiveToString m.natAbs scale

/-! ## Reading numbers from strings -/

/-- White space and line terminators that JavaScript strips from numeric strings. -/
def isWhiteSpace (c : Char) : Bool :=
  c.toNat ∈ [9, 10, 11, 12, 13, 32, 160, 5760, 8232, 8233, 8239, 8287, 12288, 65279]
    || (8192 ≤ c.toNat && c.toNat ≤ 8202)

/-- The value of a character as a digit: `0-9`, then `a-z` or `A-Z` for 10 to 35. -/
def digitValue (c : Char) : Option Nat :=
  let n := c.toNat
  if 48 ≤ n ∧ n ≤ 57 then some (n - 48)
  else if 97 ≤ n ∧ n ≤ 122 then some (n - 87)
  else if 65 ≤ n ∧ n ≤ 90 then some (n - 55)
  else none

/-- Whether the character is a digit in the given radix. -/
def isRadixDigit (radix : Nat) (c : Char) : Bool :=
  match digitValue c with
  | some d => decide (d < radix)
  | none => false

/-- The number written by a list of radix digits (digits that are not in the
radix count as zero; callers pass digit lists only). -/
def readDigits (radix : Nat) (cs : List Char) : Nat :=
  cs.foldl (fun acc c => acc * radix + (digitValue c).getD 0) 0

/-- The function `parseInt(string)` with no radix argument: skip leading white
space, read a sign, switch to radix 16 after a `0x` or `0X`, and read the
longest run of digits; `none` stands for `NaN` (no digit could be read). -/
def parseIntString (cs : List Char) : Option Int :=
  let s := cs.dropWhile isWhiteSpace
  let (negative, s) :=
    match s with
    | '-' :: r => (true, r)
    | '+' :: r => (false, r)
    | _ => (false, s)
  let (radix, s) :=
    match s with
    | '0' :: 'x' :: r => (16, r)
    | '0' :: 'X' :: r => (16, r)
    | _ => (10, s)
  let ds := s.takeWhile (isRadixDigit radix)
  if ds.isEmpty then none
  else if negative then some (-(readDigits radix ds : Int))
  else some (readDigits radix ds : Int)

/-- The exponent part of a decimal literal: nothing, or `e`/`E`, an optional
sign and at least one digit, up to the end of the string. -/
def readExponent : List Char → Option Int
  | [] => some 0
  | c :: r =>
    if c = 'e' ∨ c = 'E' then
      let (negative, ds) :=
        match r with
        | '-' :: t => (true, t)
        | '+' :: t => (false, t)
        | _ => (false, r)
      if ds.isEmpty ∨ !ds.all (isRadixDigit 10) then none
      else if negative then some (-(readDigits 10 ds : Int))
      else some (readDigits 10 ds : Int)
    else none

/-- An unsigned decimal literal (`12`, `12.`, `12.5`, `.5`, each with an
optional exponent) spanning the whole string, as a number. -/
def readDecimal (cs : List Char) : JsNum :=
  let ip := cs.takeWhile (isRadixDigit 10)
  let r := cs.dropWhile (isRadixDigit 10)
  let (fp, r) :=
    match r with
    | '.' :: t => (t.takeWhile (isRadixDigit 10), t.dropWhile (isRadixDigit 10))
    | _ => ([], r)
  if ip.isEmpty ∧ fp.isEmpty then .nan
  else
    match readExponent r with
    | none => .nan
    | some e =>
      let mant : Int := readDigits 10 (ip ++ fp)
      let e10 : Int := e - fp.length
      if 0 ≤ e10 then .dec (mant * 10 ^ e10.toNat) 0 else .dec mant (-e10).toNat

/-- A literal `0x..`, `0o..` or `0b..` body: all characters are digits of the radix. -/
def readRadixLiteral (radix : Nat) (cs : List Char) : JsNum :=
  if cs.isEmpty ∨ !cs.all (isRadixDigit radix) then .nan
  else .ofInt (readDigits radix cs)

/-- The conversion of a string to a number (`ToNumber` on strings): white
space is trimmed at both ends, the empty string is `0`, then the text must be
a signed decimal literal, a signed `Infinity`, or an unsigned hexadecimal,
octal or binary literal; anything else is `NaN`.  The value is the exact
decimal the text writes: it is not rounded to the nearest double, so a text
such as `1e-400` stays positive where JavaScript reads `0`, and a text with
more than 17 significant digits keeps them all. -/
def stringToNumber (cs : List Char) : JsNum :=
  let s := ((cs.dropWhile isWhiteSpace).reverse.dropWhile isWhiteSpace).reverse
  match s with
  | [] => .ofInt 0
  | '0' :: 'x' :: r => readRadixLiteral 16 r
  | '0' :: 'X' :: r => readRadixLiteral 16 r
  | '0' :: 'o' :: r => readRadixLiteral 8 r
  | '0' :: 'O' :: r => readRadixLiteral 8 r
  | '0' :: 'b' :: r => readRadixLiteral 2 r
  | '0' :: 'B' :: r => readRadixLiteral 2 r
  | '-' :: r => if r = "Infinity".data then .inf true else (readDecimal r).neg
  | '+' :: r => if r = "Infinity".data then .inf false else readDecimal r
  | _ => if s = "Infinity".data then .inf false else readDecimal s

/-! ## JavaScript values -/

/-- A request field: a JSON scalar, or absent (`undefined`). -/
inductive JsVal where
  | undefined
  | null
  | bool (b : Bool)
  | num (x : JsNum)
  | str (s : String)
deriving DecidableEq

/-- Truthiness: the value of `!!v`. -/
def JsVal.truthy : JsVal → Bool
  | .undefined => false
  | .null => false
  | .bool b => b
  | .num x => !x.isNaN && !x.isZero
  | .str s => !s.data.isEmpty

/-- The conversion `ToNumber(v)`. -/
def JsVal.toNumber : JsVal → JsNum
  | .undefined => .nan
  | .null => .ofInt 0
  | .bool b => if b then .ofInt 1 else .ofInt 0
  | .num x => x
  | .str s => stringToNumber s.data

/-- The conversion `ToString(v)`. -/
def JsVal.toJsString : JsVal → List Char
  | .undefined => "undefined".data
  | .null => "null".data
  | .bool b => if b then "true".data else "false".data
  | .num x => x.toJsString
  | .str s => s.data

/-- The call `Number.parseInt(v)`: the argument is converted to a string and
the leading integer text is read; `none` stands for `NaN`. -/
def numberParseInt (v : JsVal) : Option Int := parseIntString v.toJsString

/-- The result of `Number.parseInt(v)` as a number. -/
def parseIntNumber (v : JsVal) : JsNum :=
  match numberParseInt v with
  | some n => .ofInt n
  | none => .nan

/-! ## The store -/

/-- A row of the inventory item table: id, name, SKU and stock, and the
columns the reports read: description, unit price and sale price.  Prices are
exact rationals.  The other columns are left out. -/
structure Item where
  id : Int
  item_name : String := ""
  SKU : String := ""
  current_stock : Int
  description : Option String := none
  unit_price : ℚ := 0
  sale_price : ℚ := 0
deriving DecidableEq

/-- A row of the transaction table.  Dates are milliseconds since the epoch. -/
structure Transaction where
  id : Int
  item_id : Int
  transaction_type : String
  quantity : Int
  user_id : Int
  notes : Option String
  transaction_date : Int
  blockchain_tx_hash : Option String
deriving DecidableEq

/-- The database: the item table and the transaction table. -/
structure Db where
  items : List Item
  transactions : List Transaction
deriving DecidableEq

/-- The database calls the handlers make. -/
inductive StoreOp where
  | findItem
  | updateItem
  | insertTransaction
  | commit
  | attachHash
  | findTransaction
  | findTransactions
  | countTransactions
  | deleteItem
  | aggregateTransactions
  | countItems
  | findItems
deriving DecidableEq

/-- What the handlers take from their surroundings: the clock, the `Date`
constructor, the digest function of `utils/blockchain` (`none` when it
throws), the failures of the database (`fault op = some msg` makes the call
`op` throw an error with message `msg`), the message of the error the
database client throws when it refuses the arguments of a call, and the two
other functions of `utils/blockchain` (an error message when they throw).
For the handlers that list rows it also holds the `ORDER BY` of the database
on either table (the rows ordered by a column, ascending or descending; `none`
when the client refuses the column; how ties are broken is the database's
choice) and the method `setHours(23, 59, 59, 999)` on a valid date, which
depends on the time zone of the server. -/
structure Env where
  now : Int
  parseDate : JsVal → Option Int
  generateTransactionHash : Transaction → Option String
  fault : StoreOp → Option String
  rejection : String
  verifyTransactionHash : Transaction → String → Except String Bool
  getBlockExplorerUrl : String → Except String String
  orderTransactions : String → Bool → List Transaction → Option (List Transaction)
  orderItems : String → Bool → List Item → Option (List Item)
  endOfDay : Int → Int

/-- The item with the given id, if any. -/
def Db.findItem (db : Db) (id : Int) : Option Item :=
  db.items.find? (fun it => decide (it.id = id))

/-- The id the database gives to the next transaction row: one more than
every id in the table. -/
def Db.nextTransactionId (db : Db) : Int :=
  (db.transactions.map (fun t => t.id)).foldl max 0 + 1

/-- The call `prisma.inventoryItem.findUnique` with `where: { id }`; an id
that is `NaN` is refused. -/
def findUniqueItem (env : Env) (db : Db) (id : Option Int) : Except String (Option Item) :=
  match id with
  | none => .error env.rejection
  | some id =>
    match env.fault .findItem with
    | some msg => .error msg
    | none => .ok (db.findItem id)

/-- The call `prisma.inventoryItem.update` with `where: { id }` and
`data: { current_stock }`; it is refused when the id is `NaN`, when the new
stock is not an integer, and when no row has the id.  It returns the updated row. -/
def updateItemStock (env : Env) (db : Db) (id : Option Int) (current_stock : JsNum) :
    Except String (Db × Item) :=
  match id, current_stock.toInt? with
  | some id, some n =>
    match env.fault .updateItem with
    | some msg => .error msg
    | none =>
      match db.findItem id with
      | none => .error env.rejection
      | some it =>
        let rows := db.items.map (fun r => if r.id = id then { r with current_stock := n } else r)
        .ok ({ db with items := rows }, { it with current_stock := n })
  | _, _ => .error env.rejection

/-- The call `prisma.transaction.create`; it is refused when the item id or
the quantity is `NaN`, when the notes are neither a string nor `null`, and
when the date is invalid.  It returns the new row, which has no digest yet. -/
def insertTransaction (env : Env) (db : Db) (item_id : Option Int) (transaction_type : String)
    (quantity : Option Int) (user_id : Int) (notes : JsVal) (transaction_date : Option Int) :
    Except String (Db × Transaction) :=
  let notes? : Option (Option String) :=
    match notes with
    | .null => some none
    | .str s => some (some s)
    | _ => none
  match item_id, quantity, notes?, transaction_date with
  | some item_id, some quantity, some notes, some transaction_date =>
    match env.fault .insertTransaction with
    | some msg => .error msg
    | none =>
      let row : Transaction :=
        { id := db.nextTransactionId, item_id := item_id, transaction_type := transaction_type,
          quantity := quantity, user_id := user_id, notes := notes,
          transaction_date := transaction_date, blockchain_tx_hash := none }
      .ok ({ db with transactions := db.transactions ++ [row] }, row)
  | _, _, _, _ => .error env.rejection

/-- The call `prisma.$transaction(callback)`: the callback's error is thrown
on, and so is a failure to commit; the new state is kept only otherwise. -/
def runInTransaction {α : Type} (env : Env) (work : Except String (Db × α)) :
    Except String (Db × α) :=
  match work with
  | .error msg => .error msg
  | .ok r =>
    match env.fault .commit with
    | some msg => .error msg
    | none => .ok r

/-- The digest step after commit: compute the digest of the new row, store it
on the row with that id, and put it on the returned row; when either the
digest function or the update throws, the error is logged and the row is
returned as it was. -/
def attachDigest (env : Env) (db : Db) (tx : Transaction) : Db × Transaction :=
  match env.generateTransactionHash tx with
  | none => (db, tx)
  | some h =>
    match env.fault .attachHash with
    | some _ => (db, tx)
    | none =>
      if db.transactions.any (fun r => decide (r.id = tx.id)) then
        let rows := db.transactions.map
          (fun r => if r.id = tx.id then { r with blockchain_tx_hash := some h } else r)
        ({ db with transactions := rows }, { tx with blockchain_tx_hash := some h })
      else (db, tx)

/-! ## Requests and responses -/

/-- A request to either handler: the authenticated user and the body fields. -/
structure Request where
  user_id : Int
  item_id : JsVal := .undefined
  transaction_type : JsVal := .undefined
  quantity : JsVal := .undefined
  notes : JsVal := .undefined
  transaction_date : JsVal := .undefined

/-- The response: status code and the JSON body (`data.transaction` and
`data.item` are present on success only). -/
structure Response where
  status : Nat
  success : Bool
  message : String
  transaction : Option Transaction := none
  item : Option Item := none
deriving DecidableEq

/-- The method `text.includes(pat)` on lists of characters. -/
def includesChars (pat : List Char) : List Char → Bool
  | [] => pat.isEmpty
  | c :: cs => pat.isPrefixOf (c :: cs) || includesChars pat cs

/-- The method `text.includes(pat)`. -/
def jsIncludes (text pat : String) : Bool := includesChars pat.data text.data

/-- The message of a failure response: `error.message || fallback`. -/
def messageOr (msg fallback : String) : String :=
  if msg.data.isEmpty then fallback else msg

/-- The list `validTypes` of `createTransaction`. -/
def validTypes : List String := ["initial_stock", "adjustment_increase", "adjustment_decrease"]

/-- The test `validTypes.includes(transaction_type)`: the value is one of the listed strings. -/
def validTypesIncludes (v : JsVal) : Bool :=
  match v with
  | .str s => decide (s ∈ validTypes)
  | _ => false

/-! ## `createTransaction` -/

/-- The guard `if (!item) throw new Error("Item not found")`. -/
def requireItem (item? : Option Item) : Except String Item :=
  match item? with
  | some item => .ok item
  | none => .error "Item not found"

/-- The new stock `createTransaction` computes from the transaction type: the
stock plus `Number.parseInt(quantity)` for the increasing types; for
`adjustment_decrease` an error when `item.current_stock < quantity`, else the
stock minus `Number.parseInt(quantity)`; the stock itself for any other type. -/
def computeNewStock (transaction_type : String) (item : Item) (quantity : JsVal) :
    Except String JsNum :=
  if transaction_type = "initial_stock" ∨ transaction_type = "adjustment_increase" then
    .ok (JsNum.add (.ofInt item.current_stock) (parseIntNumber quantity))
  else if transaction_type = "adjustment_decrease" then
    if JsNum.lt (.ofInt item.current_stock) quantity.toNumber then
      .error "Insufficient stock for adjustment"
    else
      .ok (JsNum.sub (.ofInt item.current_stock) (parseIntNumber quantity))
  else
    .ok (.ofInt item.current_stock)

/-- The callback `createTransaction` passes to `prisma.$transaction`: find the
item, compute the new stock from the type, write the stock, insert the row. -/
def createTransactionWork (env : Env) (db : Db) (req : Request) (transaction_type : String) :
    Except String (Db × Transaction × Item) := do
  let item? ← findUniqueItem env db (numberParseInt req.item_id)
  let item ← requireItem item?
  let newStock ← computeNewStock transaction_type item req.quantity
  let (db1, updatedItem) ← updateItemStock env db (numberParseInt req.item_id) newStock
  let (db2, transaction) ← insertTransaction env db1 (numberParseInt req.item_id)
    transaction_type (numberParseInt req.quantity) req.user_id
    (if req.notes.truthy then req.notes else .null)
    (if req.transaction_date.truthy then env.parseDate req.transaction_date else some env.now)
  pure (db2, transaction, updatedItem)

/-- The handler `createTransaction`: the response and the database after the
request.  A type that passes `validTypes.includes` is a string, and the unit
of work receives it as one. -/
def createTransaction (env : Env) (db : Db) (req : Request) : Response × Db :=
  if !req.item_id.truthy || !req.transaction_type.truthy || !req.quantity.truthy then
    ({ status := 400, success := false,
       message := "Item ID, transaction type, and quantity are required" }, db)
  else if JsNum.le req.quantity.toNumber (.ofInt 0) then
    ({ status := 400, success := false, message := "Quantity must be greater than 0" }, db)
  else
    match req.transaction_type with
    | .str transaction_type =>
      if !validTypesIncludes (.str transaction_type) then
        ({ status := 400, success := false,
           message := "Invalid transaction type. Must be one of: " ++ ", ".intercalate validTypes },
         db)
      else
        match runInTransaction env (createTransactionWork env db req transaction_type) with
        | .error msg =>
          ({ status := if jsIncludes msg "Insufficient stock" then 400 else 500,
             success := false, message := messageOr msg "Failed to record transaction" }, db)
        | .ok (db2, transaction, updatedItem) =>
          let (db3, transaction) := attachDigest env db2 transaction
          ({ status := 201, success := true, message := "Transaction recorded successfully",
             transaction := some transaction, item := some updatedItem }, db3)
    | _ =>
      ({ status := 400, success := false,
         message := "Invalid transaction type. Must be one of: " ++ ", ".intercalate validTypes },
       db)

/-! ## `buyItem` -/

/-- The guard `if (item.current_stock < quantity) throw new Error("Insufficient stock")`. -/
def checkStock (item : Item) (quantity : JsVal) : Except String Unit :=
  if JsNum.lt (.ofInt item.current_stock) quantity.toNumber then
    .error "Insufficient stock"
  else .ok ()

/-- The callback `buyItem` passes to `prisma.$transaction`: find the item,
check the stock, write the stock `item.current_stock - quantity`, insert the
sale row. -/
def buyItemWork (env : Env) (db : Db) (req : Request) :
    Except String (Db × Transaction × Item) := do
  let item? ← findUniqueItem env db (numberParseInt req.item_id)
  let item ← requireItem item?
  checkStock item req.quantity
  let (db1, updatedItem) ← updateItemStock env db (numberParseInt req.item_id)
    (JsNum.sub (.ofInt item.current_stock) req.quantity.toNumber)
  let (db2, transaction) ← insertTransaction env db1 (numberParseInt req.item_id)
    "sale" (numberParseInt req.quantity) req.user_id (.str "Online Sale") (some env.now)
  pure (db2, transaction, updatedItem)

/-- The handler `buyItem`: the response and the database after the request. -/
def buyItem (env : Env) (db : Db) (req : Request) : Response × Db :=
  if !req.item_id.truthy || !req.quantity.truthy then
    ({ status := 400, success := false, message := "Item ID and quantity are required" }, db)
  else if JsNum.le req.quantity.toNumber (.ofInt 0) then
    ({ status := 400, success := false, message := "Quantity must be greater than 0" }, db)
  else
    match runInTransaction env (buyItemWork env db req) with
    | .error msg =>
      ({ status := if msg = "Insufficient stock" then 400 else 500,
         success := false, message := messageOr msg "Failed to complete purchase" }, db)
    | .ok (db2, transaction, updatedItem) =>
      let (db3, transaction) := attachDigest env db2 transaction
      ({ status := 200, success := true, message := "Purchase successful",
         transaction := some transaction, item := some updatedItem }, db3)

/-! ## The ledger invariant and sequences of requests -/

/-- No database call of the unit of work fails for an outside reason. -/
def Env.storeWorks (env : Env) : Prop :=
  env.fault .findItem = none ∧ env.fault .updateItem = none ∧
    env.fault .insertTransaction = none ∧ env.fault .commit = none

/-- The signed quantity of a transaction row: `+quantity` for `initial_stock`
and `adjustment_increase`, `-quantity` for `adjustment_decrease` and `sale`. -/
def signedDelta (t : Transaction) : Int :=
  if t.transaction_type = "initial_stock" ∨ t.transaction_type = "adjustment_increase" then
    t.quantity
  else if t.transaction_type = "adjustment_decrease" ∨ t.transaction_type = "sale" then
    -t.quantity
  else 0

/-- The sum of the signed quantities of the rows recorded for an item. -/
def ledgerSum (db : Db) (item_id : Int) : Int :=
  ((db.transactions.filter (fun t => decide (t.item_id = item_id))).map signedDelta).sum

/-- A request to one of the two handlers. -/
inductive Call where
  | create (req : Request)
  | buy (req : Request)

/-- The database after one request. -/
def Call.run (env : Env) (db : Db) : Call → Db
  | .create req => (createTransaction env db req).2
  | .buy req => (buyItem env db req).2

/-- The database after a sequence of requests. -/
def runCalls (env : Env) (db : Db) (calls : List Call) : Db :=
  calls.foldl (Call.run env) db

/-! ## Sample data -/

/-- The rows sorted by an integer key, rows with equal keys in their order of
insertion; descending on request. -/
def sortByKey {α : Type} (key : α → Int) (descending : Bool) (rows : List α) : List α :=
  if descending then rows.insertionSort (fun a b => key b ≤ key a)
  else rows.insertionSort (fun a b => key a ≤ key b)

/-- An `ORDER BY` on the transaction table for the examples: the columns
`transaction_date`, `id` and `quantity` are known. -/
def sampleOrderTransactions (column : String) (descending : Bool) (rows : List Transaction) :
    Option (List Transaction) :=
  if column = "transaction_date" then some (sortByKey (fun t => t.transaction_date) descending rows)
  else if column = "id" then some (sortByKey (fun t => t.id) descending rows)
  else if column = "quantity" then some (sortByKey (fun t => t.quantity) descending rows)
  else none

/-- Whether one text comes before another or equals it, compared character by
character on the code points. -/
def charsLe : List Char → List Char → Bool
  | [], _ => true
  | _ :: _, [] => false
  | a :: s, b :: t => decide (a.toNat < b.toNat) || (decide (a.toNat = b.toNat) && charsLe s t)

/-- An `ORDER BY` on the item table for the examples: the columns `item_name`
(compared character by character), `id` and `current_stock` are known. -/
def sampleOrderItems (column : String) (descending : Bool) (rows : List Item) :
    Option (List Item) :=
  if column = "item_name" then
    if descending then
      some (rows.insertionSort (fun a b => charsLe b.item_name.data a.item_name.data = true))
    else some (rows.insertionSort (fun a b => charsLe a.item_name.data b.item_name.data = true))
  else if column = "id" then some (sortByKey (fun i => i.id) descending rows)
  else if column = "current_stock" then some (sortByKey (fun i => i.current_stock) descending rows)
  else none

/-- An environment in which every database call works and the digest function
returns; the server runs in UTC. -/
def sampleEnv : Env :=
  { now := 1700000000000, parseDate := fun _ => none,
    generateTransactionHash := fun _ => some "digest",
    fault := fun _ => none, rejection := "Invalid invocation",
    verifyTransactionHash := fun _ digest => .ok (decide (digest = "digest")),
    getBlockExplorerUrl := fun digest => .ok ("https://explorer.example/tx/" ++ digest),
    orderTransactions := sampleOrderTransactions,
    orderItems := sampleOrderItems,
    endOfDay := fun t => t - t % 86400000 + 86399999 }

/-- An environment in which inserting the transaction row fails. -/
def faultyEnv : Env :=
  { sampleEnv with
    fault := fun op => if op = .insertTransaction then some "Connection lost" else none }

/-- An item with id 1 and the given stock. -/
def sampleItem (stock : Int) : Item :=
  { id := 1, item_name := "Widget", SKU := "WID0001", current_stock := stock }

/-- A database with one item, id 1, and no transactions. -/
def sampleDb (stock : Int) : Db :=
  { items := [sampleItem stock], transactions := [] }

/-- A `createTransaction` request by user 7. -/
def adjustRequest (item_id : Int) (transaction_type : String) (quantity : JsVal) : Request :=
  { user_id := 7, item_id := .num (.ofInt item_id), transaction_type := .str transaction_type,
    quantity := quantity }

/-- A `buyItem` request by user 7. -/
def buyRequest (item_id : Int) (quantity : JsVal) : Request :=
  { user_id := 7, item_id := .num (.ofInt item_id), quantity := quantity }

/-! ## Dates as ISO-8601 strings (`Date.prototype.toISOString`) -/

/-- The decimal digits of `n`, padded on the left with zeros to `width` characters. -/
def padDigits (width n : Nat) : List Char :=
  List.replicate (width - (decimalDigits n).length) '0' ++ digitChars (decimalDigits n)

/-- Year, month (1 to 12) and day of the month (1 to 31) of the day that lies
`days` days after 1 January 1970, in the proleptic Gregorian calendar. -/
def civilFromDays (days : Int) : Int × Int × Int :=
  let z := days + 719468
  let era := z / 146097
  let doe := z - era * 146097
  let yoe := (doe - doe / 1460 + doe / 36524 - doe / 146096) / 365
  let doy := doe - (365 * yoe + yoe / 4 - yoe / 100)
  let mp := (5 * doy + 2) / 153
  let d := doy - (153 * mp + 2) / 5 + 1
  let m := if mp < 10 then mp + 3 else mp - 9
  let y := yoe + era * 400
  (if m ≤ 2 then y + 1 else y, m, d)

/-- The year of an ISO string: four digits from 0 to 9999, otherwise a sign and six digits. -/
def isoYear (y : Int) : List Char :=
  if 0 ≤ y ∧ y ≤ 9999 then padDigits 4 y.toNat
  else if y < 0 then '-' :: padDigits 6 y.natAbs
  else '+' :: padDigits 6 y.natAbs

/-- The method `date.toISOString()` of the date with time value `t` (milliseconds
since the epoch, UTC): `YYYY-MM-DDTHH:mm:ss.sssZ`. -/
def toISOString (t : Int) : List Char :=
  let ms := t % 86400000
  let (y, m, d) := civilFromDays (t / 86400000)
  isoYear y ++ '-' :: (padDigits 2 m.toNat ++ '-' :: (padDigits 2 d.toNat ++ 'T' ::
    (padDigits 2 (ms / 3600000).toNat ++ ':' :: (padDigits 2 (ms / 60000 % 60).toNat ++ ':' ::
    (padDigits 2 (ms / 1000 % 60).toNat ++ '.' :: (padDigits 3 (ms % 1000).toNat ++ ['Z']))))))

/-! ## The digest input (seed script) and the digest functions -/

/-- The string of an integer in a template literal: `String(n)`. -/
def intString (n : Int) : List Char := (JsNum.ofInt n).toJsString

/-- The four kinds of transaction that the handlers and the seed script write. -/
def transactionKinds : List String :=
  ["initial_stock", "adjustment_increase", "adjustment_decrease", "sale"]

/-- The template literal the seed script hashes,
`${item_id}-${type}-${quantity}-${date.toISOString()}-${user_id}`, for a date
already rendered. -/
def digestInput (item_id : Int) (transaction_type : String) (quantity : Int)
    (isoDate : List Char) (user_id : Int) : List Char :=
  intString item_id ++ '-' :: (transaction_type.data ++ '-' :: (intString quantity ++ '-' ::
    (isoDate ++ '-' :: intString user_id)))

/-- The digest input built from the stored fields of a row: item id, type,
quantity, date as ISO-8601 with milliseconds, user id, joined with `-`. -/
def canonicalString (tx : Transaction) : String :=
  String.mk (digestInput tx.item_id tx.transaction_type tx.quantity
    (toISOString tx.transaction_date) tx.user_id)

/-- Modelled from the spec: `generateTransactionHash` of `utils/blockchain`,
which is not among the sources.  The digest of a transaction is the hash
`sha256` (lowercase hexadecimal, taken as a parameter) of its canonical string. -/
def computeDigest (sha256 : String → String) (tx : Transaction) : String :=
  sha256 (canonicalString tx)

/-- Modelled from the spec: `verifyTransactionHash` of `utils/blockchain`,
which is not among the sources.  It recomputes the digest and compares it with
the given one for exact equality; an empty digest is never valid. -/
def verifyDigest (sha256 : String → String) (tx : Transaction) (digest : String) : Bool :=
  !digest.data.isEmpty && decide (computeDigest sha256 tx = digest)

/-- The helpers of `utils/blockchain` behave as the spec describes them, with
the hash function `sha256`: the digest is computed and never throws, the
verification recomputes and compares, the explorer address is a pure function
of the digest. -/
def Env.followsSpec (sha256 : String → String) (env : Env) : Prop :=
  (∀ tx, env.generateTransactionHash tx = some (computeDigest sha256 tx)) ∧
    (∀ tx digest, env.verifyTransactionHash tx digest = .ok (verifyDigest sha256 tx digest)) ∧
    (∀ digest, ∃ url, env.getBlockExplorerUrl digest = .ok url)

/-! ## `verifyBlockchainTransaction` -/

/-- The `data` object of a successful verification response. -/
structure VerifyData where
  transaction_id : Int
  blockchain_tx_hash : String
  is_valid : Bool
  block_explorer_url : String
deriving DecidableEq

/-- The response of `verifyBlockchainTransaction`: status code and JSON body. -/
structure VerifyResponse where
  status : Nat
  success : Bool
  message : Option String := none
  error : Option String := none
  data : Option VerifyData := none
deriving DecidableEq

/-- The transaction with the given id, if any. -/
def Db.findTransaction (db : Db) (id : Int) : Option Transaction :=
  db.transactions.find? (fun t => decide (t.id = id))

/-- The call `prisma.transaction.findUnique` with `where: { id }`; an id
that is `NaN` is refused. -/
def findUniqueTransaction (env : Env) (db : Db) (id : Option Int) :
    Except String (Option Transaction) :=
  match id with
  | none => .error env.rejection
  | some id =>
    match env.fault .findTransaction with
    | some msg => .error msg
    | none => .ok (db.findTransaction id)

/-- The answer for a row that was found: 404 when `!transaction.blockchain_tx_hash`
(the digest is `null` or the empty string), otherwise the verification result
and the explorer address. -/
def verifyFound (env : Env) (transaction : Transaction) : Except String VerifyResponse :=
  match transaction.blockchain_tx_hash with
  | none =>
    .ok { status := 404, success := false,
          message := some "No blockchain record found for this transaction" }
  | some digest =>
    if digest.data.isEmpty then
      .ok { status := 404, success := false,
            message := some "No blockchain record found for this transaction" }
    else do
      let isValid ← env.verifyTransactionHash transaction digest
      let blockExplorerUrl ← env.getBlockExplorerUrl digest
      pure { status := 200, success := true,
             data := some { transaction_id := transaction.id, blockchain_tx_hash := digest,
                            is_valid := isValid, block_explorer_url := blockExplorerUrl } }

/-- The body of the `try` block of `verifyBlockchainTransaction`. -/
def verifyBlockchainTransactionWork (env : Env) (db : Db) (id : String) :
    Except String VerifyResponse := do
  let transaction? ← findUniqueTransaction env db (numberParseInt (.str id))
  match transaction? with
  | none => pure { status := 404, success := false, message := some "Transaction not found" }
  | some transaction => verifyFound env transaction

/-- The handler `verifyBlockchainTransaction` for the path parameter `id`: the
response and the database after the request. -/
def verifyBlockchainTransaction (env : Env) (db : Db) (id : String) : VerifyResponse × Db :=
  match verifyBlockchainTransactionWork env db id with
  | .ok response => (response, db)
  | .error msg =>
    ({ status := 500, success := false,
       message := some "Failed to verify blockchain transaction", error := some msg }, db)

/-! ## `deleteItem` -/

/-- A response that carries a message only. -/
structure MessageResponse where
  status : Nat
  success : Bool
  message : String
  error : Option String := none
deriving DecidableEq

/-- The call `prisma.transaction.findMany` with `where: { item_id }`; an id
that is `NaN` is refused. -/
def findManyTransactionsOfItem (env : Env) (db : Db) (item_id : Option Int) :
    Except String (List Transaction) :=
  match item_id with
  | none => .error env.rejection
  | some item_id =>
    match env.fault .findTransactions with
    | some msg => .error msg
    | none => .ok (db.transactions.filter (fun t => decide (t.item_id = item_id)))

/-- The call `prisma.inventoryItem.delete` with `where: { id }`; it is refused
when the id is `NaN` and when no row has the id. -/
def deleteItemRow (env : Env) (db : Db) (id : Option Int) : Except String Db :=
  match id with
  | none => .error env.rejection
  | some id =>
    match env.fault .deleteItem with
    | some msg => .error msg
    | none =>
      match db.findItem id with
      | none => .error env.rejection
      | some _ => .ok { db with items := db.items.filter (fun r => !decide (r.id = id)) }

/-- The steps of `deleteItem` after the item was found: refuse with 400 when
a transaction refers to the item, otherwise delete the row. -/
def deleteFound (env : Env) (db : Db) (id : String) : Except String (MessageResponse × Db) := do
  let transactions ← findManyTransactionsOfItem env db (numberParseInt (.str id))
  if transactions.length > 0 then
    pure ({ status := 400, success := false,
            message := "Cannot delete item with existing transactions" }, db)
  else do
    let db1 ← deleteItemRow env db (numberParseInt (.str id))
    pure ({ status := 200, success := true, message := "Item deleted successfully" }, db1)

/-- The body of the `try` block of `deleteItem`. -/
def deleteItemWork (env : Env) (db : Db) (id : String) : Except String (MessageResponse × Db) := do
  let existingItem ← findUniqueItem env db (numberParseInt (.str id))
  match existingItem with
  | none => pure ({ status := 404, success := false, message := "Item not found" }, db)
  | some _ => deleteFound env db id

/-- The handler `deleteItem` for the path parameter `id`: the response and the
database after the request. -/
def deleteItem (env : Env) (db : Db) (id : String) : MessageResponse × Db :=
  match deleteItemWork env db id with
  | .ok r => r
  | .error msg =>
    ({ status := 500, success := false, message := "Failed to delete item", error := some msg },
     db)

/-! ## The filter of `getAllTransactions` -/

/-- The query parameters of `getAllTransactions` that select rows: each is
absent or a string. -/
structure ListQuery where
  search : Option String := none
  type : Option String := none
  startDate : Option String := none
  endDate : Option String := none

/-- Whether a query parameter is truthy: present and not the empty string. -/
def queryGiven (v : Option String) : Bool :=
  match v with
  | some s => !s.data.isEmpty
  | none => false

/-- The filter `{ contains: pat, mode: "insensitive" }` on a string column
(letters are compared after lower-casing `A` to `Z`). -/
def containsInsensitive (text pat : String) : Bool :=
  includesChars (pat.data.map Char.toLower) (text.data.map Char.toLower)

/-- A bound of the date range: absent when the parameter is not given,
`new Date(parameter)` otherwise; the database client refuses an invalid date. -/
def dateBound (env : Env) (v : Option String) : Except String (Option Int) :=
  match v with
  | none => .ok none
  | some s =>
    if s.data.isEmpty then .ok none
    else
      match env.parseDate (.str s) with
      | some t => .ok (some t)
      | none => .error env.rejection

/-- The relation filter `where.item = { OR: [item_name contains, SKU contains] }`
on a transaction: its item has a name or a SKU that contains the search text. -/
def matchesItemSearch (db : Db) (search : String) (tx : Transaction) : Bool :=
  match db.findItem tx.item_id with
  | some item => containsInsensitive item.item_name search || containsInsensitive item.SKU search
  | none => false

/-- Whether a row satisfies the `where` object `getAllTransactions` builds from
the query: the type when given, the date range when given, and the search on
the item's name or SKU when given. -/
def matchesWhere (db : Db) (q : ListQuery) (gte lte : Option Int) (tx : Transaction) : Bool :=
  (match q.type with
    | some ty => if ty.data.isEmpty then true else decide (tx.transaction_type = ty)
    | none => true) &&
  (match gte with
    | some t => decide (t ≤ tx.transaction_date)
    | none => true) &&
  (match lte with
    | some t => decide (tx.transaction_date ≤ t)
    | none => true) &&
  (match q.search with
    | some s => if s.data.isEmpty then true else matchesItemSearch db s tx
    | none => true)

/-- The rows that `getAllTransactions` counts with `prisma.transaction.count({ where })`:
the matching set of the query. -/
def getAllTransactionsMatching (env : Env) (db : Db) (q : ListQuery) :
    Except String (List Transaction) := do
  let gte ← dateBound env q.startDate
  let lte ← dateBound env q.endDate
  match env.fault .countTransactions with
  | some msg => throw msg
  | none => pure (db.transactions.filter (matchesWhere db q gte lte))

/-- The filter of `getTransactionsReport` for a search text: the notes, the
item's name or the item's SKU contain it. -/
def reportMatchesSearch (db : Db) (search : String) (tx : Transaction) : Bool :=
  (match tx.notes with
    | some notes => containsInsensitive notes search
    | none => false) || matchesItemSearch db search tx

/-! ## The seed script: transactions and stocks -/

/-- The data of a transaction row before the database gives it an id. -/
structure TransactionData where
  item_id : Int
  transaction_type : String
  quantity : Int
  transaction_date : Int
  user_id : Int
  notes : String
  blockchain_tx_hash : String
deriving DecidableEq

/-- The digest the seed script computes:
`crypto.createHash("sha256").update(input).digest("hex")`. -/
def seedHash (sha256 : String → String) (item_id : Int) (transaction_type : String)
    (quantity : Int) (date : Int) (user_id : Int) : String :=
  sha256 (String.mk (digestInput item_id transaction_type quantity (toISOString date) user_id))

/-- The row the first loop pushes for an item: its initial stock, by the admin user. -/
def seedInitialStockRow (sha256 : String → String) (adminUserId : Int) (item : Item)
    (initialStock date : Int) : TransactionData :=
  { item_id := item.id, transaction_type := "initial_stock", quantity := initialStock,
    transaction_date := date, user_id := adminUserId,
    notes := "Initial stock for " ++ item.item_name,
    blockchain_tx_hash := seedHash sha256 item.id "initial_stock" initialStock date adminUserId }

/-- The row the second loop pushes: an adjustment of the drawn type, by the manager user. -/
def seedAdjustmentRow (sha256 : String → String) (managerUserId : Int) (item : Item)
    (type : String) (quantity date : Int) : TransactionData :=
  { item_id := item.id, transaction_type := type, quantity := quantity,
    transaction_date := date, user_id := managerUserId,
    notes := (if type = "adjustment_increase" then "Increased" else "Decreased")
      ++ " stock for " ++ item.item_name,
    blockchain_tx_hash := seedHash sha256 item.id type quantity date managerUserId }

/-- The row the third and the fourth loop push: a sale, by the buyer user or by
a drawn user with the buyer role. -/
def seedSaleRow (sha256 : String → String) (userId : Int) (item : Item)
    (quantity date : Int) : TransactionData :=
  { item_id := item.id, transaction_type := "sale", quantity := quantity,
    transaction_date := date, user_id := userId,
    notes := "Purchase of " ++ item.item_name,
    blockchain_tx_hash := seedHash sha256 item.id "sale" quantity date userId }

/-- The random draws of one run of the seed script: per item the initial stock
and date; per adjustment the item, whether it is an increase, quantity and
date; per sale by the buyer the item, quantity and date; per sale by a random
buyer the item, the user id, quantity and date. -/
structure SeedDraws where
  initial : List (Int × Int)
  adjustments : List (Item × Bool × Int × Int)
  sales : List (Item × Int × Int)
  userSales : List (Item × Int × Int × Int)

/-- The ids of the users the seed script looks up by name. -/
structure SeedUsers where
  admin : Int
  manager : Int
  buyer : Int

/-- The array `transactions` the seed script builds in its four loops, for the
items `allItems`. -/
def seedTransactions (sha256 : String → String) (users : SeedUsers) (allItems : List Item)
    (draws : SeedDraws) : List TransactionData :=
  (allItems.zip draws.initial).map
      (fun p => seedInitialStockRow sha256 users.admin p.1 p.2.1 p.2.2) ++
    draws.adjustments.map
      (fun p => seedAdjustmentRow sha256 users.manager p.1
        (if p.2.1 then "adjustment_increase" else "adjustment_decrease") p.2.2.1 p.2.2.2) ++
    draws.sales.map (fun p => seedSaleRow sha256 users.buyer p.1 p.2.1 p.2.2) ++
    draws.userSales.map (fun p => seedSaleRow sha256 p.2.1 p.1 p.2.2.1 p.2.2.2)

/-- The row stored for the data `r` under the id `id`. -/
def TransactionData.toRow (r : TransactionData) (id : Int) : Transaction :=
  { id := id, item_id := r.item_id, transaction_type := r.transaction_type,
    quantity := r.quantity, user_id := r.user_id, notes := some r.notes,
    transaction_date := r.transaction_date, blockchain_tx_hash := some r.blockchain_tx_hash }

/-- The call `prisma.transaction.createMany`: each row is stored with the next id. -/
def createManyTransactions (db : Db) (rows : List TransactionData) : Db :=
  rows.foldl
    (fun db r => { db with transactions := db.transactions ++ [r.toRow db.nextTransactionId] })
    db

/-- The stock the seed script computes for an item from its transactions: it
adds the quantity of an `initial_stock` or `adjustment_increase` row, subtracts
that of an `adjustment_decrease` or `sale` row, and ends with `Math.max(0, _)`. -/
def seedStock (itemTransactions : List Transaction) : Int :=
  max 0 (itemTransactions.foldl (fun currentStock t =>
    if t.transaction_type = "initial_stock" ∨ t.transaction_type = "adjustment_increase" then
      currentStock + t.quantity
    else if t.transaction_type = "adjustment_decrease" ∨ t.transaction_type = "sale" then
      currentStock - t.quantity
    else currentStock) 0)

/-- The last loop of the seed script: every item gets the stock computed from
the transactions stored for it. -/
def seedStockPass (db : Db) : Db :=
  let rows := db.items.map (fun item =>
    { item with current_stock :=
        seedStock (db.transactions.filter (fun t => decide (t.item_id = item.id))) })
  { db with items := rows }

/-- The ledger part of the seed script, from a database that holds the seeded
items and no transaction: build the rows, store them, set the stocks. -/
def seedLedger (sha256 : String → String) (users : SeedUsers) (draws : SeedDraws) (db : Db) :
    Db :=
  seedStockPass (createManyTransactions db (seedTransactions sha256 users db.items draws))

/-! ## More sample data -/

/-- An environment whose digest function throws. -/
def noDigestEnv : Env :=
  { sampleEnv with generateTransactionHash := fun _ => none }

/-- A stand-in for SHA-256 in the examples: it keeps its input behind a tag. -/
def toySha (s : String) : String := "sha256:" ++ s

/-- An environment whose `utils/blockchain` functions are the spec's, over `toySha`. -/
def specEnv : Env :=
  { sampleEnv with
    generateTransactionHash := fun tx => some (computeDigest toySha tx),
    verifyTransactionHash := fun tx digest => .ok (verifyDigest toySha tx digest),
    getBlockExplorerUrl := fun digest => .ok ("https://explorer.example/tx/" ++ digest) }

/-- An environment whose `Date` constructor reads one ISO string and rejects the rest. -/
def dateEnv : Env :=
  { sampleEnv with
    parseDate := fun v =>
      if v = .str "2024-01-15T10:30:00.000Z" then some 1705314600000 else none }

/-- A transaction row for item 1, by user 7, dated at the sample clock. -/
def sampleRow (id : Int) (transaction_type : String) (quantity : Int) (notes : Option String)
    (blockchain_tx_hash : Option String) : Transaction :=
  { id := id, item_id := 1, transaction_type := transaction_type, quantity := quantity,
    user_id := 7, notes := notes, transaction_date := 1700000000000,
    blockchain_tx_hash := blockchain_tx_hash }

/-- The row `createTransaction` returns in `specEnv` for an increase by 5 of item 1. -/
def digestedRow : Transaction :=
  sampleRow 1 "adjustment_increase" 5 none
    (some (computeDigest toySha (sampleRow 1 "adjustment_increase" 5 none none)))

/-- A seeded item: stock 0 until the stock pass. -/
def seedItem (id : Int) : Item :=
  { id := id, item_name := "Item", SKU := "SKU", current_stock := 0 }

/-- Fifty seeded items, ids 1 to 50. -/
def seedItems : List Item := (List.range 50).map (fun i => seedItem ((i : Int) + 1))

/-- The users the seed script looks up: admin 1, manager 2, buyer 3. -/
def seedUsers : SeedUsers := { admin := 1, manager := 2, buyer := 3 }

/-- A run of the seed script in which every item starts with 20 units, the 20
adjustments increase item 2 by 5, and the 15 + 30 sales each take 3 units of item 1. -/
def unluckyDraws : SeedDraws :=
  { initial := List.replicate 50 (20, 1700000000000),
    adjustments := List.replicate 20 (seedItem 2, true, 5, 1700000000000),
    sales := List.replicate 15 (seedItem 1, 3, 1700000000000),
    userSales := List.replicate 30 (seedItem 1, 4, 3, 1700000000000) }

/-- The sample increase of item 1 by 5, dated 15 January 2024. -/
def backdatedRequest : Request :=
  { adjustRequest 1 "adjustment_increase" (.num (.ofInt 5)) with
    transaction_date := .str "2024-01-15T10:30:00.000Z" }

/-- The sample increase of item 1 by 5 with a `transaction_date` that is not a date. -/
def misdatedRequest : Request :=
  { adjustRequest 1 "adjustment_increase" (.num (.ofInt 5)) with
    transaction_date := .str "yesterday" }

/-- A database with the sample item and one decrease whose notes say why. -/
def notedDb : Db :=
  { items := [sampleItem 8],
    transactions := [sampleRow 1 "adjustment_decrease" 2 (some "Damaged in transit") none] }

/-! ## The page of `getAllTransactions` -/

/-- The query parameters that order and cut the list: each is absent or a string. -/
structure PageQuery where
  sortBy : Option String := none
  order : Option String := none
  page : Option String := none
  limit : Option String := none

/-- The number `Number.parseInt(parameter)` of a query parameter with a default
(`const { page = 1, limit = 10 } = req.query`); `none` stands for `NaN`. -/
def queryInt (v : Option String) (default : Int) : Option Int :=
  match v with
  | some s => numberParseInt (.str s)
  | none => numberParseInt (.num (.ofInt default))

/-- The `orderBy` object: the column `sortBy` when it is given, descending
exactly when `order` is `desc`; otherwise the given default column, descending
or not as the handler says. -/
def orderSpec (pq : PageQuery) (defaultColumn : String) (defaultDescending : Bool) :
    String × Bool :=
  if queryGiven pq.sortBy then (pq.sortBy.getD "", decide (pq.order = some "desc"))
  else (defaultColumn, defaultDescending)

/-- The arguments `skip` and `take` applied to an ordered list of rows.  The
client refuses a `skip` or `take` that is `NaN` and a negative `skip`; a
negative `take` counts from the end of the list. -/
def skipTake {α : Type} (env : Env) (sorted : List α) (skip take : Option Int) :
    Except String (List α) :=
  match skip, take with
  | some skip, some take =>
    if skip < 0 then .error env.rejection
    else if 0 ≤ take then .ok ((sorted.drop skip.toNat).take take.toNat)
    else .ok (((sorted.reverse.drop skip.toNat).take (-take).toNat).reverse)
  | _, _ => .error env.rejection

/-- The number `(pageNum - 1) * limitNum`; `none` stands for `NaN`. -/
def skipOf (pageNum limitNum : Option Int) : Option Int :=
  match pageNum, limitNum with
  | some p, some l => some ((p - 1) * l)
  | _, _ => none

/-- The call `prisma.transaction.findMany` with `where` (already applied:
`matching`), `orderBy`, `skip` and `take`. -/
def findManyTransactionsPage (env : Env) (matching : List Transaction) (order : String × Bool)
    (skip take : Option Int) : Except String (List Transaction) :=
  match env.fault .findTransactions with
  | some msg => .error msg
  | none =>
    match env.orderTransactions order.1 order.2 matching with
    | none => .error env.rejection
    | some sorted => skipTake env sorted skip take

/-- The number `Math.ceil(totalCount / limitNum)` for integers: the least
integer not below the quotient; an infinity or `NaN` when `limitNum` is `0`. -/
def ceilQuotient (totalCount limitNum : Int) : JsNum :=
  if limitNum = 0 then (if totalCount = 0 then .nan else .inf (decide (totalCount < 0)))
  else if 0 < limitNum then .ofInt (-((-totalCount) / limitNum))
  else .ofInt (-(totalCount / (-limitNum)))

/-- The `pagination` object of a list response. -/
structure Pagination where
  total : Int
  page : Int
  limit : Int
  totalPages : JsNum
deriving DecidableEq

/-- The `pagination` object the list handlers build from the count and the
parsed parameters (both are numbers once `findMany` has accepted them). -/
def paginationOf (totalCount : Int) (pageNum limitNum : Option Int) : Pagination :=
  { total := totalCount, page := pageNum.getD 0, limit := limitNum.getD 0,
    totalPages := ceilQuotient totalCount (limitNum.getD 0) }

/-- The response of `getAllTransactions`: status code and JSON body. -/
structure ListResponse where
  status : Nat
  data : List Transaction := []
  pagination : Option Pagination := none
  message : Option String := none
  error : Option String := none
deriving DecidableEq

/-- The body of the `try` block of `getAllTransactions`: parse the page
parameters, count the matching rows, fetch the page. -/
def getAllTransactionsWork (env : Env) (db : Db) (q : ListQuery) (pq : PageQuery) :
    Except String (List Transaction × Pagination) := do
  let pageNum := queryInt pq.page 1
  let limitNum := queryInt pq.limit 10
  let matching ← getAllTransactionsMatching env db q
  let transactions ← findManyTransactionsPage env matching (orderSpec pq "transaction_date" true)
    (skipOf pageNum limitNum) limitNum
  pure (transactions, paginationOf matching.length pageNum limitNum)

/-- The handler `getAllTransactions`, a pure read. -/
def getAllTransactions (env : Env) (db : Db) (q : ListQuery) (pq : PageQuery) : ListResponse :=
  match getAllTransactionsWork env db q pq with
  | .ok (transactions, pagination) =>
    { status := 200, data := transactions, pagination := some pagination }
  | .error msg =>
    { status := 500, message := some "Failed to get transactions", error := some msg }

/-! ## Reports (backend/controllers/report.controller.js) -/

/-- The `where` object of `getInventorySummary`: when a search text is given,
the name, the SKU or the description of the item contains it, letter case
ignored; every item otherwise. -/
def inventoryWhere (search : Option String) (item : Item) : Bool :=
  match search with
  | some s =>
    if s.data.isEmpty then true
    else
      containsInsensitive item.item_name s || containsInsensitive item.SKU s ||
        (match item.description with
          | some description => containsInsensitive description s
          | none => false)
  | none => true

/-- A row of the inventory summary: the item with its three computed values. -/
structure SummaryRow where
  item : Item
  total_value : ℚ
  total_sale_value : ℚ
  potential_profit : ℚ
deriving DecidableEq

/-- The callback that `getInventorySummary`, `generateInventorySummaryDocument`
and `generateInventorySummaryCSV` map over the items; `Number.parseFloat` of a
price is the price. -/
def summaryRow (item : Item) : SummaryRow :=
  let totalValue := item.unit_price * item.current_stock
  let totalSaleValue := item.sale_price * item.current_stock
  { item := item, total_value := totalValue, total_sale_value := totalSaleValue,
    potential_profit := totalSaleValue - totalValue }

/-- The totals of an inventory report. -/
structure InventoryTotals where
  totalItems : Int
  totalStock : Int
  totalValue : ℚ
  totalSaleValue : ℚ
  totalPotentialProfit : ℚ
deriving DecidableEq

/-- The reducer of `getInventorySummary`: one item added to the totals. -/
def addToTotals (acc : InventoryTotals) (item : Item) : InventoryTotals :=
  let itemTotalValue := item.unit_price * item.current_stock
  let itemTotalSaleValue := item.sale_price * item.current_stock
  { totalItems := acc.totalItems + 1,
    totalStock := acc.totalStock + item.current_stock,
    totalValue := acc.totalValue + itemTotalValue,
    totalSaleValue := acc.totalSaleValue + itemTotalSaleValue,
    totalPotentialProfit := acc.totalPotentialProfit + (itemTotalSaleValue - itemTotalValue) }

/-- The totals of `getInventorySummary`: `allItems.reduce` from zeros. -/
def summaryTotals (allItems : List Item) : InventoryTotals :=
  allItems.foldl addToTotals
    { totalItems := 0, totalStock := 0, totalValue := 0, totalSaleValue := 0,
      totalPotentialProfit := 0 }

/-- The totals of `generateInventorySummaryDocument`: the length, three
separate sums, and the profit as the difference of two of them. -/
def documentTotals (items : List Item) : InventoryTotals :=
  let inventorySummary := items.map summaryRow
  let totalValue := inventorySummary.foldl (fun sum row => sum + row.total_value) 0
  let totalSaleValue := inventorySummary.foldl (fun sum row => sum + row.total_sale_value) 0
  { totalItems := items.length,
    totalStock := items.foldl (fun sum item => sum + item.current_stock) 0,
    totalValue := totalValue,
    totalSaleValue := totalSaleValue,
    totalPotentialProfit := totalSaleValue - totalValue }

/-- The call `prisma.inventoryItem.count` with `where`. -/
def countItems (env : Env) (db : Db) (search : Option String) : Except String (List Item) :=
  match env.fault .countItems with
  | some msg => .error msg
  | none => .ok (db.items.filter (inventoryWhere search))

/-- The call `prisma.inventoryItem.findMany` with `where` only: the matching
items, in the order of the table. -/
def findManyItems (env : Env) (db : Db) (search : Option String) : Except String (List Item) :=
  match env.fault .findItems with
  | some msg => .error msg
  | none => .ok (db.items.filter (inventoryWhere search))

/-- The call `prisma.inventoryItem.findMany` with `where`, `orderBy`, and
`skip` and `take` when they are given. -/
def findManyItemsOrdered (env : Env) (db : Db) (search : Option String) (order : String × Bool)
    (page : Option (Option Int × Option Int)) : Except String (List Item) :=
  match env.fault .findItems with
  | some msg => .error msg
  | none =>
    match env.orderItems order.1 order.2 (db.items.filter (inventoryWhere search)) with
    | none => .error env.rejection
    | some sorted =>
      match page with
      | some (skip, take) => skipTake env sorted skip take
      | none => .ok sorted

/-- The body of a successful inventory summary: rows of the page, pagination, totals. -/
structure InventorySummary where
  data : List SummaryRow
  pagination : Pagination
  totals : InventoryTotals
deriving DecidableEq

/-- The body of the `try` block of `getInventorySummary`. -/
def getInventorySummaryWork (env : Env) (db : Db) (search : Option String) (pq : PageQuery) :
    Except String InventorySummary := do
  let pageNum := queryInt pq.page 1
  let limitNum := queryInt pq.limit 10
  let counted ← countItems env db search
  let items ← findManyItemsOrdered env db search (orderSpec pq "item_name" false)
    (some (skipOf pageNum limitNum, limitNum))
  let allItems ← findManyItems env db search
  pure { data := items.map summaryRow,
         pagination := paginationOf counted.length pageNum limitNum,
         totals := summaryTotals allItems }

/-- The response of a report handler: the status code and, on success, the
body; on failure the message and the error text. -/
structure ReportResponse (α : Type) where
  status : Nat
  body : Option α := none
  message : Option String := none
  error : Option String := none

/-- The handler `getInventorySummary`, a pure read. -/
def getInventorySummary (env : Env) (db : Db) (search : Option String) (pq : PageQuery) :
    ReportResponse InventorySummary :=
  match getInventorySummaryWork env db search pq with
  | .ok body => { status := 200, body := some body }
  | .error msg =>
    { status := 500, message := some "Failed to get inventory summary", error := some msg }

/-- The values `generateInventorySummaryDocument` writes into the document:
the rows and the totals (the text of the page around them is left out). -/
structure InventoryDocument where
  rows : List SummaryRow
  totals : InventoryTotals
deriving DecidableEq

/-- The handler `generateInventorySummaryDocument`, a pure read. -/
def generateInventorySummaryDocument (env : Env) (db : Db) : ReportResponse InventoryDocument :=
  match findManyItemsOrdered env db none ("item_name", false) none with
  | .ok items =>
    { status := 200, body := some { rows := items.map summaryRow, totals := documentTotals items } }
  | .error msg =>
    { status := 500, message := some "Failed to generate inventory summary document",
      error := some msg }

/-- The upper bound of the date range of `getTransactionsReport`: absent when
`endDate` is not given, otherwise `new Date(endDate)` moved to the end of its
day; the database client refuses an invalid date. -/
def endDateBound (env : Env) (v : Option String) : Except String (Option Int) :=
  match v with
  | none => .ok none
  | some s =>
    if s.data.isEmpty then .ok none
    else
      match env.parseDate (.str s) with
      | some t => .ok (some (env.endOfDay t))
      | none => .error env.rejection

/-- Whether a row satisfies the `where` object `getTransactionsReport` builds:
the type when one other than `all` is given, the date range when given, and
the search on notes, item name or SKU when given. -/
def reportWhere (db : Db) (q : ListQuery) (gte lte : Option Int) (tx : Transaction) : Bool :=
  (match q.type with
    | some ty =>
      if ty.data.isEmpty || decide (ty = "all") then true else decide (tx.transaction_type = ty)
    | none => true) &&
  (match gte with
    | some t => decide (t ≤ tx.transaction_date)
    | none => true) &&
  (match lte with
    | some t => decide (tx.transaction_date ≤ t)
    | none => true) &&
  (match q.search with
    | some s => if s.data.isEmpty then true else reportMatchesSearch db s tx
    | none => true)

/-- The rows that match the filter of `getTransactionsReport`, or the error of
the database client when a date of the filter is invalid. -/
def reportMatching (env : Env) (db : Db) (q : ListQuery) : Except String (List Transaction) := do
  let gte ← dateBound env q.startDate
  let lte ← endDateBound env q.endDate
  pure (db.transactions.filter (reportWhere db q gte lte))

/-- The value of a transaction in the report: the sale price times the
quantity for a sale, the unit price times the quantity otherwise. -/
def transactionValue (tx : Transaction) (item : Item) : ℚ :=
  if tx.transaction_type = "sale" then item.sale_price * tx.quantity
  else item.unit_price * tx.quantity

/-- A row of the transactions report (the three fields taken from the
recording user are left out). -/
structure ReportRow where
  id : Int
  item_name : String
  SKU : String
  transaction_type : String
  quantity : Int
  transaction_date : Int
  notes : String
  unit_price : ℚ
  sale_price : ℚ
  total_value : ℚ
  blockchain_tx_hash : Option String
deriving DecidableEq

/-- The item that `include: { item: true }` puts on a transaction; reading a
field of an absent item throws. -/
def includedItem (db : Db) (tx : Transaction) : Except String Item :=
  match db.findItem tx.item_id with
  | some item => .ok item
  | none => .error "Cannot read properties of null"

/-- The object the callback of `getTransactionsReport` builds from a
transaction and its item; absent notes become the empty string. -/
def reportRowOf (tx : Transaction) (item : Item) : ReportRow :=
  { id := tx.id, item_name := item.item_name, SKU := item.SKU,
    transaction_type := tx.transaction_type, quantity := tx.quantity,
    transaction_date := tx.transaction_date,
    notes := (match tx.notes with
      | some notes => notes
      | none => ""),
    unit_price := item.unit_price, sale_price := item.sale_price,
    total_value := transactionValue tx item,
    blockchain_tx_hash := tx.blockchain_tx_hash }

/-- The callback that `getTransactionsReport` maps over the rows of the page. -/
def reportRow (db : Db) (tx : Transaction) : Except String ReportRow :=
  match includedItem db tx with
  | .ok item => .ok (reportRowOf tx item)
  | .error msg => .error msg

/-- The rows of the page mapped through `reportRow`, up to the first one that throws. -/
def reportRows (db : Db) : List Transaction → Except String (List ReportRow)
  | [] => .ok []
  | tx :: rest =>
    match reportRow db tx with
    | .error msg => .error msg
    | .ok row =>
      match reportRows db rest with
      | .error msg => .error msg
      | .ok rows => .ok (row :: rows)

/-- One step of the reducer that adds up the value of the matching transactions. -/
def addValue (db : Db) (sum : Except String ℚ) (tx : Transaction) : Except String ℚ :=
  match sum, includedItem db tx with
  | .ok s, .ok item => .ok (s + transactionValue tx item)
  | .error msg, _ => .error msg
  | _, .error msg => .error msg

/-- The call `prisma.transaction.aggregate` with `_sum: { quantity: true }`:
the sum of the quantities of the matching rows, `null` when there is none. -/
def sumQuantity (env : Env) (matching : List Transaction) : Except String (Option Int) :=
  match env.fault .aggregateTransactions with
  | some msg => .error msg
  | none =>
    if matching.isEmpty then .ok none else .ok (some (matching.map (fun t => t.quantity)).sum)

/-- The calls `prisma.transaction.count` and `prisma.transaction.findMany`
with `where` only: the matching rows. -/
def fetchMatching (env : Env) (op : StoreOp) (matching : List Transaction) :
    Except String (List Transaction) :=
  match env.fault op with
  | some msg => .error msg
  | none => .ok matching

/-- The `totals` object of the transactions report. -/
structure ReportTotals where
  totalTransactions : Int
  totalQuantity : Int
  totalValue : ℚ
deriving DecidableEq

/-- The body of a successful transactions report. -/
structure TransactionsReport where
  data : List ReportRow
  pagination : Pagination
  totals : ReportTotals
deriving DecidableEq

/-- The body of the `try` block of `getTransactionsReport`. -/
def getTransactionsReportWork (env : Env) (db : Db) (q : ListQuery) (pq : PageQuery) :
    Except String TransactionsReport := do
  let pageNum := queryInt pq.page 1
  let limitNum := queryInt pq.limit 10
  let matching ← reportMatching env db q
  let counted ← fetchMatching env .countTransactions matching
  let transactions ← findManyTransactionsPage env matching (orderSpec pq "transaction_date" true)
    (skipOf pageNum limitNum) limitNum
  let transactionsReport ← reportRows db transactions
  let _ ← fetchMatching env .countTransactions db.transactions
  let totalQuantity ← sumQuantity env matching
  let allMatchingTransactions ← fetchMatching env .findTransactions matching
  let totalValue ← allMatchingTransactions.foldl (addValue db) (.ok 0)
  pure { data := transactionsReport,
         pagination := paginationOf counted.length pageNum limitNum,
         totals := { totalTransactions := counted.length,
                     totalQuantity := (match totalQuantity with
                       | some n => if n = 0 then 0 else n
                       | none => 0),
                     totalValue := totalValue } }

/-- The handler `getTransactionsReport`, a pure read. -/
def getTransactionsReport (env : Env) (db : Db) (q : ListQuery) (pq : PageQuery) :
    ReportResponse TransactionsReport :=
  match getTransactionsReportWork env db q pq with
  | .ok body => { status := 200, body := some body }
  | .error msg =>
    { status := 500, message := some "Failed to get transactions report", error := some msg }

/-! ## The end-to-end scenario -/

/-- First step of the scenario: user 7 records an `initial_stock` of 5 for the item. -/
def scenarioAdjust (env : Env) (db : Db) (id : Int) : Response × Db :=
  createTransaction env db (adjustRequest id "initial_stock" (.num (.ofInt 5)))

/-- Second step of the scenario: user 7 buys 3 units of the item. -/
def scenarioSale (env : Env) (db : Db) (id : Int) : Response × Db :=
  buyItem env (scenarioAdjust env db id).2 (buyRequest id (.num (.ofInt 3)))

/-- Third step of the scenario: user 7 tries to buy 100 units of the item. -/
def scenarioOversale (env : Env) (db : Db) (id : Int) : Response × Db :=
  buyItem env (scenarioSale env db id).2 (buyRequest id (.num (.ofInt 100)))

/-! ## Permission guards (backend/middleware/auth.js) and the seeded permissions -/

/-- The object `req.user` that `authenticateToken` attaches to a request: the
user's id, the name of the user's role and the names of the role's
permissions (the other fields are left out). -/
structure AuthUser where
  user_id : Int
  role : String
  permissions : List String
deriving DecidableEq

/-- What a guard does with a request: it calls `next()` or it answers with a
status code and a message. -/
inductive GuardResult where
  | next
  | respond (status : Nat) (message : String)
deriving DecidableEq

/-- The guard `checkRole(roleName)`; `user` is `req.user`, absent when the
request was not authenticated. -/
def checkRole (roleName : String) (user : Option AuthUser) : GuardResult :=
  match user with
  | none => .respond 401 "Unauthorized"
  | some u =>
    if u.role = roleName then .next else .respond 403 "Forbidden: Insufficient role"

/-- The guard `checkPermission(permissionName)`. -/
def checkPermission (permissionName : String) (user : Option AuthUser) : GuardResult :=
  match user with
  | none => .respond 401 "Unauthorized"
  | some u =>
    if u.permissions.contains permissionName || decide (u.role = "Admin") then .next
    else .respond 403 "Forbidden: Insufficient permissions"

/-- The guard `checkAnyPermission(permissionNames)`. -/
def checkAnyPermission (permissionNames : List String) (user : Option AuthUser) : GuardResult :=
  match user with
  | none => .respond 401 "Unauthorized"
  | some u =>
    if decide (u.role = "Admin") ||
        permissionNames.any (fun permission => u.permissions.contains permission) then .next
    else .respond 403 "Forbidden: Insufficient permissions"

/-- The list every route of backend/routes/report.routes.js passes to
`hasAnyPermission` (an alias of `checkAnyPermission`). -/
def reportPermissions : List String := ["read_reports", "Admin"]

/-- The routes of backend/routes/report.routes.js with the guard each one
installs after `verifyToken`. -/
def reportRoutes : List (String × (Option AuthUser → GuardResult)) :=
  [("/inventory-summary", checkAnyPermission reportPermissions),
   ("/transactions", checkAnyPermission reportPermissions),
   ("/inventory-summary/document", checkAnyPermission reportPermissions),
   ("/inventory-summary/csv", checkAnyPermission reportPermissions)]

/-- The names of the permissions the seed script creates. -/
def seededPermissions : List String :=
  ["manage_users", "assign_roles", "create_item", "update_item", "delete_item", "read_item",
   "read_item_for_sale", "create_sale_transaction", "create_transaction", "read_transactions",
   "read_own_transactions", "view_reports", "export_reports", "verify_blockchain",
   "upload_image"]

/-- The list `managerPermissions` of the seed script. -/
def managerPermissions : List String :=
  ["create_item", "update_item", "read_item", "read_item_for_sale", "create_transaction",
   "read_transactions", "read_own_transactions", "view_reports", "export_reports",
   "verify_blockchain", "upload_image"]

/-- The permissions the seed script gives a role for a list of names: a name
is linked when a permission with that name exists. -/
def grantedPermissions (names : List String) : List String :=
  names.filter (fun permName => seededPermissions.contains permName)

/-- The `req.user` of a seeded user with the Manager role. -/
def seededManager (user_id : Int) : AuthUser :=
  { user_id := user_id, role := "Manager", permissions := grantedPermissions managerPermissions }

/-! ## Users (backend/controllers/auth.controller.js and admin.controller.js) -/

/-- A row of the role table. -/
structure Role where
  id : Int
  name : String
deriving DecidableEq

/-- A row of the user table.  The column `password` holds the bcrypt hash
that `login` compares with and that the seed script, `register` and
`updateProfile` write.  The field `password_hash` stands for a column of that
name, which three handlers write; it is used only when the table has such a
column (`AuthEnv.passwordHashColumn`).  The columns no modelled handler reads
are left out. -/
structure User where
  id : Int
  username : String := ""
  email : String
  password : String
  first_name : Option String := none
  last_name : Option String := none
  role_id : Int
  email_verified : Bool := true
  password_reset_token : Option String := none
  password_reset_expires : Option Int := none
  password_hash : Option String := none
deriving DecidableEq

/-- The part of the database the user handlers work on. -/
structure UserDb where
  users : List User
  roles : List Role
deriving DecidableEq

/-- The database calls of the user handlers. -/
inductive UserOp where
  | findUser
  | updateUser
  | deleteUser
  | findRole
deriving DecidableEq

/-- What the user handlers take from their surroundings: the clock, the two
functions of the `bcrypt` library on strings (`hash` with its number of salt
rounds, and `compare`), the failures of the database, the message of the
error the database client throws when it refuses the arguments of a call, and
whether the user table has a column named `password_hash`. -/
structure AuthEnv where
  now : Int
  bcryptHash : String → Nat → String
  bcryptCompare : String → String → Bool
  fault : UserOp → Option String
  rejection : String
  passwordHashColumn : Bool

/-- The library `bcrypt` accepts the hashes it produced. -/
def AuthEnv.bcryptSound (env : AuthEnv) : Prop :=
  ∀ data rounds, env.bcryptCompare data (env.bcryptHash data rounds) = true

/-- A response of a user handler: the status code and the message (the other
fields of a success body are left out). -/
structure AuthResponse where
  status : Nat
  message : String
deriving DecidableEq

/-- The user with the given id, if any. -/
def UserDb.findUser (db : UserDb) (id : Int) : Option User :=
  db.users.find? (fun u => decide (u.id = id))

/-- The user with the given email, if any. -/
def UserDb.findUserByEmail (db : UserDb) (email : String) : Option User :=
  db.users.find? (fun u => decide (u.email = email))

/-- The role with the given name, if any. -/
def UserDb.findRole (db : UserDb) (name : String) : Option Role :=
  db.roles.find? (fun r => decide (r.name = name))

/-- The call `prisma.user.findUnique` with `where: { id }`; an id that is
`NaN` is refused. -/
def findUniqueUser (env : AuthEnv) (db : UserDb) (id : Option Int) : Except String (Option User) :=
  match id with
  | none => .error env.rejection
  | some id =>
    match env.fault .findUser with
    | some msg => .error msg
    | none => .ok (db.findUser id)

/-- The call `prisma.user.findUnique` with `where: { email }`; an email that
is not a string is refused. -/
def findUniqueUserByEmail (env : AuthEnv) (db : UserDb) (email : JsVal) :
    Except String (Option User) :=
  match email with
  | .str email =>
    match env.fault .findUser with
    | some msg => .error msg
    | none => .ok (db.findUserByEmail email)
  | _ => .error env.rejection

/-- The call `prisma.role.findFirst` with `where: { name }`; a name that is
not a string is refused. -/
def findFirstRole (env : AuthEnv) (db : UserDb) (name : JsVal) : Except String (Option Role) :=
  match name with
  | .str name =>
    match env.fault .findRole with
    | some msg => .error msg
    | none => .ok (db.findRole name)
  | _ => .error env.rejection

/-- The call `prisma.user.update` with `where: { id }` once the client has
accepted the data: the change `f` is applied to the row with the id; an id
that is `NaN` is refused, and the call fails when there is no such row. -/
def updateUserRow (env : AuthEnv) (db : UserDb) (id : Option Int) (f : User → User) :
    Except String UserDb :=
  match id with
  | none => .error env.rejection
  | some id =>
    match env.fault .updateUser with
    | some msg => .error msg
    | none =>
      match db.findUser id with
      | none => .error env.rejection
      | some _ => .ok { db with users := db.users.map (fun u => if u.id = id then f u else u) }

/-- The call `prisma.user.delete` with `where: { id }`; an id that is `NaN`
is refused, and the call fails when there is no such row. -/
def deleteUserRow (env : AuthEnv) (db : UserDb) (id : Option Int) : Except String UserDb :=
  match id with
  | none => .error env.rejection
  | some id =>
    match env.fault .deleteUser with
    | some msg => .error msg
    | none =>
      match db.findUser id with
      | none => .error env.rejection
      | some _ => .ok { db with users := db.users.filter (fun u => !decide (u.id = id)) }

/-- The property `length` of a string: its number of UTF-16 code units. -/
def utf16Length (s : String) : Nat :=
  (s.data.map (fun c => if c.toNat < 65536 then 1 else 2)).sum

/-- The function `validatePassword` of utils/validation.js,
`password.length >= 6`, on a truthy value: a number or `true` has no
`length`, and `undefined >= 6` is false. -/
def validatePassword (password : JsVal) : Bool :=
  match password with
  | .str s => decide (6 ≤ utf16Length s)
  | _ => false

/-- The call `bcrypt.compare(data, hash)`; it throws when `data` is not a string. -/
def bcryptCompare (env : AuthEnv) (data : JsVal) (hash : String) : Except String Bool :=
  match data with
  | .str s => .ok (env.bcryptCompare s hash)
  | _ => .error "data and hash must be strings"

/-- The call `bcrypt.hash(data, saltRounds)`; it throws when `data` is not a string. -/
def bcryptHash (env : AuthEnv) (data : JsVal) (saltRounds : Nat) : Except String String :=
  match data with
  | .str s => .ok (env.bcryptHash s saltRounds)
  | _ => .error "data must be a string"

/-- The handler `login` up to the token: the body fields `email` and `password`. -/
def loginWork (env : AuthEnv) (db : UserDb) (email password : JsVal) :
    Except String AuthResponse :=
  if !email.truthy || !password.truthy then
    .ok { status := 400, message := "Email and password are required" }
  else
    match findUniqueUserByEmail env db email with
    | .error msg => .error msg
    | .ok none => .ok { status := 401, message := "Invalid email or password" }
    | .ok (some user) =>
      match bcryptCompare env password user.password with
      | .error msg => .error msg
      | .ok passwordMatch =>
        if !passwordMatch then .ok { status := 401, message := "Invalid email or password" }
        else if !user.email_verified then
          .ok { status := 403, message := "Email not verified. Please verify your email first." }
        else .ok { status := 200, message := "Login successful" }

/-- The handler `login`, a pure read (the token of a success body is left out). -/
def login (env : AuthEnv) (db : UserDb) (email password : JsVal) : AuthResponse :=
  match loginWork env db email password with
  | .ok response => response
  | .error _ => { status := 500, message := "Server error during login" }

/-- A name field of `updateData`: `undefined` leaves the column as it is,
`null` and a string are stored, anything else is refused by the client. -/
def nameChange (v : JsVal) : Option (Option String → Option String) :=
  match v with
  | .undefined => some id
  | .null => some (fun _ => none)
  | .str s => some (fun _ => some s)
  | _ => none

/-- A request to `updateProfile`: the authenticated user and the body fields. -/
structure ProfileRequest where
  user_id : Int
  firstName : JsVal := .undefined
  lastName : JsVal := .undefined
  currentPassword : JsVal := .undefined
  newPassword : JsVal := .undefined

/-- The call `prisma.user.update` of `updateProfile`: the two names, and the
column `password` when a new hash is given. -/
def updateProfileRow (env : AuthEnv) (db : UserDb) (req : ProfileRequest)
    (password : Option String) : Except String UserDb :=
  match nameChange req.firstName, nameChange req.lastName with
  | some first, some last =>
    updateUserRow env db (some req.user_id) (fun u =>
      { u with first_name := first u.first_name, last_name := last u.last_name,
               password := (match password with
                 | some hash => hash
                 | none => u.password) })
  | _, _ => .error env.rejection

/-- The steps of `updateProfile` for a request with a new password, after the
user was found. -/
def changePassword (env : AuthEnv) (db : UserDb) (req : ProfileRequest) (user : User) :
    Except String (AuthResponse × UserDb) :=
  if !req.currentPassword.truthy then
    .ok ({ status := 400, message := "Current password is required to set a new password" }, db)
  else
    match bcryptCompare env req.currentPassword user.password with
    | .error msg => .error msg
    | .ok passwordMatch =>
      if !passwordMatch then
        .ok ({ status := 400, message := "Current password is incorrect" }, db)
      else if !validatePassword req.newPassword then
        .ok ({ status := 400,
               message := "New password must be at least 8 characters long and include at least one number, one uppercase letter, and one special character" },
             db)
      else
        match bcryptHash env req.newPassword 12 with
        | .error msg => .error msg
        | .ok hash =>
          match updateProfileRow env db req (some hash) with
          | .error msg => .error msg
          | .ok db1 => .ok ({ status := 200, message := "Profile updated successfully" }, db1)

/-- The body of the `try` block of `updateProfile`. -/
def updateProfileWork (env : AuthEnv) (db : UserDb) (req : ProfileRequest) :
    Except String (AuthResponse × UserDb) :=
  match findUniqueUser env db (some req.user_id) with
  | .error msg => .error msg
  | .ok none => .ok ({ status := 404, message := "User not found" }, db)
  | .ok (some user) =>
    if req.newPassword.truthy then changePassword env db req user
    else
      match updateProfileRow env db req none with
      | .error msg => .error msg
      | .ok db1 => .ok ({ status := 200, message := "Profile updated successfully" }, db1)

/-- The handler `updateProfile`: the response and the users after the request. -/
def updateProfile (env : AuthEnv) (db : UserDb) (req : ProfileRequest) : AuthResponse × UserDb :=
  match updateProfileWork env db req with
  | .ok r => r
  | .error _ => ({ status := 500, message := "Failed to update profile. Please try again." }, db)

/-- The password rule the rejection message of `updateProfile` states: at
least 8 characters, a digit, an uppercase letter and a special character
(a character that is neither a letter nor a digit). -/
def meetsStatedPolicy (s : String) : Bool :=
  decide (8 ≤ utf16Length s) && s.data.any Char.isDigit && s.data.any Char.isUpper &&
    s.data.any (fun c => !c.isAlphanum)

/-- The `data` object of the update in `resetPassword` applied to a row. -/
def resetPasswordData (hash : String) (u : User) : User :=
  { u with password_hash := some hash, password_reset_token := none,
           password_reset_expires := none }

/-- The call `prisma.user.update` of `resetPassword`, with `data:
{ password_hash, password_reset_token: null, password_reset_expires: null }`;
the client refuses the data when the table has no column `password_hash`. -/
def storeResetPassword (env : AuthEnv) (db : UserDb) (id : Int) (hash : String) :
    Except String UserDb :=
  if env.passwordHashColumn then updateUserRow env db (some id) (resetPasswordData hash)
  else .error env.rejection

/-- The test of the reset code: the user has a reset token and its first six
characters are the given code (tokens are hexadecimal). -/
def resetCodeMatches (user : User) (verification_code : JsVal) : Bool :=
  match user.password_reset_token with
  | some token =>
    !token.data.isEmpty && decide (verification_code = .str (String.mk (token.data.take 6)))
  | none => false

/-- The test `user.password_reset_expires < new Date()`; an absent date counts as `0`. -/
def resetExpired (env : AuthEnv) (user : User) : Bool :=
  match user.password_reset_expires with
  | some t => decide (t < env.now)
  | none => decide (0 < env.now)

/-- The steps of `resetPassword` after the user was found. -/
def resetFound (env : AuthEnv) (db : UserDb) (user : User) (verification_code password : JsVal) :
    Except String (AuthResponse × UserDb) :=
  if !resetCodeMatches user verification_code then
    .ok ({ status := 400, message := "Invalid reset code" }, db)
  else if resetExpired env user then
    .ok ({ status := 400, message := "Reset code expired" }, db)
  else
    match bcryptHash env password 10 with
    | .error msg => .error msg
    | .ok hash =>
      match storeResetPassword env db user.id hash with
      | .error msg => .error msg
      | .ok db1 => .ok ({ status := 200, message := "Password reset successful" }, db1)

/-- The body of the `try` block of `resetPassword`. -/
def resetPasswordWork (env : AuthEnv) (db : UserDb) (email verification_code password : JsVal) :
    Except String (AuthResponse × UserDb) :=
  if !email.truthy || !verification_code.truthy || !password.truthy then
    .ok ({ status := 400, message := "Email, verification code, and new password are required" },
         db)
  else if !validatePassword password then
    .ok ({ status := 400, message := "Password must be at least 6 characters" }, db)
  else
    match findUniqueUserByEmail env db email with
    | .error msg => .error msg
    | .ok none => .ok ({ status := 404, message := "User not found" }, db)
    | .ok (some user) => resetFound env db user verification_code password

/-- The handler `resetPassword`: the response and the users after the request. -/
def resetPassword (env : AuthEnv) (db : UserDb) (email verification_code password : JsVal) :
    AuthResponse × UserDb :=
  match resetPasswordWork env db email verification_code password with
  | .ok r => r
  | .error _ => ({ status := 500, message := "Server error during password reset" }, db)

/-- The body of the `try` block of `deleteUser`: the path parameter `id` and
the id of the authenticated user. -/
def deleteUserWork (env : AuthEnv) (db : UserDb) (id : String) (actor : Int) :
    Except String (AuthResponse × UserDb) :=
  match findUniqueUser env db (numberParseInt (.str id)) with
  | .error msg => .error msg
  | .ok none => .ok ({ status := 404, message := "User not found" }, db)
  | .ok (some user) =>
    if user.id = actor then
      .ok ({ status := 400, message := "Cannot delete your own account" }, db)
    else
      match deleteUserRow env db (numberParseInt (.str id)) with
      | .error msg => .error msg
      | .ok db1 => .ok ({ status := 200, message := "User deleted successfully" }, db1)

/-- The handler `deleteUser`: the response and the users after the request. -/
def deleteUser (env : AuthEnv) (db : UserDb) (id : String) (actor : Int) : AuthResponse × UserDb :=
  match deleteUserWork env db id actor with
  | .ok r => r
  | .error _ => ({ status := 500, message := "Server error deleting user" }, db)

/-- The steps of `updateUserRole` after the role was found. -/
def assignRole (env : AuthEnv) (db : UserDb) (id : String) (role : Role) (actor : Int) :
    Except String (AuthResponse × UserDb) :=
  match findUniqueUser env db (numberParseInt (.str id)) with
  | .error msg => .error msg
  | .ok none => .ok ({ status := 404, message := "User not found" }, db)
  | .ok (some user) =>
    if user.id = actor then
      .ok ({ status := 400, message := "Cannot change your own role" }, db)
    else
      match updateUserRow env db (numberParseInt (.str id))
          (fun u => { u with role_id := role.id }) with
      | .error msg => .error msg
      | .ok db1 => .ok ({ status := 200, message := "User role updated successfully" }, db1)

/-- The body of the `try` block of `updateUserRole`: the path parameter `id`,
the body field `roleName` and the id of the authenticated user. -/
def updateUserRoleWork (env : AuthEnv) (db : UserDb) (id : String) (roleName : JsVal)
    (actor : Int) : Except String (AuthResponse × UserDb) :=
  if !roleName.truthy then .ok ({ status := 400, message := "Role name is required" }, db)
  else
    match findFirstRole env db roleName with
    | .error msg => .error msg
    | .ok none => .ok ({ status := 400, message := "Invalid role" }, db)
    | .ok (some role) => assignRole env db id role actor

/-- The handler `updateUserRole`: the response and the users after the request. -/
def updateUserRole (env : AuthEnv) (db : UserDb) (id : String) (roleName : JsVal) (actor : Int) :
    AuthResponse × UserDb :=
  match updateUserRoleWork env db id roleName actor with
  | .ok r => r
  | .error _ => ({ status := 500, message := "Server error updating user role" }, db)



/-! ## Sample users -/

/-- A stand-in for bcrypt in the examples: the hash keeps its input behind a
tag, and a text matches the hash made from it. -/
def toyAuthEnv : AuthEnv :=
  { now := 1700000000000,
    bcryptHash := fun data _ => "bcrypt:" ++ data,
    bcryptCompare := fun data hash => decide (hash = "bcrypt:" ++ data),
    fault := fun _ => none, rejection := "Invalid invocation",
    passwordHashColumn := false }

/-- The same surroundings over a user table that has a column `password_hash`. -/
def toyAuthEnvWithColumn : AuthEnv := { toyAuthEnv with passwordHashColumn := true }

/-- The admin of the examples: id 1, password `OldPass1!`, with a reset token
that expires after the sample clock. -/
def sampleAdmin : User :=
  { id := 1, username := "admin", email := "admin@example.com", password := "bcrypt:OldPass1!",
    role_id := 1, password_reset_token := some "a1b2c3d4e5f6",
    password_reset_expires := some 1700003600000 }

/-- A viewer of the examples: id 2. -/
def sampleViewer : User :=
  { id := 2, username := "viewer", email := "viewer@example.com", password := "bcrypt:Viewer12#",
    role_id := 3 }

/-- The users of the examples, with the four seeded roles. -/
def sampleUsers : UserDb :=
  { users := [sampleAdmin, sampleViewer],
    roles := [⟨1, "Admin"⟩, ⟨2, "Manager"⟩, ⟨3, "Viewer"⟩, ⟨4, "Buyer"⟩] }

/-- The admin asks for the new password `abcdef`, giving the current one. -/
def weakPasswordRequest : ProfileRequest :=
  { user_id := 1, currentPassword := .str "OldPass1!", newPassword := .str "abcdef" }

/-! ## Sample data for the lists and the reports -/

/-- A sale of one unit of item 1 by user 7 with the given id and date. -/
def datedRow (id date : Int) : Transaction :=
  { id := id, item_id := 1, transaction_type := "sale", quantity := 1, user_id := 7,
    notes := none, transaction_date := date, blockchain_tx_hash := none }

/-- A database with the sample item and three sales, dated 2000, 3000 and 1000. -/
def pagedDb : Db :=
  { items := [sampleItem 7],
    transactions := [datedRow 1 2000, datedRow 2 3000, datedRow 3 1000] }

/-- A database with the sample item, three sales dated 2000, 3000 and 1000,
and one initial stock. -/
def mixedDb : Db :=
  { items := [sampleItem 7],
    transactions := [datedRow 1 2000, sampleRow 2 "initial_stock" 10 none none,
                     datedRow 3 3000, datedRow 4 1000] }

/-- The filter that keeps the sales. -/
def saleQuery : ListQuery := { type := some "sale" }

/-- A filter whose start date is not a date. -/
def misdatedQuery : ListQuery := { startDate := some "abc" }

/-- A filter whose end date is not a date. -/
def misdatedEndQuery : ListQuery := { endDate := some "abc" }

/-- A page query that sorts by a column the table does not have. -/
def unknownSort : PageQuery := { sortBy := some "colour" }

/-- The second page of two rows. -/
def secondPage : PageQuery := { page := some "2", limit := some "2" }

/-- An item with prices: bought at `unit_price`, sold at `sale_price`. -/
def pricedItem (id : Int) (item_name : String) (stock : Int) (unit_price sale_price : ℚ) : Item :=
  { id := id, item_name := item_name, SKU := "SKU", current_stock := stock,
    unit_price := unit_price, sale_price := sale_price }

/-- A database with three priced items and two transactions on the first. -/
def pricedDb : Db :=
  { items := [pricedItem 1 "Widget" 10 4 6, pricedItem 2 "Anvil" 2 50 80,
              pricedItem 3 "Bolt" 100 1 2],
    transactions := [sampleRow 1 "initial_stock" 10 none none, sampleRow 2 "sale" 3 none none] }

/-- The first page of two rows. -/
def firstPage : PageQuery := { page := some "1", limit := some "2" }

/-! ## Lemmas: decimal digits -/

theorem digitsRev_eq_digits (fuel n : Nat) (h : n ≤ fuel) : digitsRev fuel n = Nat.digits 10 n := by
  induction fuel generalizing n with
  | zero =>
    have : n = 0 := by omega
    subst this
    simp [digitsRev]
  | succ fuel ih =>
    by_cases hn : n = 0
    · subst hn
      simp [digitsRev]
    · have hpos : 0 < n := Nat.pos_of_ne_zero hn
      rw [Nat.digits_def' (by norm_num) hpos]
      simp only [digitsRev, hn, if_false]
      rw [ih (n / 10) (by omega)]

theorem decimalDigits_eq (n : Nat) : decimalDigits n = (Nat.digits 10 n).reverse := by
  simp [decimalDigits, digitsRev_eq_digits n n (le_refl n)]

theorem decimalDigits_lt (n d : Nat) (h : d ∈ decimalDigits n) : d < 10 := by
  rw [decimalDigits_eq] at h
  exact Nat.digits_lt_base (by norm_num) (List.mem_reverse.mp h)

theorem digitValue_digitChar (d : Nat) (h : d < 10) : digitValue (digitChar d) = some d := by
  interval_cases d <;> rfl

theorem isRadixDigit_digitChar (d : Nat) (h : d < 10) : isRadixDigit 10 (digitChar d) = true := by
  simp [isRadixDigit, digitValue_digitChar d h, h]

theorem readDigits_foldl (ds : List Nat) (hds : ∀ d ∈ ds, d < 10) (acc : Nat) :
    (digitChars ds).foldl (fun acc c => acc * 10 + (digitValue c).getD 0) acc
      = acc * 10 ^ ds.length + Nat.ofDigits 10 ds.reverse := by
  induction ds generalizing acc with
  | nil => simp [digitChars]
  | cons d ds ih =>
    have hd : d < 10 := hds d (List.mem_cons_self _ _)
    have hrest : ∀ x ∈ ds, x < 10 := fun x hx => hds x (List.mem_cons_of_mem _ hx)
    have := ih hrest (acc * 10 + d)
    simp only [digitChars, List.map_cons, List.foldl_cons, digitValue_digitChar d hd,
      Option.getD_some] at this ⊢
    rw [this, List.reverse_cons, Nat.ofDigits_append]
    simp [Nat.ofDigits_singleton]
    ring

theorem readDigits_digitChars (n : Nat) :
    readDigits 10 (digitChars (decimalDigits n)) = n := by
  unfold readDigits
  rw [readDigits_foldl _ (decimalDigits_lt n) 0, decimalDigits_eq]
  simp [Nat.ofDigits_digits]

/-! ## Lemmas: trailing zeros and leading digits -/

theorem stripTrailingZeros_cons (d : Nat) (t : List Nat) (hd : d ≠ 0) :
    stripTrailingZeros (d :: t) = d :: stripTrailingZeros t := by
  unfold stripTrailingZeros
  rw [List.reverse_cons]
  generalize t.reverse = r
  induction r with
  | nil => simp [hd]
  | cons x r ih =>
    by_cases hx : x = 0
    · simp only [List.cons_append, List.dropWhile_cons, hx, decide_True, if_true]
      exact ih
    · simp [List.dropWhile_cons, hx]

theorem stripTrailingZeros_pad (ds : List Nat) :
    stripTrailingZeros ds ++ List.replicate (ds.length - (stripTrailingZeros ds).length) 0 = ds := by
  unfold stripTrailingZeros
  rw [← List.reverse_reverse ds]
  generalize ds.reverse = r
  simp only [List.reverse_reverse, List.length_reverse]
  induction r with
  | nil => simp
  | cons x r ih =>
    by_cases hx : x = 0
    · subst hx
      simp only [List.dropWhile_cons, decide_True, if_true, List.reverse_cons, List.length_cons]
      have hle : (List.dropWhile (fun d => decide (d = 0)) r).length ≤ r.length :=
        (List.dropWhile_sublist _).length_le
      rw [show r.length + 1 - (List.dropWhile (fun d => decide (d = 0)) r).length
          = (r.length - (List.dropWhile (fun d => decide (d = 0)) r).length) + 1 by omega]
      rw [List.replicate_succ', ← List.append_assoc, ih]
    · simp [List.dropWhile_cons, hx]

theorem stripTrailingZeros_length_le (ds : List Nat) :
    (stripTrailingZeros ds).length ≤ ds.length := by
  unfold stripTrailingZeros
  rw [List.length_reverse]
  have := (List.dropWhile_sublist (fun d => decide (d = 0)) (l := ds.reverse)).length_le
  simpa using this

theorem decimalDigits_pos (a : Nat) (ha : 0 < a) :
    ∃ d t, decimalDigits a = d :: t ∧ 0 < d ∧ d < 10 := by
  have hne : Nat.digits 10 a ≠ [] := Nat.digits_ne_nil_iff_ne_zero.mpr (by omega)
  have hlast := Nat.getLast_digit_ne_zero 10 (m := a) (by omega)
  have hrev : decimalDigits a ≠ [] := by
    rw [decimalDigits_eq]; simpa using hne
  obtain ⟨d, t, hdt⟩ := List.exists_cons_of_ne_nil hrev
  refine ⟨d, t, hdt, ?_, decimalDigits_lt a d (by rw [hdt]; exact List.mem_cons_self _ _)⟩
  have hh : (decimalDigits a).head? = some d := by rw [hdt]; rfl
  rw [decimalDigits_eq, List.head?_reverse, List.getLast?_eq_getLast _ hne] at hh
  have : (Nat.digits 10 a).getLast hne = d := by simpa using hh
  omega

/-! ## Lemmas: reading a string that starts with a digit -/

theorem parseIntString_digit (d : Nat) (r : List Char) (h0 : 0 < d) (h : d < 10) :
    parseIntString (digitChar d :: r)
      = some (readDigits 10 ((digitChar d :: r).takeWhile (isRadixDigit 10)) : Int) := by
  have hdig := isRadixDigit_digitChar d h
  interval_cases d <;>
    simp [parseIntString, digitChar, isWhiteSpace, List.takeWhile_cons] at hdig ⊢ <;>
    simp [hdig]

/-! ## Lemmas: `Number.parseInt` of a positive integer -/

theorem decimalDigits_length_le (a : Nat) (ha : 0 < a) (hlt : a < 10 ^ 21) :
    (decimalDigits a).length ≤ 21 := by
  rw [decimalDigits_eq, List.length_reverse]
  have h1 := Nat.base_pow_length_digits_le 10 a (by norm_num) (by omega)
  have h2 : 10 ^ (Nat.digits 10 a).length < 10 ^ 22 := by omega
  have := (Nat.pow_lt_pow_iff_right (by norm_num : 1 < 10)).mp h2
  omega

theorem digitChars_replicate_zero (k : Nat) :
    digitChars (List.replicate k 0) = List.replicate k '0' := by
  simp [digitChars, digitChar]

theorem positiveToString_small (a : Nat) (ha : 0 < a) (hlt : a < 10 ^ 21) :
    positiveToString a 0 = digitChars (decimalDigits a) := by
  have hlen := decimalDigits_length_le a ha hlt
  have hle := stripTrailingZeros_length_le (decimalDigits a)
  have hpad := stripTrailingZeros_pad (decimalDigits a)
  unfold positiveToString
  simp only [Nat.cast_zero, sub_zero]
  rw [if_pos ⟨by exact_mod_cast hle, by exact_mod_cast hlen⟩]
  have hk : ((↑(decimalDigits a).length : Int) - ↑(stripTrailingZeros (decimalDigits a)).length).toNat
      = (decimalDigits a).length - (stripTrailingZeros (decimalDigits a)).length := by
    omega
  rw [hk, ← digitChars_replicate_zero]
  unfold digitChars
  rw [← List.map_append, hpad]

theorem positiveToString_head (a : Nat) (ha : 0 < a) :
    ∃ d r, positiveToString a 0 = digitChar d :: r ∧ 0 < d ∧ d < 10 := by
  obtain ⟨d, t, hdt, hd0, hd10⟩ := decimalDigits_pos a ha
  have hs : stripTrailingZeros (decimalDigits a) = d :: stripTrailingZeros t := by
    rw [hdt]; exact stripTrailingZeros_cons d t (by omega)
  have hle := stripTrailingZeros_length_le (decimalDigits a)
  unfold positiveToString
  simp only [Nat.cast_zero, sub_zero, hs]
  rw [hs] at hle
  by_cases h21 : ((decimalDigits a).length : Int) ≤ 21
  · rw [if_pos ⟨by exact_mod_cast hle, h21⟩]
    exact ⟨d, _, rfl, hd0, hd10⟩
  · rw [if_neg (fun h => h21 h.2), if_neg (fun h => h21 h.2), if_neg (by omega)]
    split
    · exact ⟨d, _, rfl, hd0, hd10⟩
    · exact ⟨d, _, rfl, hd0, hd10⟩

theorem numberParseInt_ofInt_isSome (q : Int) (hq : 0 < q) :
    ∃ n, numberParseInt (.num (.ofInt q)) = some n := by
  obtain ⟨d, r, hstr, hd0, hd10⟩ := positiveToString_head q.natAbs (by omega)
  unfold numberParseInt JsVal.toJsString JsNum.toJsString JsNum.ofInt
  simp only
  rw [if_neg (by omega), if_neg (by omega), hstr]
  exact ⟨_, parseIntString_digit d r hd0 hd10⟩

theorem numberParseInt_ofInt (q : Int) (hq : 0 < q) (hlt : q < 10 ^ 21) :
    numberParseInt (.num (.ofInt q)) = some q := by
  have ha : 0 < q.natAbs := by omega
  have hlt' : q.natAbs < 10 ^ 21 := by omega
  obtain ⟨d, t, hdt, hd0, hd10⟩ := decimalDigits_pos q.natAbs ha
  unfold numberParseInt JsVal.toJsString JsNum.toJsString JsNum.ofInt
  simp only
  rw [if_neg (by omega), if_neg (by omega), positiveToString_small _ ha hlt']
  have hall : (digitChars (decimalDigits q.natAbs)).takeWhile (isRadixDigit 10)
      = digitChars (decimalDigits q.natAbs) := by
    rw [List.takeWhile_eq_self_iff]
    intro c hc
    simp only [digitChars, List.mem_map] at hc
    obtain ⟨x, hx, rfl⟩ := hc
    exact isRadixDigit_digitChar x (decimalDigits_lt _ x hx)
  have hcons : digitChars (decimalDigits q.natAbs) = digitChar d :: digitChars t := by
    rw [hdt]; rfl
  rw [hcons, parseIntString_digit d _ hd0 hd10, ← hcons, hall, readDigits_digitChars]
  congr 1
  omega

/-! ## Lemmas: arithmetic on integers -/

theorem JsNum.lt_ofInt (a b : Int) : JsNum.lt (.ofInt a) (.ofInt b) = decide (a < b) := by
  simp [JsNum.lt, JsNum.ofInt]

theorem JsNum.le_ofInt (a b : Int) : JsNum.le (.ofInt a) (.ofInt b) = decide (a ≤ b) := by
  by_cases h : a ≤ b
  · simp [JsNum.le, JsNum.lt, JsNum.ofInt, JsNum.isNaN, h]
  · simp [JsNum.le, JsNum.lt, JsNum.ofInt, JsNum.isNaN, h]
    omega

theorem JsNum.add_ofInt (a b : Int) : JsNum.add (.ofInt a) (.ofInt b) = .ofInt (a + b) := by
  simp [JsNum.add, JsNum.ofInt]

theorem JsNum.sub_ofInt (a b : Int) : JsNum.sub (.ofInt a) (.ofInt b) = .ofInt (a - b) := by
  simp [JsNum.sub, JsNum.neg, JsNum.add, JsNum.ofInt, sub_eq_add_neg]

theorem JsNum.toInt_ofInt (a : Int) : (JsNum.ofInt a).toInt? = some a := by
  simp [JsNum.toInt?, JsNum.ofInt]

theorem truthy_num_ofInt (q : Int) (hq : q ≠ 0) : (JsVal.num (.ofInt q)).truthy = true := by
  simp [JsVal.truthy, JsNum.ofInt, JsNum.isNaN, JsNum.isZero, hq]

/-! ## Lemmas: the store -/

theorem foldl_max_ge (l : List Int) (acc : Int) :
    acc ≤ l.foldl max acc ∧ ∀ x ∈ l, x ≤ l.foldl max acc := by
  induction l generalizing acc with
  | nil => simp
  | cons y l ih =>
    obtain ⟨h1, h2⟩ := ih (max acc y)
    refine ⟨le_trans (le_max_left _ _) h1, ?_⟩
    intro x hx
    rcases List.mem_cons.mp hx with rfl | hx
    · exact le_trans (le_max_right _ _) h1
    · exact h2 x hx

theorem nextTransactionId_fresh (db : Db) (t : Transaction) (ht : t ∈ db.transactions) :
    t.id ≠ db.nextTransactionId := by
  have := (foldl_max_ge (db.transactions.map (fun t => t.id)) 0).2 t.id
    (List.mem_map_of_mem _ ht)
  unfold Db.nextTransactionId
  omega

theorem findItem_id (db : Db) (id : Int) (item : Item) (h : db.findItem id = some item) :
    item.id = id := by
  have := List.find?_some h
  simpa using this

theorem findItem_map_update (items : List Item) (id n : Int) (item : Item)
    (h : items.find? (fun it => decide (it.id = id)) = some item) :
    (items.map (fun r => if r.id = id then { r with current_stock := n } else r)).find?
      (fun it => decide (it.id = id)) = some { item with current_stock := n } := by
  induction items with
  | nil => simp at h
  | cons r rs ih =>
    by_cases hr : r.id = id
    · have h' : r = item := by simpa [List.find?_cons, hr] using h
      subst h'
      rw [List.map_cons, if_pos hr, List.find?_cons_of_pos]
      simpa using hr
    · have h' : rs.find? (fun it => decide (it.id = id)) = some item := by
        simpa [List.find?_cons, hr] using h
      rw [List.map_cons, if_neg hr, List.find?_cons_of_neg]
      · exact ih h'
      · simpa using hr

theorem attachDigest_items (env : Env) (db : Db) (tx : Transaction) :
    (attachDigest env db tx).1.items = db.items := by
  unfold attachDigest
  split
  · rfl
  · split
    · rfl
    · split <;> rfl

theorem attachDigest_row (env : Env) (db : Db) (tx : Transaction) :
    (attachDigest env db tx).2 = tx ∨
      ∃ h, (attachDigest env db tx).2 = { tx with blockchain_tx_hash := some h } := by
  unfold attachDigest
  split
  · exact Or.inl rfl
  · split
    · exact Or.inl rfl
    · split
      · exact Or.inr ⟨_, rfl⟩
      · exact Or.inl rfl

theorem map_attach_fresh (old : List Transaction) (id : Int) (h : String)
    (hfresh : ∀ t ∈ old, t.id ≠ id) :
    old.map (fun r => if r.id = id then { r with blockchain_tx_hash := some h } else r) = old := by
  induction old with
  | nil => rfl
  | cons r rs ih =>
    have hr : r.id ≠ id := hfresh r (List.mem_cons_self _ _)
    simp only [List.map_cons, hr, if_false]
    rw [ih (fun t ht => hfresh t (List.mem_cons_of_mem _ ht))]

theorem attachDigest_transactions (env : Env) (db : Db) (old : List Transaction)
    (tx : Transaction) (hdb : db.transactions = old ++ [tx]) (hfresh : ∀ t ∈ old, t.id ≠ tx.id) :
    (attachDigest env db tx).1.transactions = old ++ [(attachDigest env db tx).2] := by
  unfold attachDigest
  split
  · exact hdb
  · split
    · exact hdb
    · split
      · simp only [hdb, List.map_append, List.map_cons, List.map_nil, if_true]
        rw [map_attach_fresh old tx.id _ hfresh]
      · exact hdb

/-! ## Lemmas: the unit of work -/

theorem bind_ok {α β : Type} (x : Except String α) (f : α → Except String β) (r : β)
    (h : (x >>= f) = .ok r) : ∃ a, x = .ok a ∧ f a = .ok r := by
  cases x with
  | error e => simp [bind, Except.bind] at h
  | ok a => exact ⟨a, rfl, h⟩

theorem updateItemStock_ok (env : Env) (db : Db) (id : Option Int) (v : JsNum) (db1 : Db)
    (it : Item) (h : updateItemStock env db id v = .ok (db1, it)) :
    db1.transactions = db.transactions := by
  unfold updateItemStock at h
  split at h
  · split at h
    · simp at h
    · split at h
      · simp at h
      · simp only [Except.ok.injEq, Prod.mk.injEq] at h
        rw [← h.1]
  · simp at h

theorem insertTransaction_ok (env : Env) (db : Db) (item_id : Option Int) (ty : String)
    (quantity : Option Int) (user_id : Int) (notes : JsVal) (date : Option Int) (db2 : Db)
    (tx : Transaction)
    (h : insertTransaction env db item_id ty quantity user_id notes date = .ok (db2, tx)) :
    db2.transactions = db.transactions ++ [tx] ∧ db2.items = db.items ∧
      tx.id = db.nextTransactionId ∧ tx.blockchain_tx_hash = none ∧
      tx.transaction_type = ty ∧ tx.user_id = user_id ∧
      item_id = some tx.item_id ∧ quantity = some tx.quantity ∧ date = some tx.transaction_date := by
  unfold insertTransaction at h
  simp only at h
  split at h
  · split at h
    · simp at h
    · simp only [Except.ok.injEq, Prod.mk.injEq] at h
      obtain ⟨h1, h2⟩ := h
      subst h2
      subst h1
      simp
  · simp at h

theorem buyItemWork_shape (env : Env) (db : Db) (req : Request) (db2 : Db) (tx : Transaction)
    (it : Item) (h : buyItemWork env db req = .ok (db2, tx, it)) :
    db2.transactions = db.transactions ++ [tx] ∧ tx.id = db.nextTransactionId := by
  unfold buyItemWork at h
  obtain ⟨item?, _, h⟩ := bind_ok _ _ _ h
  obtain ⟨item, _, h⟩ := bind_ok _ _ _ h
  obtain ⟨_, _, h⟩ := bind_ok _ _ _ h
  obtain ⟨⟨db1, it1⟩, h1, h⟩ := bind_ok _ _ _ h
  obtain ⟨⟨db2', tx'⟩, h2, h⟩ := bind_ok _ _ _ h
  simp only [pure, Except.pure, Except.ok.injEq, Prod.mk.injEq] at h
  obtain ⟨rfl, rfl, rfl⟩ := h
  have e1 := updateItemStock_ok _ _ _ _ _ _ h1
  have e2 := insertTransaction_ok _ _ _ _ _ _ _ _ _ _ h2
  refine ⟨by rw [e2.1, e1], ?_⟩
  rw [e2.2.2.1]
  unfold Db.nextTransactionId
  rw [e1]

theorem createTransactionWork_shape (env : Env) (db : Db) (req : Request) (ty : String)
    (db2 : Db) (tx : Transaction) (it : Item)
    (h : createTransactionWork env db req ty = .ok (db2, tx, it)) :
    db2.transactions = db.transactions ++ [tx] ∧ tx.id = db.nextTransactionId := by
  unfold createTransactionWork at h
  obtain ⟨item?, _, h⟩ := bind_ok _ _ _ h
  obtain ⟨item, _, h⟩ := bind_ok _ _ _ h
  obtain ⟨_, _, h⟩ := bind_ok _ _ _ h
  obtain ⟨⟨db1, it1⟩, h1, h⟩ := bind_ok _ _ _ h
  obtain ⟨⟨db2', tx'⟩, h2, h⟩ := bind_ok _ _ _ h
  simp only [pure, Except.pure, Except.ok.injEq, Prod.mk.injEq] at h
  obtain ⟨rfl, rfl, rfl⟩ := h
  have e1 := updateItemStock_ok _ _ _ _ _ _ h1
  have e2 := insertTransaction_ok _ _ _ _ _ _ _ _ _ _ h2
  refine ⟨by rw [e2.1, e1], ?_⟩
  rw [e2.2.2.1]
  unfold Db.nextTransactionId
  rw [e1]

/-! ## Lemmas: the handlers -/

theorem buyItemWork_insufficient (env : Env) (db : Db) (req : Request) (item : Item) (id : Int)
    (hparse : numberParseInt req.item_id = some id) (hitem : db.findItem id = some item)
    (hfind : env.fault .findItem = none)
    (hlt : JsNum.lt (.ofInt item.current_stock) req.quantity.toNumber = true) :
    buyItemWork env db req = .error "Insufficient stock" := by
  simp [buyItemWork, hparse, findUniqueItem, hfind, hitem, requireItem, checkStock, hlt, bind,
    Except.bind]

theorem buyItemWork_ok (env : Env) (db : Db) (req : Request) (item : Item) (id n m : Int)
    (hparse : numberParseInt req.item_id = some id) (hitem : db.findItem id = some item)
    (hworks : env.storeWorks)
    (hlt : JsNum.lt (.ofInt item.current_stock) req.quantity.toNumber = false)
    (hnew : (JsNum.sub (.ofInt item.current_stock) req.quantity.toNumber).toInt? = some n)
    (hqty : numberParseInt req.quantity = some m) :
    buyItemWork env db req = .ok
      ({ items := db.items.map (fun r => if r.id = id then { r with current_stock := n } else r),
         transactions := db.transactions ++
           [{ id := db.nextTransactionId, item_id := id, transaction_type := "sale",
              quantity := m, user_id := req.user_id, notes := some "Online Sale",
              transaction_date := env.now, blockchain_tx_hash := none }] },
       { id := db.nextTransactionId, item_id := id, transaction_type := "sale",
         quantity := m, user_id := req.user_id, notes := some "Online Sale",
         transaction_date := env.now, blockchain_tx_hash := none },
       { item with current_stock := n }) := by
  obtain ⟨h1, h2, h3, _⟩ := hworks
  simp [buyItemWork, hparse, findUniqueItem, h1, hitem, requireItem, checkStock, hlt,
    updateItemStock, hnew, h2, insertTransaction, hqty, h3, bind, Except.bind, pure, Except.pure,
    Db.nextTransactionId]

theorem findUniqueItem_inv (env : Env) (db : Db) (id : Int) (r : Option Item)
    (h : findUniqueItem env db (some id) = .ok r) : r = db.findItem id := by
  simp only [findUniqueItem] at h
  split at h
  · simp at h
  · simpa using h.symm

theorem requireItem_inv (x : Option Item) (item : Item) (h : requireItem x = .ok item) :
    x = some item := by
  unfold requireItem at h
  split at h
  · simpa using h
  · simp at h

theorem checkStock_inv (item : Item) (quantity : JsVal) (u : Unit)
    (h : checkStock item quantity = .ok u) :
    JsNum.lt (.ofInt item.current_stock) quantity.toNumber = false := by
  unfold checkStock at h
  split at h
  · simp at h
  · exact Bool.eq_false_iff.mpr ‹_›

theorem updateItemStock_inv (env : Env) (db : Db) (id : Int) (v : JsNum) (db1 : Db)
    (it item : Item) (h : updateItemStock env db (some id) v = .ok (db1, it))
    (hitem : db.findItem id = some item) :
    ∃ n, v.toInt? = some n ∧
      db1.items = db.items.map (fun r => if r.id = id then { r with current_stock := n } else r) ∧
      db1.transactions = db.transactions ∧
      it = { item with current_stock := n } := by
  cases hv : v.toInt? with
  | none => simp [updateItemStock, hv] at h
  | some n =>
    simp only [updateItemStock, hv, hitem] at h
    split at h
    · simp at h
    · simp only [Except.ok.injEq, Prod.mk.injEq] at h
      refine ⟨n, rfl, ?_, ?_, h.2.symm⟩
      · rw [← h.1]
      · rw [← h.1]

theorem buyItemWork_inv (env : Env) (db : Db) (req : Request) (item : Item) (id : Int)
    (db2 : Db) (tx : Transaction) (it : Item)
    (hparse : numberParseInt req.item_id = some id) (hitem : db.findItem id = some item)
    (h : buyItemWork env db req = .ok (db2, tx, it)) :
    JsNum.lt (.ofInt item.current_stock) req.quantity.toNumber = false ∧
    ∃ n, (JsNum.sub (.ofInt item.current_stock) req.quantity.toNumber).toInt? = some n ∧
      it = { item with current_stock := n } ∧
      db2.items = db.items.map (fun r => if r.id = id then { r with current_stock := n } else r) ∧
      db2.transactions = db.transactions ++ [tx] ∧
      tx.id = db.nextTransactionId ∧ tx.item_id = id ∧ tx.transaction_type = "sale" ∧
      numberParseInt req.quantity = some tx.quantity ∧ tx.user_id = req.user_id ∧
      tx.notes = some "Online Sale" ∧ tx.transaction_date = env.now ∧
      tx.blockchain_tx_hash = none := by
  have hshape := buyItemWork_shape env db req db2 tx it h
  unfold buyItemWork at h
  rw [hparse] at h
  obtain ⟨item?, h0, h⟩ := bind_ok _ _ _ h
  obtain ⟨item', hreq, h⟩ := bind_ok _ _ _ h
  obtain ⟨u, hchk, h⟩ := bind_ok _ _ _ h
  obtain ⟨⟨db1, it1⟩, h1, h⟩ := bind_ok _ _ _ h
  obtain ⟨⟨db2', tx'⟩, h2, h⟩ := bind_ok _ _ _ h
  simp only [pure, Except.pure, Except.ok.injEq, Prod.mk.injEq] at h
  obtain ⟨rfl, rfl, rfl⟩ := h
  have e0 := findUniqueItem_inv _ _ _ _ h0
  have e0' := requireItem_inv _ _ hreq
  rw [e0, hitem] at e0'
  simp only [Option.some.injEq] at e0'
  subst e0'
  obtain ⟨n, hn, hdb1, _, hit⟩ := updateItemStock_inv _ _ _ _ _ _ _ h1 hitem
  have e2 := insertTransaction_ok _ _ _ _ _ _ _ _ _ _ h2
  have hnotes : tx'.notes = some "Online Sale" := by
    unfold insertTransaction at h2
    simp only at h2
    split at h2
    · split at h2
      · simp at h2
      · rename_i hnotes _ _ _
        simp only [Except.ok.injEq, Prod.mk.injEq] at h2
        rw [← h2.2]
        simpa using hnotes.symm
    · simp at h2
  refine ⟨checkStock_inv _ _ _ hchk, n, hn, hit, ?_, hshape.1, hshape.2, ?_, e2.2.2.2.2.1, ?_,
    e2.2.2.2.2.2.1, hnotes, ?_, e2.2.2.2.1⟩
  · rw [e2.2.1, hdb1]
  · have := e2.2.2.2.2.2.2.1
    simpa using this.symm
  · exact e2.2.2.2.2.2.2.2.1
  · have := e2.2.2.2.2.2.2.2.2
    simpa using this.symm

theorem buyItem_success_inv (env : Env) (db : Db) (req : Request)
    (h : (buyItem env db req).1.success = true) :
    ∃ db2 tx it, buyItemWork env db req = .ok (db2, tx, it) ∧
      buyItem env db req =
        ({ status := 200, success := true, message := "Purchase successful",
           transaction := some (attachDigest env db2 tx).2, item := some it },
         (attachDigest env db2 tx).1) := by
  unfold buyItem at h ⊢
  split at h
  · simp at h
  · split at h
    · simp at h
    · rename_i h1 h2
      rw [if_neg h1, if_neg h2]
      unfold runInTransaction at h ⊢
      cases hw : buyItemWork env db req with
      | error e => rw [hw] at h; simp at h
      | ok r =>
        obtain ⟨db2, tx, it⟩ := r
        rw [hw] at h
        cases hc : env.fault .commit with
        | some m => rw [hc] at h; simp at h
        | none => exact ⟨db2, tx, it, rfl, by simp⟩

theorem createTransaction_cases (env : Env) (db : Db) (req : Request) :
    ((createTransaction env db req).1.success = false ∧
        ((createTransaction env db req).1.status = 400 ∨
          (createTransaction env db req).1.status = 500) ∧
        (createTransaction env db req).2 = db) ∨
      ∃ ty db2 tx it, req.transaction_type = .str ty ∧
        createTransactionWork env db req ty = .ok (db2, tx, it) ∧
        createTransaction env db req =
          ({ status := 201, success := true, message := "Transaction recorded successfully",
             transaction := some (attachDigest env db2 tx).2, item := some it },
           (attachDigest env db2 tx).1) := by
  unfold createTransaction
  split
  · exact Or.inl ⟨rfl, Or.inl rfl, rfl⟩
  · split
    · exact Or.inl ⟨rfl, Or.inl rfl, rfl⟩
    · split
      · rename_i ty hty
        split
        · exact Or.inl ⟨rfl, Or.inl rfl, rfl⟩
        · unfold runInTransaction
          cases hw : createTransactionWork env db req ty with
          | error e =>
            refine Or.inl ⟨rfl, ?_, rfl⟩
            simp only
            split
            · exact Or.inl rfl
            · exact Or.inr rfl
          | ok r =>
            obtain ⟨db2, tx, it⟩ := r
            cases hc : env.fault .commit with
            | some m =>
              refine Or.inl ⟨rfl, ?_, rfl⟩
              simp only
              split
              · exact Or.inl rfl
              · exact Or.inr rfl
            | none => exact Or.inr ⟨ty, db2, tx, it, hty, hw, rfl⟩
      · exact Or.inl ⟨rfl, Or.inl rfl, rfl⟩

theorem buyItem_cases (env : Env) (db : Db) (req : Request) :
    ((buyItem env db req).1.success = false ∧
        ((buyItem env db req).1.status = 400 ∨ (buyItem env db req).1.status = 500) ∧
        (buyItem env db req).2 = db) ∨
      ∃ db2 tx it, buyItemWork env db req = .ok (db2, tx, it) ∧
        buyItem env db req =
          ({ status := 200, success := true, message := "Purchase successful",
             transaction := some (attachDigest env db2 tx).2, item := some it },
           (attachDigest env db2 tx).1) := by
  unfold buyItem
  split
  · exact Or.inl ⟨rfl, Or.inl rfl, rfl⟩
  · split
    · exact Or.inl ⟨rfl, Or.inl rfl, rfl⟩
    · unfold runInTransaction
      cases hw : buyItemWork env db req with
      | error e =>
        refine Or.inl ⟨rfl, ?_, rfl⟩
        simp only
        split
        · exact Or.inl rfl
        · exact Or.inr rfl
      | ok r =>
        obtain ⟨db2, tx, it⟩ := r
        cases hc : env.fault .commit with
        | some m =>
          refine Or.inl ⟨rfl, ?_, rfl⟩
          simp only
          split
          · exact Or.inl rfl
          · exact Or.inr rfl
        | none => exact Or.inr ⟨db2, tx, it, rfl, rfl⟩

theorem validTypesIncludes_false (v : JsVal) (h1 : v ≠ .str "initial_stock")
    (h2 : v ≠ .str "adjustment_increase") (h3 : v ≠ .str "adjustment_decrease") :
    validTypesIncludes v = false := by
  cases v with
  | str s =>
    have e1 : s ≠ "initial_stock" := fun h => h1 (by rw [h])
    have e2 : s ≠ "adjustment_increase" := fun h => h2 (by rw [h])
    have e3 : s ≠ "adjustment_decrease" := fun h => h3 (by rw [h])
    simp [validTypesIncludes, validTypes, e1, e2, e3]
  | _ => rfl

/-! ## Further properties of `createTransaction` -/

theorem createTransactionWork_inv (env : Env) (db : Db) (req : Request) (ty : String)
    (item : Item) (id : Int) (db2 : Db) (tx : Transaction) (it : Item)
    (hparse : numberParseInt req.item_id = some id) (hitem : db.findItem id = some item)
    (h : createTransactionWork env db req ty = .ok (db2, tx, it)) :
    ∃ newStock n, computeNewStock ty item req.quantity = .ok newStock ∧
      newStock.toInt? = some n ∧
      it = { item with current_stock := n } ∧
      db2.items = db.items.map (fun r => if r.id = id then { r with current_stock := n } else r) ∧
      db2.transactions = db.transactions ++ [tx] ∧
      tx.id = db.nextTransactionId ∧ tx.item_id = id ∧ tx.transaction_type = ty ∧
      numberParseInt req.quantity = some tx.quantity ∧ tx.user_id = req.user_id ∧
      tx.blockchain_tx_hash = none := by
  have hshape := createTransactionWork_shape env db req ty db2 tx it h
  unfold createTransactionWork at h
  rw [hparse] at h
  obtain ⟨item?, h0, h⟩ := bind_ok _ _ _ h
  obtain ⟨item', hreq, h⟩ := bind_ok _ _ _ h
  obtain ⟨newStock, hnew, h⟩ := bind_ok _ _ _ h
  obtain ⟨⟨db1, it1⟩, h1, h⟩ := bind_ok _ _ _ h
  obtain ⟨⟨db2', tx'⟩, h2, h⟩ := bind_ok _ _ _ h
  simp only [pure, Except.pure, Except.ok.injEq, Prod.mk.injEq] at h
  obtain ⟨rfl, rfl, rfl⟩ := h
  have e0 := findUniqueItem_inv _ _ _ _ h0
  have e0' := requireItem_inv _ _ hreq
  rw [e0, hitem] at e0'
  simp only [Option.some.injEq] at e0'
  subst e0'
  obtain ⟨n, hn, hdb1, _, hit⟩ := updateItemStock_inv _ _ _ _ _ _ _ h1 hitem
  have e2 := insertTransaction_ok _ _ _ _ _ _ _ _ _ _ h2
  refine ⟨newStock, n, hnew, hn, hit, ?_, hshape.1, hshape.2, ?_, e2.2.2.2.2.1, ?_,
    e2.2.2.2.2.2.1, e2.2.2.2.1⟩
  · rw [e2.2.1, hdb1]
  · have := e2.2.2.2.2.2.2.1
    simpa using this.symm
  · exact e2.2.2.2.2.2.2.2.1

theorem parseIntNumber_some (v : JsVal) (p : Int) (h : numberParseInt v = some p) :
    parseIntNumber v = .ofInt p := by
  simp [parseIntNumber, h]

theorem computeNewStock_delta (ty : String) (item : Item) (quantity : JsVal) (p n : Int)
    (newStock : JsNum) (hty : ty ∈ validTypes) (hp : numberParseInt quantity = some p)
    (h : computeNewStock ty item quantity = .ok newStock) (hn : newStock.toInt? = some n) :
    (ty = "initial_stock" ∨ ty = "adjustment_increase" → n = item.current_stock + p) ∧
    (ty = "adjustment_decrease" → n = item.current_stock - p ∧
      JsNum.lt (.ofInt item.current_stock) quantity.toNumber = false) := by
  unfold computeNewStock at h
  rw [parseIntNumber_some quantity p hp] at h
  simp only [validTypes, List.mem_cons, List.mem_singleton, List.not_mem_nil, or_false] at hty
  rcases hty with rfl | rfl | rfl
  · simp only [true_or, if_true, Except.ok.injEq] at h
    subst h
    rw [JsNum.add_ofInt, JsNum.toInt_ofInt] at hn
    simp only [Option.some.injEq] at hn
    exact ⟨fun _ => hn.symm, fun h => absurd h (by decide)⟩
  · simp only [or_true, if_true, Except.ok.injEq] at h
    subst h
    rw [JsNum.add_ofInt, JsNum.toInt_ofInt] at hn
    simp only [Option.some.injEq] at hn
    exact ⟨fun _ => hn.symm, fun h => absurd h (by decide)⟩
  · rw [if_neg (by decide), if_pos rfl] at h
    split at h
    · simp at h
    · rename_i hlt
      simp only [Except.ok.injEq] at h
      subst h
      rw [JsNum.sub_ofInt, JsNum.toInt_ofInt] at hn
      simp only [Option.some.injEq] at hn
      exact ⟨fun h => absurd h (by decide), fun _ => ⟨hn.symm, Bool.eq_false_iff.mpr hlt⟩⟩

theorem createTransaction_success_valid (env : Env) (db : Db) (req : Request)
    (h : (createTransaction env db req).1.success = true) :
    ∃ ty, req.transaction_type = .str ty ∧ ty ∈ validTypes := by
  unfold createTransaction at h
  split at h
  · simp at h
  · split at h
    · simp at h
    · split at h
      · rename_i ty hty
        split at h
        · simp at h
        · rename_i hv
          refine ⟨ty, hty, ?_⟩
          simpa [validTypesIncludes] using hv
      · simp at h

theorem createTransactionWork_found (env : Env) (db : Db) (req : Request) (ty : String)
    (r : Db × Transaction × Item) (h : createTransactionWork env db req ty = .ok r) :
    ∃ id item, numberParseInt req.item_id = some id ∧ db.findItem id = some item := by
  unfold createTransactionWork at h
  obtain ⟨item?, h0, h⟩ := bind_ok _ _ _ h
  obtain ⟨item, hreq, _⟩ := bind_ok _ _ _ h
  cases hp : numberParseInt req.item_id with
  | none => rw [hp] at h0; simp [findUniqueItem] at h0
  | some id =>
    rw [hp] at h0
    have e0 := findUniqueItem_inv _ _ _ _ h0
    have e0' := requireItem_inv _ _ hreq
    exact ⟨id, item, rfl, by rw [← e0, e0']⟩

theorem findItem_map_other (items : List Item) (id id0 n : Int) (hne : id ≠ id0) :
    (items.map (fun r => if r.id = id0 then { r with current_stock := n } else r)).find?
      (fun it => decide (it.id = id)) = items.find? (fun it => decide (it.id = id)) := by
  induction items with
  | nil => rfl
  | cons r rs ih =>
    by_cases hr0 : r.id = id0
    · have hr : r.id ≠ id := fun h => hne (h.symm.trans hr0)
      rw [List.map_cons, if_pos hr0, List.find?_cons_of_neg, List.find?_cons_of_neg, ih]
      · simpa using hr
      · simpa using hr
    · rw [List.map_cons, if_neg hr0]
      by_cases hr : r.id = id
      · rw [List.find?_cons_of_pos, List.find?_cons_of_pos]
        · simpa using hr
        · simpa using hr
      · rw [List.find?_cons_of_neg, List.find?_cons_of_neg, ih]
        · simpa using hr
        · simpa using hr

theorem ledgerSum_append (items items' : List Item) (old : List Transaction) (tx : Transaction)
    (id : Int) :
    ledgerSum { items := items', transactions := old ++ [tx] } id
      = ledgerSum { items := items, transactions := old } id
        + (if tx.item_id = id then signedDelta tx else 0) := by
  unfold ledgerSum
  simp only [List.filter_append, List.map_append, List.sum_append]
  by_cases h : tx.item_id = id
  · simp [List.filter_cons, h]
  · simp [List.filter_cons, h]

theorem signedDelta_attachDigest (env : Env) (db : Db) (tx : Transaction) :
    signedDelta (attachDigest env db tx).2 = signedDelta tx ∧
      (attachDigest env db tx).2.item_id = tx.item_id := by
  rcases attachDigest_row env db tx with h | ⟨d, h⟩ <;> rw [h] <;> simp [signedDelta]

theorem signedDelta_of_type (tx : Transaction) :
    (tx.transaction_type = "initial_stock" ∨ tx.transaction_type = "adjustment_increase" →
      signedDelta tx = tx.quantity) ∧
    (tx.transaction_type = "adjustment_decrease" → signedDelta tx = -tx.quantity) := by
  constructor
  · intro h
    simp [signedDelta, h]
  · intro h
    simp [signedDelta, h]

/-- Conservation is kept by `createTransaction`, for every request body: if an
item's stock is a baseline plus the signed sum of its rows before the request,
it is so after it. -/
theorem createTransaction_conserves (env : Env) (db : Db) (req : Request) (b id : Int)
    (hcons : ∀ item, db.findItem id = some item → item.current_stock = b + ledgerSum db id) :
    ∀ item, (createTransaction env db req).2.findItem id = some item →
      item.current_stock = b + ledgerSum (createTransaction env db req).2 id := by
  rcases createTransaction_cases env db req with ⟨_, _, h⟩ | ⟨ty, db2, tx, it, hty, hw, h⟩
  · rw [h]; exact hcons
  · have hsucc : (createTransaction env db req).1.success = true := by rw [h]
    obtain ⟨ty', hty', hvalid⟩ := createTransaction_success_valid env db req hsucc
    rw [hty] at hty'
    simp only [JsVal.str.injEq] at hty'
    subst hty'
    obtain ⟨id0, item0, hparse, hitem0⟩ := createTransactionWork_found env db req ty _ hw
    obtain ⟨newStock, n, hnew, hn, hit, hitems, htxs, htid, htitem, httype, htq, _, _⟩ :=
      createTransactionWork_inv env db req ty item0 id0 db2 tx it hparse hitem0 hw
    have hdelta := computeNewStock_delta ty item0 req.quantity tx.quantity n newStock hvalid htq
      hnew hn
    have hfresh : ∀ t ∈ db.transactions, t.id ≠ tx.id := by
      intro t ht
      rw [htid]
      exact nextTransactionId_fresh db t ht
    have hrows := attachDigest_transactions env db2 db.transactions tx htxs hfresh
    have hsd := signedDelta_attachDigest env db2 tx
    have hsum : ledgerSum (attachDigest env db2 tx).1 id
        = ledgerSum db id + (if tx.item_id = id then signedDelta tx else 0) := by
      have := ledgerSum_append db.items (attachDigest env db2 tx).1.items db.transactions
        (attachDigest env db2 tx).2 id
      rw [← hrows, hsd.1, hsd.2] at this
      exact this
    rw [h]
    intro item hfind
    simp only at hfind ⊢
    unfold Db.findItem at hfind
    rw [attachDigest_items, hitems] at hfind
    rw [hsum, htitem]
    by_cases hid : id = id0
    · subst hid
      rw [findItem_map_update db.items id n item0 hitem0] at hfind
      simp only [Option.some.injEq] at hfind
      subst hfind
      have hc := hcons item0 hitem0
      have hsd2 := signedDelta_of_type tx
      rw [httype] at hsd2
      simp only [validTypes, List.mem_cons, List.mem_singleton, List.not_mem_nil, or_false]
        at hvalid
      simp only [if_true]
      rcases hvalid with e | e | e
      · rw [hsd2.1 (Or.inl e), (hdelta.1 (Or.inl e))]
        show item0.current_stock + tx.quantity = _
        omega
      · rw [hsd2.1 (Or.inr e), (hdelta.1 (Or.inr e))]
        show item0.current_stock + tx.quantity = _
        omega
      · rw [hsd2.2 e, (hdelta.2 e).1]
        show item0.current_stock - tx.quantity = _
        omega
    · rw [findItem_map_other db.items id id0 n hid] at hfind
      rw [if_neg (fun h => hid h.symm), add_zero]
      exact hcons item hfind

/-- Conservation is kept by every sequence of `createTransaction` requests,
whatever their bodies and outcomes. -/
theorem createTransaction_sequence_conserves (env : Env) (reqs : List Request) (db : Db)
    (b id : Int)
    (hcons : ∀ item, db.findItem id = some item → item.current_stock = b + ledgerSum db id) :
    ∀ item, (runCalls env db (reqs.map Call.create)).findItem id = some item →
      item.current_stock = b + ledgerSum (runCalls env db (reqs.map Call.create)) id := by
  induction reqs generalizing db with
  | nil => exact hcons
  | cons req reqs ih =>
    simp only [runCalls, List.map_cons, List.foldl_cons, Call.run]
    exact ih (createTransaction env db req).2 (createTransaction_conserves env db req b id hcons)

/-- For a positive integer quantity `q` below `10 ^ 21`, a successful
`createTransaction` returns the item with stock `+ q` for the increasing types
and `- q` for `adjustment_decrease`, where `q` does not exceed the old stock. -/
theorem createTransaction_success_stock (env : Env) (db : Db) (req : Request) (item : Item)
    (id q : Int) (ty : String)
    (hparse : numberParseInt req.item_id = some id) (hitem : db.findItem id = some item)
    (htype : req.transaction_type = .str ty)
    (hqty : req.quantity = .num (.ofInt q)) (hq : 0 < q) (hlt : q < 10 ^ 21)
    (hsucc : (createTransaction env db req).1.success = true) :
    (ty = "initial_stock" ∨ ty = "adjustment_increase" →
      (createTransaction env db req).1.item
        = some { item with current_stock := item.current_stock + q }) ∧
    (ty = "adjustment_decrease" →
      (createTransaction env db req).1.item
        = some { item with current_stock := item.current_stock - q } ∧
      q ≤ item.current_stock) := by
  obtain ⟨ty', hty', hvalid⟩ := createTransaction_success_valid env db req hsucc
  rw [htype] at hty'
  simp only [JsVal.str.injEq] at hty'
  subst hty'
  rcases createTransaction_cases env db req with ⟨hf, _, _⟩ | ⟨ty', db2, tx, it, hty', hw, h⟩
  · rw [hf] at hsucc; simp at hsucc
  · rw [htype] at hty'
    simp only [JsVal.str.injEq] at hty'
    subst hty'
    obtain ⟨newStock, n, hnew, hn, hit, _, _, _, _, _, htq, _, _⟩ :=
      createTransactionWork_inv env db req ty item id db2 tx it hparse hitem hw
    rw [hqty, numberParseInt_ofInt q hq hlt] at htq
    simp only [Option.some.injEq] at htq
    have hdelta := computeNewStock_delta ty item req.quantity q n newStock hvalid
      (by rw [hqty]; exact numberParseInt_ofInt q hq hlt) hnew hn
    rw [h]
    constructor
    · intro hinc
      rw [hit, hdelta.1 hinc]
    · intro hdec
      obtain ⟨e, hltq⟩ := hdelta.2 hdec
      rw [hqty] at hltq
      simp only [JsVal.toNumber, JsNum.lt_ofInt, decide_eq_false_iff_not, not_lt] at hltq
      exact ⟨by rw [hit, e], hltq⟩

/-! ## Further properties of `buyItem` and of the validation -/

theorem buyItemWork_found (env : Env) (db : Db) (req : Request)
    (r : Db × Transaction × Item) (h : buyItemWork env db req = .ok r) :
    ∃ id item, numberParseInt req.item_id = some id ∧ db.findItem id = some item := by
  unfold buyItemWork at h
  obtain ⟨item?, h0, h⟩ := bind_ok _ _ _ h
  obtain ⟨item, hreq, _⟩ := bind_ok _ _ _ h
  cases hp : numberParseInt req.item_id with
  | none => rw [hp] at h0; simp [findUniqueItem] at h0
  | some id =>
    rw [hp] at h0
    have e0 := findUniqueItem_inv _ _ _ _ h0
    have e0' := requireItem_inv _ _ hreq
    exact ⟨id, item, rfl, by rw [← e0, e0']⟩

theorem sub_toInt_nonneg (s n : Int) (x : JsNum)
    (hlt : JsNum.lt (.ofInt s) x = false) (hpos : JsNum.le x (.ofInt 0) = false)
    (hn : (JsNum.sub (.ofInt s) x).toInt? = some n) : 0 ≤ n := by
  cases x with
  | nan => simp [JsNum.sub, JsNum.neg, JsNum.add, JsNum.ofInt, JsNum.toInt?] at hn
  | inf negative =>
    simp [JsNum.sub, JsNum.neg, JsNum.add, JsNum.ofInt, JsNum.toInt?] at hn
  | dec m k =>
    simp only [JsNum.lt, JsNum.ofInt, pow_zero, mul_one, decide_eq_false_iff_not, not_lt] at hlt
    simp only [JsNum.sub, JsNum.neg, JsNum.add, JsNum.ofInt, JsNum.toInt?, pow_zero, mul_one,
      zero_add] at hn
    split at hn
    · simp only [Option.some.injEq] at hn
      rw [← hn]
      apply Int.ediv_nonneg
      · omega
      · positivity
    · simp at hn

/-- The handler `buyItem` never leaves a negative stock, whatever the request
body: its guard and its subtraction use the same coercion of the quantity. -/
theorem buyItem_keeps_stock_nonnegative (env : Env) (db : Db) (req : Request) (id : Int)
    (hnonneg : ∀ item, db.findItem id = some item → 0 ≤ item.current_stock) :
    ∀ item, (buyItem env db req).2.findItem id = some item → 0 ≤ item.current_stock := by
  rcases buyItem_cases env db req with ⟨_, _, h⟩ | ⟨db2, tx, it, hw, h⟩
  · rw [h]; exact hnonneg
  · have hpos : JsNum.le req.quantity.toNumber (.ofInt 0) = false := by
      have hsucc : (buyItem env db req).1.success = true := by rw [h]
      unfold buyItem at hsucc
      split at hsucc
      · simp at hsucc
      · split at hsucc
        · simp at hsucc
        · exact Bool.eq_false_iff.mpr ‹_›
    obtain ⟨id0, item0, hparse, hitem0⟩ := buyItemWork_found env db req _ hw
    obtain ⟨hlt, n, hn, _, hitems, _⟩ :=
      buyItemWork_inv env db req item0 id0 db2 tx it hparse hitem0 hw
    have hn0 := sub_toInt_nonneg item0.current_stock n req.quantity.toNumber hlt hpos hn
    rw [h]
    intro item hfind
    simp only at hfind
    unfold Db.findItem at hfind
    rw [attachDigest_items, hitems] at hfind
    by_cases hid : id = id0
    · subst hid
      rw [findItem_map_update db.items id n item0 hitem0] at hfind
      simp only [Option.some.injEq] at hfind
      rw [← hfind]
      exact hn0
    · rw [findItem_map_other db.items id id0 n hid] at hfind
      exact hnonneg item hfind

/-- A quantity that is absent, zero, or not above zero under JavaScript's
comparison is rejected by both handlers with status 400, and the database
stays as it was. -/
theorem nonpositive_quantity_rejected (env : Env) (db : Db) (req : Request)
    (hq : req.quantity.truthy = false ∨ JsNum.le req.quantity.toNumber (.ofInt 0) = true) :
    (createTransaction env db req).1.status = 400 ∧ (createTransaction env db req).2 = db ∧
    (buyItem env db req).1.status = 400 ∧ (buyItem env db req).2 = db := by
  unfold createTransaction buyItem
  rcases hq with hq | hq
  · simp [hq]
  · by_cases h1 : (!req.item_id.truthy || !req.transaction_type.truthy || !req.quantity.truthy)
        = true
    · by_cases h2 : (!req.item_id.truthy || !req.quantity.truthy) = true
      · simp [h1, h2, hq]
      · simp [h1, h2, hq]
    · by_cases h2 : (!req.item_id.truthy || !req.quantity.truthy) = true
      · simp [h1, h2, hq]
      · simp [h1, h2, hq]

/-- A request with a positive integer quantity that names an id no item has
is answered 500 with the message `Item not found` by both handlers, and the
database stays as it was. -/
theorem item_not_found_response (env : Env) (db : Db) (req : Request) (id q : Int)
    (hid : req.item_id.truthy = true)
    (hqty : req.quantity = .num (.ofInt q)) (hq : 0 < q)
    (hparse : numberParseInt req.item_id = some id) (hnone : db.findItem id = none)
    (hfind : env.fault .findItem = none) :
    buyItem env db req = ({ status := 500, success := false, message := "Item not found" }, db) ∧
    (validTypesIncludes req.transaction_type = true →
      createTransaction env db req
        = ({ status := 500, success := false, message := "Item not found" }, db)) := by
  have hq0 : ¬ q ≤ 0 := by omega
  have hqt : req.quantity.truthy = true := by rw [hqty]; exact truthy_num_ofInt q (by omega)
  have hpos : JsNum.le req.quantity.toNumber (.ofInt 0) = false := by
    rw [hqty]; simp [JsVal.toNumber, JsNum.le_ofInt, hq0]
  have hinc : jsIncludes "Item not found" "Insufficient stock" = false := by decide
  have hmsg1 : messageOr "Item not found" "Failed to record transaction" = "Item not found" := by
    decide
  have hmsg2 : messageOr "Item not found" "Failed to complete purchase" = "Item not found" := by
    decide
  have hne : ("Item not found" = "Insufficient stock") = False := by decide
  constructor
  · have hwork : buyItemWork env db req = .error "Item not found" := by
      simp [buyItemWork, hparse, findUniqueItem, hfind, hnone, requireItem, bind, Except.bind]
    unfold buyItem
    simp [hid, hqt, hpos, runInTransaction, hwork, hmsg2, hne]
  · intro hvalid
    cases hty : req.transaction_type with
    | str ty =>
      rw [hty] at hvalid
      have htr : (JsVal.str ty).truthy = true := by
        simp [validTypesIncludes, validTypes] at hvalid
        rcases hvalid with rfl | rfl | rfl <;> decide
      have hwork : createTransactionWork env db req ty = .error "Item not found" := by
        simp [createTransactionWork, hparse, findUniqueItem, hfind, hnone, requireItem, bind,
          Except.bind]
      unfold createTransaction
      simp [hid, hqt, hpos, hty, htr, hvalid, runInTransaction, hwork, hmsg1, hinc]
    | _ => rw [hty] at hvalid; simp [validTypesIncludes] at hvalid

/-! ## Lemmas: the digest step -/

theorem createTransactionWork_hash_none (env : Env) (db : Db) (req : Request) (ty : String)
    (db2 : Db) (tx : Transaction) (it : Item)
    (h : createTransactionWork env db req ty = .ok (db2, tx, it)) :
    tx.blockchain_tx_hash = none := by
  obtain ⟨id, item, hparse, hitem⟩ := createTransactionWork_found env db req ty _ h
  obtain ⟨_, _, _, _, _, _, _, _, _, _, _, _, hh⟩ :=
    createTransactionWork_inv env db req ty item id db2 tx it hparse hitem h
  exact hh

theorem buyItemWork_hash_none (env : Env) (db : Db) (req : Request)
    (db2 : Db) (tx : Transaction) (it : Item)
    (h : buyItemWork env db req = .ok (db2, tx, it)) :
    tx.blockchain_tx_hash = none := by
  obtain ⟨id, item, hparse, hitem⟩ := buyItemWork_found env db req _ h
  obtain ⟨_, _, _, _, _, _, _, _, _, _, _, _, _, hh⟩ :=
    buyItemWork_inv env db req item id db2 tx it hparse hitem h
  exact hh

theorem attachDigest_of_failure (env : Env) (db : Db) (tx : Transaction)
    (h : env.generateTransactionHash tx = none ∨ env.fault .attachHash ≠ none) :
    attachDigest env db tx = (db, tx) := by
  unfold attachDigest
  rcases h with h | h
  · rw [h]
  · cases hg : env.generateTransactionHash tx with
    | none => rfl
    | some d =>
      cases hf : env.fault .attachHash with
      | none => exact absurd hf h
      | some m => rfl

theorem runInTransaction_ok {α : Type} (env : Env) (work : Except String (Db × α))
    (r : Db × α) (h : runInTransaction env work = .ok r) :
    work = .ok r ∧ env.fault .commit = none := by
  unfold runInTransaction at h
  cases work with
  | error e => simp at h
  | ok r' =>
    cases hc : env.fault .commit with
    | some m => rw [hc] at h; simp at h
    | none =>
      rw [hc] at h
      simp only [Except.ok.injEq] at h
      exact ⟨by rw [h], rfl⟩

theorem validType_truthy (ty : String) (h : ty ∈ validTypes) :
    (JsVal.str ty).truthy = true ∧ validTypesIncludes (.str ty) = true := by
  simp only [validTypes, List.mem_cons, List.mem_singleton, List.not_mem_nil, or_false] at h
  rcases h with rfl | rfl | rfl <;> decide

theorem attachDigest_frame (env : Env) (db2 : Db) (old : List Transaction) (tx : Transaction)
    (hdb : db2.transactions = old ++ [tx]) (hfresh : ∀ t ∈ old, t.id ≠ tx.id) :
    (attachDigest env db2 tx).1.items = db2.items ∧
    (attachDigest env db2 tx).1.transactions = old ++ [(attachDigest env db2 tx).2] ∧
    (attachDigest env db2 tx).2.id = tx.id ∧
    (attachDigest env db2 tx).2.item_id = tx.item_id ∧
    (attachDigest env db2 tx).2.transaction_type = tx.transaction_type ∧
    (attachDigest env db2 tx).2.quantity = tx.quantity ∧
    (attachDigest env db2 tx).2.transaction_date = tx.transaction_date ∧
    (attachDigest env db2 tx).2.user_id = tx.user_id ∧
    (attachDigest env db2 tx).2.notes = tx.notes := by
  refine ⟨attachDigest_items env db2 tx, attachDigest_transactions env db2 old tx hdb hfresh, ?_⟩
  rcases attachDigest_row env db2 tx with h | ⟨d, h⟩ <;> rw [h] <;> simp

/-! ## Lemmas: `verifyBlockchainTransaction` -/

theorem verifyBlockchainTransaction_db (env : Env) (db : Db) (id : String) :
    (verifyBlockchainTransaction env db id).2 = db := by
  unfold verifyBlockchainTransaction
  split <;> rfl

theorem verifyBlockchainTransactionWork_found (env : Env) (db : Db) (id : String) (n : Int)
    (hparse : numberParseInt (.str id) = some n) (hfault : env.fault .findTransaction = none) :
    verifyBlockchainTransactionWork env db id =
      match db.findTransaction n with
      | none => .ok { status := 404, success := false, message := some "Transaction not found" }
      | some transaction => verifyFound env transaction := by
  simp only [verifyBlockchainTransactionWork, hparse, findUniqueTransaction, hfault, bind,
    Except.bind, pure, Except.pure]

theorem isEmpty_false_of_ne (s : String) (h : s ≠ "") : s.data.isEmpty = false := by
  cases hd : s.data with
  | nil =>
    exfalso
    apply h
    cases s
    simp only at hd
    rw [hd]
  | cons c cs => rfl

theorem verifyBlockchainTransaction_ok (env : Env) (db : Db) (id : String) (n : Int)
    (tx : Transaction) (digest : String) (valid : Bool) (url : String)
    (hparse : numberParseInt (.str id) = some n) (hfault : env.fault .findTransaction = none)
    (hfind : db.findTransaction n = some tx) (hdig : tx.blockchain_tx_hash = some digest)
    (hne : digest ≠ "") (hver : env.verifyTransactionHash tx digest = .ok valid)
    (hurl : env.getBlockExplorerUrl digest = .ok url) :
    (verifyBlockchainTransaction env db id).1 =
      { status := 200, success := true,
        data := some { transaction_id := tx.id, blockchain_tx_hash := digest,
                       is_valid := valid, block_explorer_url := url } } := by
  have hwork := verifyBlockchainTransactionWork_found env db id n hparse hfault
  have hne' := isEmpty_false_of_ne digest hne
  unfold verifyBlockchainTransaction
  rw [hwork, hfind]
  simp [verifyFound, hdig, hne', hver, hurl, bind, Except.bind, pure, Except.pure]

/-! ## Lemmas: the digest round trip -/

theorem attachDigest_row_digest (env : Env) (db : Db) (tx : Transaction) :
    (attachDigest env db tx).2 = tx ∨
      ∃ h, env.generateTransactionHash tx = some h ∧
        (attachDigest env db tx).2 = { tx with blockchain_tx_hash := some h } := by
  unfold attachDigest
  cases hg : env.generateTransactionHash tx with
  | none => exact Or.inl rfl
  | some h =>
    simp only
    split
    · exact Or.inl rfl
    · split
      · exact Or.inr ⟨h, rfl, rfl⟩
      · exact Or.inl rfl

theorem findTransaction_append_fresh (items : List Item) (old : List Transaction)
    (tx : Transaction) (hfresh : ∀ t ∈ old, t.id ≠ tx.id) :
    ({ items := items, transactions := old ++ [tx] } : Db).findTransaction tx.id = some tx := by
  unfold Db.findTransaction
  simp only
  induction old with
  | nil => simp
  | cons r rs ih =>
    have hr : r.id ≠ tx.id := hfresh r (List.mem_cons_self _ _)
    rw [List.cons_append, List.find?_cons_of_neg]
    · exact ih (fun t ht => hfresh t (List.mem_cons_of_mem _ ht))
    · simpa using hr

theorem canonicalString_with_digest (tx : Transaction) (h : Option String) :
    canonicalString { tx with blockchain_tx_hash := h } = canonicalString tx := rfl

theorem round_trip_after_attach (sha256 : String → String) (env : Env) (db db2 : Db)
    (tx0 : Transaction) (id : String) (tx : Transaction)
    (hspec : env.followsSpec sha256) (hne : ∀ s, sha256 s ≠ "")
    (hfault : env.fault .findTransaction = none)
    (hdb2 : db2.transactions = db.transactions ++ [tx0]) (hid0 : tx0.id = db.nextTransactionId)
    (hnone : tx0.blockchain_tx_hash = none)
    (htx : (attachDigest env db2 tx0).2 = tx) (hdig : tx.blockchain_tx_hash ≠ none)
    (hparse : numberParseInt (.str id) = some tx.id) :
    ∃ url, (verifyBlockchainTransaction env (attachDigest env db2 tx0).1 id).1 =
      { status := 200, success := true,
        data := some { transaction_id := tx.id, blockchain_tx_hash := computeDigest sha256 tx,
                       is_valid := true, block_explorer_url := url } } := by
  obtain ⟨hgen, hver, hurl⟩ := hspec
  have hfresh : ∀ t ∈ db.transactions, t.id ≠ tx0.id := by
    intro t ht
    rw [hid0]
    exact nextTransactionId_fresh db t ht
  have hrows := attachDigest_transactions env db2 db.transactions tx0 hdb2 hfresh
  rcases attachDigest_row_digest env db2 tx0 with h | ⟨d, hd, h⟩
  · rw [h] at htx
    rw [← htx] at hdig
    exact absurd hnone hdig
  · rw [hgen tx0] at hd
    simp only [Option.some.injEq] at hd
    rw [h] at htx hrows
    have hcs : computeDigest sha256 tx = d := by
      rw [← htx, ← hd]
      rfl
    have hidx : tx.id = tx0.id := by rw [← htx]
    have hfind : (attachDigest env db2 tx0).1.findTransaction tx.id = some tx := by
      have := findTransaction_append_fresh (attachDigest env db2 tx0).1.items db.transactions tx
        (fun t ht => by rw [hidx]; exact hfresh t ht)
      rw [← htx] at this ⊢
      rw [← hrows] at this
      exact this
    obtain ⟨url, hu⟩ := hurl d
    refine ⟨url, ?_⟩
    have hdne : d ≠ "" := by rw [← hd]; exact hne _
    have hvalid : env.verifyTransactionHash tx d = .ok true := by
      rw [hver tx d]
      simp [verifyDigest, hcs, isEmpty_false_of_ne d hdne]
    rw [hcs]
    exact verifyBlockchainTransaction_ok env _ id tx.id tx d true url hparse hfault hfind
      (by rw [← htx]) hdne hvalid hu

theorem createTransaction_data (env : Env) (db : Db) (req : Request) :
    (createTransaction env db req).1.transaction.isSome
      = (createTransaction env db req).1.success := by
  unfold createTransaction
  repeat' split
  all_goals rfl

theorem buyItem_data (env : Env) (db : Db) (req : Request) :
    (buyItem env db req).1.transaction.isSome = (buyItem env db req).1.success := by
  unfold buyItem
  repeat' split
  all_goals rfl

/-! ## Lemmas: the seed script -/

theorem seedTransactions_hash (sha256 : String → String) (users : SeedUsers)
    (allItems : List Item) (draws : SeedDraws) (r : TransactionData)
    (hr : r ∈ seedTransactions sha256 users allItems draws) :
    r.blockchain_tx_hash
      = seedHash sha256 r.item_id r.transaction_type r.quantity r.transaction_date r.user_id := by
  unfold seedTransactions at hr
  simp only [List.mem_append, List.mem_map] at hr
  rcases hr with ((⟨p, _, rfl⟩ | ⟨p, _, rfl⟩) | ⟨p, _, rfl⟩) | ⟨p, _, rfl⟩ <;> rfl

theorem createManyTransactions_rows (rows : List TransactionData) (db : Db)
    (P : Transaction → Prop) (hP : ∀ r ∈ rows, ∀ id, P (r.toRow id)) :
    (createManyTransactions db rows).items = db.items ∧
    ∃ created, (createManyTransactions db rows).transactions = db.transactions ++ created ∧
      created.length = rows.length ∧ ∀ t ∈ created, P t := by
  induction rows generalizing db with
  | nil => exact ⟨rfl, [], by simp [createManyTransactions], rfl, by simp⟩
  | cons r rows ih =>
    have hrest : ∀ r' ∈ rows, ∀ id, P (r'.toRow id) :=
      fun r' hr' => hP r' (List.mem_cons_of_mem _ hr')
    simp only [createManyTransactions, List.foldl_cons]
    obtain ⟨hitems, created, hc, hlen, hall⟩ := ih
      { items := db.items, transactions := db.transactions ++ [r.toRow db.nextTransactionId] }
      hrest
    simp only [createManyTransactions] at hitems hc
    refine ⟨hitems, r.toRow db.nextTransactionId :: created, ?_, by simp [hlen], ?_⟩
    · rw [hc, List.append_assoc]
      rfl
    · intro t ht
      rcases List.mem_cons.mp ht with rfl | ht
      · exact hP r (List.mem_cons_self _ _) _
      · exact hall t ht

/-! ## Lemmas: the digest input is injective -/

theorem append_cons_inj_of_not_mem (c : Char) :
    ∀ (a a' b b' : List Char), c ∉ a → c ∉ a' → a ++ c :: b = a' ++ c :: b' →
      a = a' ∧ b = b' := by
  intro a
  induction a with
  | nil =>
    intro a' b b' _ h' h
    cases a' with
    | nil => simpa using h
    | cons x xs =>
      exfalso
      simp only [List.nil_append, List.cons_append, List.cons.injEq] at h
      exact h' (by rw [← h.1]; exact List.mem_cons_self _ _)
  | cons y ys ih =>
    intro a' b b' hm h' h
    cases a' with
    | nil =>
      exfalso
      simp only [List.nil_append, List.cons_append, List.cons.injEq] at h
      exact hm (by rw [h.1]; exact List.mem_cons_self _ _)
    | cons x xs =>
      simp only [List.cons_append, List.cons.injEq] at h
      obtain ⟨hxy, hrest⟩ := h
      have := ih xs b b' (fun hc => hm (List.mem_cons_of_mem _ hc))
        (fun hc => h' (List.mem_cons_of_mem _ hc)) hrest
      exact ⟨by rw [hxy, this.1], this.2⟩

theorem digitChar_ne (d : Nat) (h : d < 10) :
    digitChar d ≠ '-' ∧ digitChar d ≠ 'e' ∧ digitChar d ≠ '.' := by
  interval_cases d <;> decide

theorem digitChar_inj (d d' : Nat) (h : d < 10) (h' : d' < 10)
    (e : digitChar d = digitChar d') : d = d' := by
  have hv := digitValue_digitChar d h
  rw [e, digitValue_digitChar d' h'] at hv
  exact (Option.some.inj hv).symm

theorem digitChars_inj :
    ∀ (l l' : List Nat), (∀ d ∈ l, d < 10) → (∀ d ∈ l', d < 10) →
      digitChars l = digitChars l' → l = l' := by
  intro l
  induction l with
  | nil =>
    intro l' _ _ h
    cases l' with
    | nil => rfl
    | cons x xs => simp [digitChars] at h
  | cons y ys ih =>
    intro l' hl hl' h
    cases l' with
    | nil => simp [digitChars] at h
    | cons x xs =>
      simp only [digitChars, List.map_cons, List.cons.injEq] at h
      have hyx := digitChar_inj y x (hl y (List.mem_cons_self _ _))
        (hl' x (List.mem_cons_self _ _)) h.1
      have := ih xs (fun d hd => hl d (List.mem_cons_of_mem _ hd))
        (fun d hd => hl' d (List.mem_cons_of_mem _ hd)) h.2
      rw [hyx, this]

theorem digitChars_not_mem (l : List Nat) (hl : ∀ d ∈ l, d < 10) :
    '-' ∉ digitChars l ∧ 'e' ∉ digitChars l ∧ '.' ∉ digitChars l := by
  refine ⟨?_, ?_, ?_⟩ <;>
  · intro hc
    simp only [digitChars, List.mem_map] at hc
    obtain ⟨x, hx, hxc⟩ := hc
    have := digitChar_ne x (hl x hx)
    simp [hxc] at this

theorem decimalDigits_inj (a b : Nat) (h : decimalDigits a = decimalDigits b) : a = b := by
  rw [decimalDigits_eq, decimalDigits_eq] at h
  exact Nat.digits.injective 10 (List.reverse_injective h)

theorem stripTrailingZeros_lt (ds : List Nat) (h : ∀ d ∈ ds, d < 10) :
    ∀ d ∈ stripTrailingZeros ds, d < 10 := by
  intro d hd
  apply h
  unfold stripTrailingZeros at hd
  rw [List.mem_reverse] at hd
  exact List.mem_reverse.mp ((List.dropWhile_sublist _).subset hd)

theorem positiveToString_plain (a : Nat) (hlen : (decimalDigits a).length ≤ 21) :
    positiveToString a 0 = digitChars (decimalDigits a) := by
  have hle := stripTrailingZeros_length_le (decimalDigits a)
  have hpad := stripTrailingZeros_pad (decimalDigits a)
  unfold positiveToString
  simp only [Nat.cast_zero, sub_zero]
  rw [if_pos ⟨by exact_mod_cast hle, by exact_mod_cast hlen⟩]
  have hk : ((↑(decimalDigits a).length : Int) - ↑(stripTrailingZeros (decimalDigits a)).length).toNat
      = (decimalDigits a).length - (stripTrailingZeros (decimalDigits a)).length := by
    omega
  rw [hk, ← digitChars_replicate_zero]
  unfold digitChars
  rw [← List.map_append, hpad]

theorem positiveToString_scientific (a : Nat) (hlen : 21 < (decimalDigits a).length) :
    positiveToString a 0
      = (if (stripTrailingZeros (decimalDigits a)).length = 1
          then digitChars (stripTrailingZeros (decimalDigits a))
          else digitChars ((stripTrailingZeros (decimalDigits a)).take 1) ++
            '.' :: digitChars ((stripTrailingZeros (decimalDigits a)).drop 1)) ++
        'e' :: '+' :: digitChars (decimalDigits ((decimalDigits a).length - 1)) := by
  have hexp : exponentChars (((decimalDigits a).length : Int) - 1)
      = 'e' :: '+' :: digitChars (decimalDigits ((decimalDigits a).length - 1)) := by
    unfold exponentChars
    rw [if_neg (by omega)]
    have : (((decimalDigits a).length : Int) - 1).natAbs = (decimalDigits a).length - 1 := by
      omega
    rw [this]
  unfold positiveToString
  simp only [Nat.cast_zero, sub_zero]
  rw [if_neg (by omega), if_neg (by omega), if_neg (by omega), hexp]
  split
  · rfl
  · simp

theorem mantissa_inj (s s' : List Nat) (hs : ∀ d ∈ s, d < 10) (hs' : ∀ d ∈ s', d < 10)
    (h : (if s.length = 1 then digitChars s
        else digitChars (s.take 1) ++ '.' :: digitChars (s.drop 1))
      = (if s'.length = 1 then digitChars s'
        else digitChars (s'.take 1) ++ '.' :: digitChars (s'.drop 1))) : s = s' := by
  have ht : ∀ d ∈ s.take 1, d < 10 := fun d hd => hs d (List.mem_of_mem_take hd)
  have ht' : ∀ d ∈ s'.take 1, d < 10 := fun d hd => hs' d (List.mem_of_mem_take hd)
  have hd : ∀ d ∈ s.drop 1, d < 10 := fun d hd => hs d (List.mem_of_mem_drop hd)
  have hd' : ∀ d ∈ s'.drop 1, d < 10 := fun d hd => hs' d (List.mem_of_mem_drop hd)
  by_cases c : s.length = 1 <;> by_cases c' : s'.length = 1
  · rw [if_pos c, if_pos c'] at h
    exact digitChars_inj s s' hs hs' h
  · rw [if_pos c, if_neg c'] at h
    exfalso
    apply (digitChars_not_mem s hs).2.2
    rw [h]
    exact List.mem_append_right _ (List.mem_cons_self _ _)
  · rw [if_neg c, if_pos c'] at h
    exfalso
    apply (digitChars_not_mem s' hs').2.2
    rw [← h]
    exact List.mem_append_right _ (List.mem_cons_self _ _)
  · rw [if_neg c, if_neg c'] at h
    obtain ⟨h1, h2⟩ := append_cons_inj_of_not_mem '.' _ _ _ _
      (digitChars_not_mem _ ht).2.2 (digitChars_not_mem _ ht').2.2 h
    rw [← List.take_append_drop 1 s, ← List.take_append_drop 1 s',
      digitChars_inj _ _ ht ht' h1, digitChars_inj _ _ hd hd' h2]

theorem mantissa_not_mem (s : List Nat) (hs : ∀ d ∈ s, d < 10) :
    '-' ∉ (if s.length = 1 then digitChars s
        else digitChars (s.take 1) ++ '.' :: digitChars (s.drop 1)) ∧
    'e' ∉ (if s.length = 1 then digitChars s
        else digitChars (s.take 1) ++ '.' :: digitChars (s.drop 1)) := by
  have ht : ∀ d ∈ s.take 1, d < 10 := fun d hd => hs d (List.mem_of_mem_take hd)
  have hd : ∀ d ∈ s.drop 1, d < 10 := fun d hd => hs d (List.mem_of_mem_drop hd)
  have a := digitChars_not_mem s hs
  have b := digitChars_not_mem _ ht
  have c := digitChars_not_mem _ hd
  split
  · exact ⟨a.1, a.2.1⟩
  · constructor
    · intro h
      rcases List.mem_append.mp h with h | h
      · exact b.1 h
      · rcases List.mem_cons.mp h with h | h
        · exact absurd h (by decide)
        · exact c.1 h
    · intro h
      rcases List.mem_append.mp h with h | h
      · exact b.2.1 h
      · rcases List.mem_cons.mp h with h | h
        · exact absurd h (by decide)
        · exact c.2.1 h

theorem positiveToString_inj (a b : Nat)
    (h : positiveToString a 0 = positiveToString b 0) : a = b := by
  have hA := decimalDigits_lt a
  have hB := decimalDigits_lt b
  have hsA := stripTrailingZeros_lt _ hA
  have hsB := stripTrailingZeros_lt _ hB
  by_cases ca : (decimalDigits a).length ≤ 21 <;> by_cases cb : (decimalDigits b).length ≤ 21
  · rw [positiveToString_plain a ca, positiveToString_plain b cb] at h
    exact decimalDigits_inj a b (digitChars_inj _ _ hA hB h)
  · rw [positiveToString_plain a ca, positiveToString_scientific b (by omega)] at h
    exfalso
    apply (digitChars_not_mem _ hA).2.1
    rw [h]
    exact List.mem_append_right _ (List.mem_cons_self _ _)
  · rw [positiveToString_scientific a (by omega), positiveToString_plain b cb] at h
    exfalso
    apply (digitChars_not_mem _ hB).2.1
    rw [← h]
    exact List.mem_append_right _ (List.mem_cons_self _ _)
  · rw [positiveToString_scientific a (by omega), positiveToString_scientific b (by omega)] at h
    obtain ⟨hm, he⟩ := append_cons_inj_of_not_mem 'e' _ _ _ _
      (mantissa_not_mem _ hsA).2 (mantissa_not_mem _ hsB).2 h
    have hs := mantissa_inj _ _ hsA hsB hm
    simp only [List.cons.injEq, true_and] at he
    have hlen := decimalDigits_inj _ _
      (digitChars_inj _ _ (decimalDigits_lt _) (decimalDigits_lt _) he)
    have hlen' : (decimalDigits a).length = (decimalDigits b).length := by omega
    apply decimalDigits_inj
    rw [← stripTrailingZeros_pad (decimalDigits a), ← stripTrailingZeros_pad (decimalDigits b),
      hs, hlen']

theorem positiveToString_no_dash (a : Nat) : '-' ∉ positiveToString a 0 := by
  have hA := decimalDigits_lt a
  have hsA := stripTrailingZeros_lt _ hA
  by_cases ca : (decimalDigits a).length ≤ 21
  · rw [positiveToString_plain a ca]
    exact (digitChars_not_mem _ hA).1
  · rw [positiveToString_scientific a (by omega)]
    intro h
    rcases List.mem_append.mp h with h | h
    · exact (mantissa_not_mem _ hsA).1 h
    · rcases List.mem_cons.mp h with h | h
      · exact absurd h (by decide)
      · rcases List.mem_cons.mp h with h | h
        · exact absurd h (by decide)
        · exact (digitChars_not_mem _ (decimalDigits_lt _)).1 h

theorem intString_pos (n : Int) (hn : 0 < n) : intString n = positiveToString n.natAbs 0 := by
  unfold intString JsNum.ofInt JsNum.toJsString
  simp only
  rw [if_neg (by omega), if_neg (by omega)]

theorem intString_inj (m n : Int) (hm : 0 < m) (hn : 0 < n)
    (h : intString m = intString n) : m = n := by
  rw [intString_pos m hm, intString_pos n hn] at h
  have := positiveToString_inj _ _ h
  omega

theorem intString_no_dash (n : Int) (hn : 0 < n) : '-' ∉ intString n := by
  rw [intString_pos n hn]
  exact positiveToString_no_dash _

theorem transactionKinds_no_dash (ty : String) (h : ty ∈ transactionKinds) : '-' ∉ ty.data := by
  simp only [transactionKinds, List.mem_cons, List.mem_singleton, List.not_mem_nil, or_false] at h
  rcases h with h | h | h | h <;> subst h <;> decide

theorem digestInput_inj (i i' q q' u u' : Int) (ty ty' : String) (d d' : List Char)
    (hi : 0 < i) (hi' : 0 < i') (hq : 0 < q) (hq' : 0 < q') (hu : 0 < u) (hu' : 0 < u')
    (hty : ty ∈ transactionKinds) (hty' : ty' ∈ transactionKinds)
    (hd : d.length = 24) (hd' : d'.length = 24)
    (h : digestInput i ty q d u = digestInput i' ty' q' d' u') :
    i = i' ∧ ty = ty' ∧ q = q' ∧ d = d' ∧ u = u' := by
  unfold digestInput at h
  obtain ⟨h1, h⟩ := append_cons_inj_of_not_mem '-' _ _ _ _
    (intString_no_dash i hi) (intString_no_dash i' hi') h
  obtain ⟨h2, h⟩ := append_cons_inj_of_not_mem '-' _ _ _ _
    (transactionKinds_no_dash ty hty) (transactionKinds_no_dash ty' hty') h
  obtain ⟨h3, h⟩ := append_cons_inj_of_not_mem '-' _ _ _ _
    (intString_no_dash q hq) (intString_no_dash q' hq') h
  obtain ⟨h4, h5⟩ := List.append_inj h (by rw [hd, hd'])
  simp only [List.cons.injEq, true_and] at h5
  refine ⟨intString_inj i i' hi hi' h1, ?_, intString_inj q q' hq hq' h3, h4,
    intString_inj u u' hu hu' h5⟩
  cases ty
  cases ty'
  simp only at h2
  rw [h2]

/-! ## Lemmas: `deleteItem` -/

theorem deleteItem_cases (env : Env) (db : Db) (id : String) :
    (deleteItem env db id).2 = db ∨
      ∃ n item, numberParseInt (.str id) = some n ∧ db.findItem n = some item ∧
        (∀ t ∈ db.transactions, t.item_id ≠ n) ∧
        deleteItem env db id =
          ({ status := 200, success := true, message := "Item deleted successfully" },
           { db with items := db.items.filter (fun r => !decide (r.id = n)) }) := by
  unfold deleteItem deleteItemWork
  cases hp : numberParseInt (.str id) with
  | none => left; simp [findUniqueItem, bind, Except.bind]
  | some n =>
    cases hf : env.fault .findItem with
    | some m => left; simp [findUniqueItem, hf, bind, Except.bind]
    | none =>
      cases hitem : db.findItem n with
      | none => left; simp [findUniqueItem, hf, hitem, bind, Except.bind, pure, Except.pure]
      | some item =>
        cases hft : env.fault .findTransactions with
        | some m =>
          left
          simp [findUniqueItem, hf, hitem, deleteFound, findManyTransactionsOfItem, hp, hft, bind,
            Except.bind]
        | none =>
          by_cases hrows : (db.transactions.filter (fun t => decide (t.item_id = n))).length > 0
          · left
            simp [findUniqueItem, hf, hitem, deleteFound, findManyTransactionsOfItem, hp, hft,
              hrows, bind, Except.bind, pure, Except.pure]
          · cases hfd : env.fault .deleteItem with
            | some m =>
              left
              simp [findUniqueItem, hf, hitem, deleteFound, findManyTransactionsOfItem, hp, hft,
                hrows, deleteItemRow, hfd, bind, Except.bind, pure, Except.pure]
            | none =>
              right
              refine ⟨n, item, rfl, hitem, ?_, ?_⟩
              · intro t ht hn
                apply hrows
                apply List.length_pos_of_mem (a := t)
                simp [List.mem_filter, ht, hn]
              · simp [findUniqueItem, hf, hitem, deleteFound, findManyTransactionsOfItem, hp, hft,
                  hrows, deleteItemRow, hfd, bind, Except.bind, pure, Except.pure]

theorem seedStock_foldl (txs : List Transaction) (acc : Int) :
    txs.foldl (fun currentStock t =>
      if t.transaction_type = "initial_stock" ∨ t.transaction_type = "adjustment_increase" then
        currentStock + t.quantity
      else if t.transaction_type = "adjustment_decrease" ∨ t.transaction_type = "sale" then
        currentStock - t.quantity
      else currentStock) acc = acc + (txs.map signedDelta).sum := by
  induction txs generalizing acc with
  | nil => simp
  | cons t ts ih =>
    rw [List.foldl_cons, ih, List.map_cons, List.sum_cons]
    unfold signedDelta
    split
    · omega
    · split
      · omega
      · omega

theorem seedStock_eq (db : Db) (id : Int) :
    seedStock (db.transactions.filter (fun t => decide (t.item_id = id)))
      = max 0 (ledgerSum db id) := by
  unfold seedStock ledgerSum
  rw [seedStock_foldl, zero_add]

/-! ## Lemmas: the date of the recorded row -/

theorem insertTransaction_date (env : Env) (db : Db) (item_id : Option Int) (ty : String)
    (quantity : Option Int) (user_id : Int) (notes : JsVal) (t1 t2 : Int) :
    (∃ e, insertTransaction env db item_id ty quantity user_id notes (some t1) = .error e ∧
      insertTransaction env db item_id ty quantity user_id notes (some t2) = .error e) ∨
    ∃ db2 tx, insertTransaction env db item_id ty quantity user_id notes (some t1) = .ok (db2, tx) ∧
      tx.transaction_date = t1 ∧
      insertTransaction env db item_id ty quantity user_id notes (some t2)
        = .ok ({ db2 with transactions := db.transactions ++ [{ tx with transaction_date := t2 }] },
               { tx with transaction_date := t2 }) := by
  unfold insertTransaction
  cases item_id with
  | none => left; exact ⟨_, rfl, rfl⟩
  | some i =>
    cases quantity with
    | none => left; exact ⟨_, rfl, rfl⟩
    | some q =>
      cases notes with
      | null =>
        cases hf : env.fault .insertTransaction with
        | some m => left; exact ⟨m, rfl, rfl⟩
        | none => right; exact ⟨_, _, rfl, rfl, rfl⟩
      | str s =>
        cases hf : env.fault .insertTransaction with
        | some m => left; exact ⟨m, rfl, rfl⟩
        | none => right; exact ⟨_, _, rfl, rfl, rfl⟩
      | undefined => left; exact ⟨_, rfl, rfl⟩
      | bool b => left; exact ⟨_, rfl, rfl⟩
      | num x => left; exact ⟨_, rfl, rfl⟩

theorem createTransactionWork_date_some (env : Env) (db : Db) (req : Request) (ty : String)
    (db2 : Db) (tx : Transaction) (it : Item)
    (h : createTransactionWork env db req ty = .ok (db2, tx, it)) :
    (if req.transaction_date.truthy then env.parseDate req.transaction_date else some env.now)
      = some tx.transaction_date := by
  unfold createTransactionWork at h
  obtain ⟨item?, _, h⟩ := bind_ok _ _ _ h
  obtain ⟨item', _, h⟩ := bind_ok _ _ _ h
  obtain ⟨newStock, _, h⟩ := bind_ok _ _ _ h
  obtain ⟨⟨db1, it1⟩, _, h⟩ := bind_ok _ _ _ h
  obtain ⟨⟨db2', tx'⟩, h2, h⟩ := bind_ok _ _ _ h
  simp only [pure, Except.pure, Except.ok.injEq, Prod.mk.injEq] at h
  obtain ⟨_, rfl, _⟩ := h
  exact (insertTransaction_ok _ _ _ _ _ _ _ _ _ _ h2).2.2.2.2.2.2.2.2

theorem createTransaction_invalid_date (env : Env) (db : Db) (r : Request)
    (h : (if r.transaction_date.truthy then env.parseDate r.transaction_date
      else some env.now) = none) :
    (createTransaction env db r).1.success = false ∧
    ((createTransaction env db r).1.status = 400 ∨ (createTransaction env db r).1.status = 500) ∧
    (createTransaction env db r).2 = db := by
  rcases createTransaction_cases env db r with hf | ⟨ty, db2, tx, it, _, hw, _⟩
  · exact hf
  · rw [createTransactionWork_date_some env db r ty db2 tx it hw] at h
    simp at h

theorem createTransactionWork_date (env : Env) (db : Db) (r1 r2 : Request) (ty : String)
    (t1 t2 : Int)
    (hu : r1.user_id = r2.user_id) (hi : r1.item_id = r2.item_id)
    (hq : r1.quantity = r2.quantity) (hn : r1.notes = r2.notes)
    (h1 : (if r1.transaction_date.truthy then env.parseDate r1.transaction_date
      else some env.now) = some t1)
    (h2 : (if r2.transaction_date.truthy then env.parseDate r2.transaction_date
      else some env.now) = some t2) :
    (∃ e, createTransactionWork env db r1 ty = .error e ∧
      createTransactionWork env db r2 ty = .error e) ∨
    ∃ db2 db2' tx it,
      createTransactionWork env db r1 ty = .ok (db2, tx, it) ∧
      createTransactionWork env db r2 ty = .ok (db2', { tx with transaction_date := t2 }, it) ∧
      db2'.items = db2.items ∧ tx.transaction_date = t1 := by
  unfold createTransactionWork
  rw [h1, h2, ← hu, ← hi, ← hq, ← hn]
  cases hfu : findUniqueItem env db (numberParseInt r1.item_id) with
  | error e => left; exact ⟨e, rfl, rfl⟩
  | ok item? =>
    cases hreq : requireItem item? with
    | error e => left; exact ⟨e, by simp [bind, Except.bind, hreq], by simp [bind, Except.bind, hreq]⟩
    | ok item =>
      cases hnew : computeNewStock ty item r1.quantity with
      | error e =>
        left
        exact ⟨e, by simp [bind, Except.bind, hreq, hnew], by simp [bind, Except.bind, hreq, hnew]⟩
      | ok newStock =>
        cases hup : updateItemStock env db (numberParseInt r1.item_id) newStock with
        | error e =>
          left
          exact ⟨e, by simp [bind, Except.bind, hreq, hnew, hup],
            by simp [bind, Except.bind, hreq, hnew, hup]⟩
        | ok r =>
          obtain ⟨db1, it⟩ := r
          rcases insertTransaction_date env db1 (numberParseInt r1.item_id) ty
            (numberParseInt r1.quantity) r1.user_id
            (if r1.notes.truthy then r1.notes else .null) t1 t2 with
            ⟨e, he1, he2⟩ | ⟨db2, tx, hok1, hdate, hok2⟩
          · left
            exact ⟨e, by simp [bind, Except.bind, hreq, hnew, hup, he1],
              by simp [bind, Except.bind, hreq, hnew, hup, he2]⟩
          · right
            refine ⟨db2, ⟨db2.items, db1.transactions ++ [{ tx with transaction_date := t2 }]⟩,
              tx, it, ?_, ?_, rfl, hdate⟩
            · simp [bind, Except.bind, hreq, hnew, hup, hok1, pure, Except.pure]
            · simp [bind, Except.bind, hreq, hnew, hup, hok2, pure, Except.pure]

/-! ## Lemmas: the filter of `getAllTransactions` -/

theorem matchesWhere_search_only (db : Db) (s : String) (hs : s.data.isEmpty = false)
    (tx : Transaction) :
    matchesWhere db { search := some s } none none tx = matchesItemSearch db s tx := by
  simp [matchesWhere, hs]

theorem matchesItemSearch_iff (db : Db) (s : String) (tx : Transaction) :
    matchesItemSearch db s tx = true ↔
      ∃ item, db.findItem tx.item_id = some item ∧
        (containsInsensitive item.item_name s = true ∨ containsInsensitive item.SKU s = true) := by
  unfold matchesItemSearch
  cases h : db.findItem tx.item_id with
  | none => simp
  | some item => simp

/-! ## Lemmas: pages -/

theorem ceilQuotient_pos (total limit : Int) (hl : 0 < limit) :
    ∃ n, ceilQuotient total limit = .ofInt n ∧ (n - 1) * limit < total ∧ total ≤ n * limit := by
  refine ⟨-((-total) / limit), ?_, ?_, ?_⟩
  · unfold ceilQuotient
    rw [if_neg (by omega), if_pos hl]
  · have h1 := Int.ediv_add_emod (-total) limit
    have h3 := Int.emod_lt_of_pos (-total) hl
    nlinarith
  · have h1 := Int.ediv_add_emod (-total) limit
    have h2 := Int.emod_nonneg (-total) (by omega : limit ≠ 0)
    nlinarith

theorem page_length {α : Type} (sorted : List α) (skip limit : Int) (hs : 0 ≤ skip)
    (hl : 0 ≤ limit) :
    (((sorted.drop skip.toNat).take limit.toNat).length : Int)
      = min limit (max 0 ((sorted.length : Int) - skip)) := by
  rw [List.length_take, List.length_drop]
  obtain ⟨k, rfl⟩ := Int.eq_ofNat_of_zero_le hs
  obtain ⟨m, rfl⟩ := Int.eq_ofNat_of_zero_le hl
  simp only [Int.toNat_ofNat]
  omega

theorem page_getElem {α : Type} (sorted : List α) (skip limit i : Nat) (hi : i < limit) :
    ((sorted.drop skip).take limit)[i]? = sorted[skip + i]? := by
  rw [List.getElem?_take_of_lt hi, List.getElem?_drop]

theorem getAllTransactions_page (env : Env) (db : Db) (q : ListQuery) (pq : PageQuery)
    (matching sorted : List Transaction) (p l : Int)
    (hmatch : getAllTransactionsMatching env db q = .ok matching)
    (hfault : env.fault .findTransactions = none)
    (hsort : env.orderTransactions (orderSpec pq "transaction_date" true).1
      (orderSpec pq "transaction_date" true).2 matching = some sorted)
    (hp : queryInt pq.page 1 = some p) (hl : queryInt pq.limit 10 = some l)
    (hp1 : 1 ≤ p) (hl1 : 1 ≤ l) :
    getAllTransactions env db q pq =
      { status := 200,
        data := (sorted.drop ((p - 1) * l).toNat).take l.toNat,
        pagination := some { total := matching.length, page := p, limit := l,
                             totalPages := ceilQuotient matching.length l } } := by
  have hskip : ¬ (p - 1) * l < 0 := by
    have : 0 ≤ (p - 1) * l := mul_nonneg (by omega) (by omega)
    omega
  unfold getAllTransactions getAllTransactionsWork
  simp [hmatch, hp, hl, bind, Except.bind, pure, Except.pure, findManyTransactionsPage, hfault,
    hsort, skipOf, skipTake, hskip, paginationOf, show 0 ≤ l by omega]

theorem isEmpty_iff_eq (s : String) : s.data.isEmpty = true ↔ s = "" := by
  constructor
  · intro h
    cases s with
    | mk data =>
      cases data with
      | nil => rfl
      | cons a r => simp at h
  · intro h
    rw [h]
    rfl

theorem dateBound_some_iff (env : Env) (v : Option String) (bound : Option Int)
    (h : dateBound env v = .ok bound) (t : Int) :
    bound = some t ↔ ∃ s, v = some s ∧ s ≠ "" ∧ env.parseDate (.str s) = some t := by
  unfold dateBound at h
  cases v with
  | none =>
    simp only [Except.ok.injEq] at h
    subst h
    simp
  | some s =>
    simp only at h
    by_cases he : s.data.isEmpty = true
    · rw [if_pos he] at h
      simp only [Except.ok.injEq] at h
      subst h
      have : s = "" := (isEmpty_iff_eq s).mp he
      simp [this]
    · rw [if_neg he] at h
      have hne : s ≠ "" := fun hs => he ((isEmpty_iff_eq s).mpr hs)
      cases hp : env.parseDate (.str s) with
      | none => rw [hp] at h; simp at h
      | some t' =>
        rw [hp] at h
        simp only [Except.ok.injEq] at h
        subst h
        constructor
        · intro ht
          exact ⟨s, rfl, hne, by rw [hp, ht]⟩
        · rintro ⟨s', hs', _, hp'⟩
          simp only [Option.some.injEq] at hs'
          subst hs'
          rw [hp] at hp'
          exact hp'

theorem matchesWhere_iff (db : Db) (q : ListQuery) (gte lte : Option Int) (tx : Transaction) :
    matchesWhere db q gte lte tx = true ↔
      (∀ ty, q.type = some ty → ty ≠ "" → tx.transaction_type = ty) ∧
      (∀ t, gte = some t → t ≤ tx.transaction_date) ∧
      (∀ t, lte = some t → tx.transaction_date ≤ t) ∧
      (∀ s, q.search = some s → s ≠ "" → matchesItemSearch db s tx = true) := by
  unfold matchesWhere
  simp only [Bool.and_eq_true]
  have h1 : (match q.type with
      | some ty => if ty.data.isEmpty then true else decide (tx.transaction_type = ty)
      | none => true) = true ↔ ∀ ty, q.type = some ty → ty ≠ "" → tx.transaction_type = ty := by
    cases q.type with
    | none => simp
    | some ty =>
      by_cases he : ty.data.isEmpty = true
      · have : ty = "" := (isEmpty_iff_eq ty).mp he
        simp [this]
      · have hne : ty ≠ "" := fun hs => he ((isEmpty_iff_eq ty).mpr hs)
        simp [he, hne]
  have h2 : (match gte with
      | some t => decide (t ≤ tx.transaction_date)
      | none => true) = true ↔ ∀ t, gte = some t → t ≤ tx.transaction_date := by
    cases gte <;> simp
  have h3 : (match lte with
      | some t => decide (tx.transaction_date ≤ t)
      | none => true) = true ↔ ∀ t, lte = some t → tx.transaction_date ≤ t := by
    cases lte <;> simp
  have h4 : (match q.search with
      | some s => if s.data.isEmpty then true else matchesItemSearch db s tx
      | none => true) = true ↔ ∀ s, q.search = some s → s ≠ "" → matchesItemSearch db s tx = true := by
    cases q.search with
    | none => simp
    | some s =>
      by_cases he : s.data.isEmpty = true
      · have : s = "" := (isEmpty_iff_eq s).mp he
        simp [this]
      · have hne : s ≠ "" := fun hs => he ((isEmpty_iff_eq s).mpr hs)
        simp [he, hne]
  rw [h1, h2, h3, h4]
  tauto

theorem getAllTransactionsMatching_ok (env : Env) (db : Db) (q : ListQuery)
    (gte lte : Option Int)
    (hgte : dateBound env q.startDate = .ok gte) (hlte : dateBound env q.endDate = .ok lte)
    (hcount : env.fault .countTransactions = none) :
    getAllTransactionsMatching env db q
      = .ok (db.transactions.filter (matchesWhere db q gte lte)) := by
  simp [getAllTransactionsMatching, hgte, hlte, hcount, bind, Except.bind, pure, Except.pure]

/-! ## Lemmas: a sale and a decrease side by side -/

theorem createTransactionWork_decrease_ok (env : Env) (db : Db) (req : Request) (item : Item)
    (id q t : Int) (notes : Option String)
    (hparse : numberParseInt req.item_id = some id) (hitem : db.findItem id = some item)
    (hworks : env.storeWorks)
    (hqty : req.quantity = .num (.ofInt q)) (hq : 0 < q) (hlt : q < 10 ^ 21)
    (hle : q ≤ item.current_stock)
    (hnotes : (if req.notes.truthy then req.notes else .null)
      = (match notes with | some s => .str s | none => .null))
    (hdate : (if req.transaction_date.truthy then env.parseDate req.transaction_date
      else some env.now) = some t) :
    createTransactionWork env db req "adjustment_decrease" = .ok
      ({ items := db.items.map
           (fun r => if r.id = id then { r with current_stock := item.current_stock - q } else r),
         transactions := db.transactions ++
           [{ id := db.nextTransactionId, item_id := id, transaction_type := "adjustment_decrease",
              quantity := q, user_id := req.user_id, notes := notes,
              transaction_date := t, blockchain_tx_hash := none }] },
       { id := db.nextTransactionId, item_id := id, transaction_type := "adjustment_decrease",
         quantity := q, user_id := req.user_id, notes := notes,
         transaction_date := t, blockchain_tx_hash := none },
       { item with current_stock := item.current_stock - q }) := by
  obtain ⟨h1, h2, h3, _⟩ := hworks
  have hpq : numberParseInt (.num (.ofInt q)) = some q := numberParseInt_ofInt q hq hlt
  have hnl : ¬ item.current_stock < q := by omega
  unfold createTransactionWork
  rw [hnotes, hdate, hqty]
  cases notes <;>
  simp [hparse, findUniqueItem, h1, hitem, requireItem, computeNewStock, JsVal.toNumber,
    JsNum.lt_ofInt, hnl, parseIntNumber, hpq, JsNum.sub_ofInt, updateItemStock,
    JsNum.toInt_ofInt, h2, insertTransaction, h3, bind, Except.bind, pure, Except.pure,
    Db.nextTransactionId]

theorem createTransaction_decrease_ok (env : Env) (db : Db) (req : Request) (item : Item)
    (id q t : Int) (notes : Option String)
    (hid : req.item_id.truthy = true)
    (hparse : numberParseInt req.item_id = some id) (hitem : db.findItem id = some item)
    (hworks : env.storeWorks)
    (htype : req.transaction_type = .str "adjustment_decrease")
    (hqty : req.quantity = .num (.ofInt q)) (hq : 0 < q) (hlt : q < 10 ^ 21)
    (hle : q ≤ item.current_stock)
    (hnotes : (if req.notes.truthy then req.notes else .null)
      = (match notes with | some s => .str s | none => .null))
    (hdate : (if req.transaction_date.truthy then env.parseDate req.transaction_date
      else some env.now) = some t) :
    ∃ db2 tx, db2.items = db.items.map
        (fun r => if r.id = id then { r with current_stock := item.current_stock - q } else r) ∧
      db2.transactions = db.transactions ++ [tx] ∧
      tx = { id := db.nextTransactionId, item_id := id, transaction_type := "adjustment_decrease",
             quantity := q, user_id := req.user_id, notes := notes,
             transaction_date := t, blockchain_tx_hash := none } ∧
      createTransaction env db req =
        ({ status := 201, success := true, message := "Transaction recorded successfully",
           transaction := some (attachDigest env db2 tx).2,
           item := some { item with current_stock := item.current_stock - q } },
         (attachDigest env db2 tx).1) := by
  have hwork := createTransactionWork_decrease_ok env db req item id q t notes hparse hitem hworks
    hqty hq hlt hle hnotes hdate
  have hq0 : ¬ q ≤ 0 := by omega
  have hvalid : validTypesIncludes (.str "adjustment_decrease") = true := by decide
  have htruthy : (JsVal.str "adjustment_decrease").truthy = true := by decide
  refine ⟨⟨_, _⟩, _, rfl, rfl, rfl, ?_⟩
  unfold createTransaction
  rw [htype, hqty] at *
  simp [hid, htruthy, truthy_num_ofInt q (by omega), JsVal.toNumber, JsNum.le_ofInt, hq0, hvalid,
    hwork, runInTransaction, hworks.2.2.2]

theorem buyItem_ok (env : Env) (db : Db) (req : Request) (item : Item) (id q : Int)
    (hid : req.item_id.truthy = true)
    (hparse : numberParseInt req.item_id = some id) (hitem : db.findItem id = some item)
    (hworks : env.storeWorks)
    (hqty : req.quantity = .num (.ofInt q)) (hq : 0 < q) (hlt : q < 10 ^ 21)
    (hle : q ≤ item.current_stock) :
    ∃ db2 tx, db2.items = db.items.map
        (fun r => if r.id = id then { r with current_stock := item.current_stock - q } else r) ∧
      db2.transactions = db.transactions ++ [tx] ∧
      tx = { id := db.nextTransactionId, item_id := id, transaction_type := "sale",
             quantity := q, user_id := req.user_id, notes := some "Online Sale",
             transaction_date := env.now, blockchain_tx_hash := none } ∧
      buyItem env db req =
        ({ status := 200, success := true, message := "Purchase successful",
           transaction := some (attachDigest env db2 tx).2,
           item := some { item with current_stock := item.current_stock - q } },
         (attachDigest env db2 tx).1) := by
  have hnl : ¬ item.current_stock < q := by omega
  have hwork := buyItemWork_ok env db req item id (item.current_stock - q) q hparse hitem hworks
    (by rw [hqty]; simp [JsVal.toNumber, JsNum.lt_ofInt, hnl])
    (by rw [hqty]; simp [JsVal.toNumber, JsNum.sub_ofInt, JsNum.toInt_ofInt])
    (by rw [hqty]; exact numberParseInt_ofInt q hq hlt)
  have hq0 : ¬ q ≤ 0 := by omega
  refine ⟨⟨_, _⟩, _, rfl, rfl, rfl, ?_⟩
  unfold buyItem
  rw [hqty] at *
  simp [hid, truthy_num_ofInt q (by omega), JsVal.toNumber, JsNum.le_ofInt, hq0,
    hwork, runInTransaction, hworks.2.2.2]

theorem insufficient_both (env : Env) (db : Db) (reqB reqC : Request) (item : Item) (id q : Int)
    (hidB : reqB.item_id.truthy = true) (hidC : reqC.item_id.truthy = true)
    (hparseB : numberParseInt reqB.item_id = some id)
    (hparseC : numberParseInt reqC.item_id = some id)
    (hitem : db.findItem id = some item) (hfind : env.fault .findItem = none)
    (htype : reqC.transaction_type = .str "adjustment_decrease")
    (hqtyB : reqB.quantity = .num (.ofInt q)) (hqtyC : reqC.quantity = .num (.ofInt q))
    (hq : 0 < q) (hs : item.current_stock < q) :
    buyItem env db reqB = ({ status := 400, success := false, message := "Insufficient stock" }, db) ∧
    createTransaction env db reqC =
      ({ status := 400, success := false, message := "Insufficient stock for adjustment" }, db) := by
  have hq0 : ¬ q ≤ 0 := by omega
  constructor
  · have hwork := buyItemWork_insufficient env db reqB item id hparseB hitem hfind
      (by simp [hqtyB, JsVal.toNumber, JsNum.lt_ofInt, hs])
    unfold buyItem
    rw [hqtyB] at *
    have hm : messageOr "Insufficient stock" "Failed to complete purchase" = "Insufficient stock" := by
      decide
    simp [hidB, truthy_num_ofInt q (by omega), JsVal.toNumber, JsNum.le_ofInt, hq0, hwork,
      runInTransaction, hm]
  · have hinc : jsIncludes "Insufficient stock for adjustment" "Insufficient stock" = true := by
      decide
    have hmsg : messageOr "Insufficient stock for adjustment" "Failed to record transaction"
        = "Insufficient stock for adjustment" := by decide
    have hvalid : validTypesIncludes (.str "adjustment_decrease") = true := by decide
    have htruthy : (JsVal.str "adjustment_decrease").truthy = true := by decide
    have hwork : createTransactionWork env db reqC "adjustment_decrease"
        = .error "Insufficient stock for adjustment" := by
      simp [createTransactionWork, hparseC, findUniqueItem, hfind, hitem, requireItem,
        computeNewStock, hqtyC, JsVal.toNumber, JsNum.lt_ofInt, hs, bind, Except.bind]
    unfold createTransaction
    rw [htype, hqtyC] at *
    simp [hidC, htruthy, truthy_num_ofInt q (by omega), JsVal.toNumber, JsNum.le_ofInt, hq0,
      hvalid, hwork, runInTransaction, hinc, hmsg]

/-! ## Lemmas: the end-to-end scenario -/

theorem createTransaction_initial_ok (env : Env) (db : Db) (req : Request) (item : Item)
    (id q t : Int) (notes : Option String)
    (hid : req.item_id.truthy = true)
    (hparse : numberParseInt req.item_id = some id) (hitem : db.findItem id = some item)
    (hworks : env.storeWorks)
    (htype : req.transaction_type = .str "initial_stock")
    (hqty : req.quantity = .num (.ofInt q)) (hq : 0 < q) (hlt : q < 10 ^ 21)
    (hnotes : (if req.notes.truthy then req.notes else .null)
      = (match notes with | some s => .str s | none => .null))
    (hdate : (if req.transaction_date.truthy then env.parseDate req.transaction_date
      else some env.now) = some t) :
    ∃ db2 tx, db2.items = db.items.map
        (fun r => if r.id = id then { r with current_stock := item.current_stock + q } else r) ∧
      db2.transactions = db.transactions ++ [tx] ∧ tx.id = db.nextTransactionId ∧
      createTransaction env db req =
        ({ status := 201, success := true, message := "Transaction recorded successfully",
           transaction := some (attachDigest env db2 tx).2,
           item := some { item with current_stock := item.current_stock + q } },
         (attachDigest env db2 tx).1) := by
  obtain ⟨h1, h2, h3, h4⟩ := hworks
  have hpq : numberParseInt (.num (.ofInt q)) = some q := numberParseInt_ofInt q hq hlt
  have hq0 : ¬ q ≤ 0 := by omega
  have hvalid : validTypesIncludes (.str "initial_stock") = true := by decide
  have htruthy : (JsVal.str "initial_stock").truthy = true := by decide
  have hwork : createTransactionWork env db req "initial_stock" = .ok
      (⟨db.items.map
          (fun r => if r.id = id then { r with current_stock := item.current_stock + q } else r),
        db.transactions ++
          [Transaction.mk db.nextTransactionId id "initial_stock" q req.user_id notes t none]⟩,
       Transaction.mk db.nextTransactionId id "initial_stock" q req.user_id notes t none,
       { item with current_stock := item.current_stock + q }) := by
    unfold createTransactionWork
    rw [hnotes, hdate, hqty]
    cases notes <;>
    simp [hparse, findUniqueItem, h1, hitem, requireItem, computeNewStock, parseIntNumber, hpq,
      JsNum.add_ofInt, updateItemStock, JsNum.toInt_ofInt, h2, insertTransaction, h3, bind,
      Except.bind, pure, Except.pure, Db.nextTransactionId]
  refine ⟨⟨_, _⟩, Transaction.mk db.nextTransactionId id "initial_stock" q req.user_id notes t none,
    rfl, rfl, rfl, ?_⟩
  unfold createTransaction
  rw [htype, hqty] at *
  simp [hid, htruthy, truthy_num_ofInt q (by omega), JsVal.toNumber, JsNum.le_ofInt, hq0, hvalid,
    hwork, runInTransaction, h4]

theorem buyItem_insufficient (env : Env) (db : Db) (req : Request) (item : Item) (id q : Int)
    (hid : req.item_id.truthy = true) (hparse : numberParseInt req.item_id = some id)
    (hitem : db.findItem id = some item) (hfind : env.fault .findItem = none)
    (hqty : req.quantity = .num (.ofInt q)) (hq : 0 < q) (hs : item.current_stock < q) :
    buyItem env db req
      = ({ status := 400, success := false, message := "Insufficient stock" }, db) := by
  have hq0 : ¬ q ≤ 0 := by omega
  have hwork := buyItemWork_insufficient env db req item id hparse hitem hfind
    (by simp [hqty, JsVal.toNumber, JsNum.lt_ofInt, hs])
  unfold buyItem
  rw [hqty] at *
  have hm : messageOr "Insufficient stock" "Failed to complete purchase" = "Insufficient stock" := by
    decide
  simp [hid, truthy_num_ofInt q (by omega), JsVal.toNumber, JsNum.le_ofInt, hq0, hwork,
    runInTransaction, hm]

/-! ## Lemmas: permission guards -/

theorem checkAnyPermission_seeded (u : AuthUser) (hrole : u.role ≠ "Admin")
    (hperm : ∀ p ∈ u.permissions, p ∈ seededPermissions) :
    checkAnyPermission reportPermissions (some u)
      = .respond 403 "Forbidden: Insufficient permissions" := by
  have h1 : "read_reports" ∉ u.permissions := fun h => absurd (hperm _ h) (by decide)
  have h2 : "Admin" ∉ u.permissions := fun h => absurd (hperm _ h) (by decide)
  simp [checkAnyPermission, reportPermissions, hrole, h1, h2]

/-! ## Lemmas: the totals of the inventory reports -/

theorem foldl_addToTotals (items : List Item) (acc : InventoryTotals) :
    items.foldl addToTotals acc =
      { totalItems := acc.totalItems + items.length,
        totalStock := acc.totalStock + (items.map (fun i => i.current_stock)).sum,
        totalValue := acc.totalValue + (items.map (fun i => i.unit_price * (i.current_stock : ℚ))).sum,
        totalSaleValue :=
          acc.totalSaleValue + (items.map (fun i => i.sale_price * (i.current_stock : ℚ))).sum,
        totalPotentialProfit := acc.totalPotentialProfit +
          (items.map (fun i => i.sale_price * (i.current_stock : ℚ)
            - i.unit_price * (i.current_stock : ℚ))).sum } := by
  induction items generalizing acc with
  | nil => simp
  | cons item rest ih =>
    rw [List.foldl_cons, ih]
    simp only [addToTotals, List.length_cons, List.map_cons, List.sum_cons, Nat.cast_add,
      Nat.cast_one]
    congr 1 <;> ring

theorem summaryTotals_eq (items : List Item) :
    summaryTotals items =
      { totalItems := items.length,
        totalStock := (items.map (fun i => i.current_stock)).sum,
        totalValue := (items.map (fun i => i.unit_price * (i.current_stock : ℚ))).sum,
        totalSaleValue := (items.map (fun i => i.sale_price * (i.current_stock : ℚ))).sum,
        totalPotentialProfit :=
          (items.map (fun i => i.sale_price * (i.current_stock : ℚ)
            - i.unit_price * (i.current_stock : ℚ))).sum } := by
  unfold summaryTotals
  rw [foldl_addToTotals]
  simp

theorem foldl_add_map {α β : Type} [AddCommMonoid β] (f : α → β) (l : List α) (acc : β) :
    l.foldl (fun sum x => sum + f x) acc = acc + (l.map f).sum := by
  induction l generalizing acc with
  | nil => simp
  | cons x rest ih =>
    rw [List.foldl_cons, ih, List.map_cons, List.sum_cons, add_assoc]

theorem documentTotals_eq (items : List Item) :
    documentTotals items =
      { totalItems := items.length,
        totalStock := (items.map (fun i => i.current_stock)).sum,
        totalValue := (items.map (fun i => i.unit_price * (i.current_stock : ℚ))).sum,
        totalSaleValue := (items.map (fun i => i.sale_price * (i.current_stock : ℚ))).sum,
        totalPotentialProfit :=
          (items.map (fun i => i.sale_price * (i.current_stock : ℚ))).sum
            - (items.map (fun i => i.unit_price * (i.current_stock : ℚ))).sum } := by
  unfold documentTotals
  simp only [foldl_add_map, List.map_map, zero_add]
  rfl

theorem sum_map_sub_rat {α : Type} (f g : α → ℚ) (l : List α) :
    (l.map (fun x => f x - g x)).sum = (l.map f).sum - (l.map g).sum := by
  induction l with
  | nil => simp
  | cons x rest ih =>
    simp only [List.map_cons, List.sum_cons, ih]
    ring

theorem summaryTotals_eq_documentTotals (items : List Item) :
    summaryTotals items = documentTotals items := by
  rw [summaryTotals_eq, documentTotals_eq, sum_map_sub_rat]

theorem summaryTotals_perm (items items' : List Item) (h : items.Perm items') :
    summaryTotals items = summaryTotals items' := by
  rw [summaryTotals_eq, summaryTotals_eq, h.length_eq, (h.map _).sum_eq, (h.map _).sum_eq,
    (h.map _).sum_eq, (h.map _).sum_eq]

theorem getInventorySummary_ok (env : Env) (db : Db) (search : Option String) (pq : PageQuery)
    (sorted : List Item) (p l : Int)
    (hcount : env.fault .countItems = none) (hfind : env.fault .findItems = none)
    (hsort : env.orderItems (orderSpec pq "item_name" false).1 (orderSpec pq "item_name" false).2
      (db.items.filter (inventoryWhere search)) = some sorted)
    (hp : queryInt pq.page 1 = some p) (hl : queryInt pq.limit 10 = some l)
    (hp1 : 1 ≤ p) (hl1 : 1 ≤ l) :
    getInventorySummaryWork env db search pq = .ok
      { data := ((sorted.drop ((p - 1) * l).toNat).take l.toNat).map summaryRow,
        pagination := { total := (db.items.filter (inventoryWhere search)).length, page := p,
                        limit := l,
                        totalPages :=
                          ceilQuotient (db.items.filter (inventoryWhere search)).length l },
        totals := summaryTotals (db.items.filter (inventoryWhere search)) } := by
  have hskip : ¬ (p - 1) * l < 0 := by
    have : 0 ≤ (p - 1) * l := mul_nonneg (by omega) (by omega)
    omega
  unfold getInventorySummaryWork
  simp [countItems, hcount, findManyItemsOrdered, hfind, hsort, findManyItems, hp, hl, bind,
    Except.bind, pure, Except.pure, skipOf, skipTake, hskip, paginationOf, show 0 ≤ l by omega]

/-! ## Lemmas: the transactions report -/

theorem reportRows_ok (db : Db) (itemOf : Transaction → Item) (txs : List Transaction)
    (h : ∀ tx ∈ txs, db.findItem tx.item_id = some (itemOf tx)) :
    reportRows db txs = .ok (txs.map (fun tx => reportRowOf tx (itemOf tx))) := by
  induction txs with
  | nil => rfl
  | cons tx rest ih =>
    have h1 := h tx (List.mem_cons_self _ _)
    have h2 := ih (fun t ht => h t (List.mem_cons_of_mem _ ht))
    simp [reportRows, reportRow, includedItem, h1, h2]

theorem foldl_addValue_ok (db : Db) (itemOf : Transaction → Item) (txs : List Transaction)
    (acc : ℚ) (h : ∀ tx ∈ txs, db.findItem tx.item_id = some (itemOf tx)) :
    txs.foldl (addValue db) (.ok acc)
      = .ok (acc + (txs.map (fun tx => transactionValue tx (itemOf tx))).sum) := by
  induction txs generalizing acc with
  | nil => simp
  | cons tx rest ih =>
    have h1 := h tx (List.mem_cons_self _ _)
    rw [List.foldl_cons]
    have hstep : addValue db (.ok acc) tx = .ok (acc + transactionValue tx (itemOf tx)) := by
      simp [addValue, includedItem, h1]
    rw [hstep, ih _ (fun t ht => h t (List.mem_cons_of_mem _ ht)), List.map_cons, List.sum_cons,
      add_assoc]

theorem endDateBound_some_iff (env : Env) (v : Option String) (bound : Option Int)
    (h : endDateBound env v = .ok bound) (t : Int) :
    bound = some t ↔
      ∃ s t0, v = some s ∧ s ≠ "" ∧ env.parseDate (.str s) = some t0 ∧ t = env.endOfDay t0 := by
  unfold endDateBound at h
  cases v with
  | none =>
    simp only [Except.ok.injEq] at h
    subst h
    simp
  | some s =>
    simp only at h
    by_cases he : s.data.isEmpty = true
    · rw [if_pos he] at h
      simp only [Except.ok.injEq] at h
      subst h
      have : s = "" := (isEmpty_iff_eq s).mp he
      simp [this]
    · rw [if_neg he] at h
      have hne : s ≠ "" := fun hs => he ((isEmpty_iff_eq s).mpr hs)
      cases hp : env.parseDate (.str s) with
      | none => rw [hp] at h; simp at h
      | some t' =>
        rw [hp] at h
        simp only [Except.ok.injEq] at h
        subst h
        constructor
        · intro ht
          simp only [Option.some.injEq] at ht
          exact ⟨s, t', rfl, hne, hp, ht.symm⟩
        · rintro ⟨s', t0, hs', _, hp', ht⟩
          simp only [Option.some.injEq] at hs'
          subst hs'
          rw [hp] at hp'
          simp only [Option.some.injEq] at hp'
          rw [ht, hp']

theorem reportMatchesSearch_iff (db : Db) (s : String) (tx : Transaction) :
    reportMatchesSearch db s tx = true ↔
      (∃ notes, tx.notes = some notes ∧ containsInsensitive notes s = true) ∨
        matchesItemSearch db s tx = true := by
  unfold reportMatchesSearch
  cases tx.notes with
  | none => simp
  | some notes => simp

theorem reportWhere_iff (db : Db) (q : ListQuery) (gte lte : Option Int) (tx : Transaction) :
    reportWhere db q gte lte tx = true ↔
      (∀ ty, q.type = some ty → ty ≠ "" → ty ≠ "all" → tx.transaction_type = ty) ∧
      (∀ t, gte = some t → t ≤ tx.transaction_date) ∧
      (∀ t, lte = some t → tx.transaction_date ≤ t) ∧
      (∀ s, q.search = some s → s ≠ "" → reportMatchesSearch db s tx = true) := by
  unfold reportWhere
  simp only [Bool.and_eq_true]
  have h1 : (match q.type with
      | some ty =>
        if ty.data.isEmpty || decide (ty = "all") then true else decide (tx.transaction_type = ty)
      | none => true) = true ↔
      ∀ ty, q.type = some ty → ty ≠ "" → ty ≠ "all" → tx.transaction_type = ty := by
    cases q.type with
    | none => simp
    | some ty =>
      by_cases he : ty.data.isEmpty = true
      · have : ty = "" := (isEmpty_iff_eq ty).mp he
        simp [this]
      · have hne : ty ≠ "" := fun hs => he ((isEmpty_iff_eq ty).mpr hs)
        by_cases ha : ty = "all"
        · simp [ha]
        · simp [he, hne, ha]
  have h2 : (match gte with
      | some t => decide (t ≤ tx.transaction_date)
      | none => true) = true ↔ ∀ t, gte = some t → t ≤ tx.transaction_date := by
    cases gte <;> simp
  have h3 : (match lte with
      | some t => decide (tx.transaction_date ≤ t)
      | none => true) = true ↔ ∀ t, lte = some t → tx.transaction_date ≤ t := by
    cases lte <;> simp
  have h4 : (match q.search with
      | some s => if s.data.isEmpty then true else reportMatchesSearch db s tx
      | none => true) = true ↔
      ∀ s, q.search = some s → s ≠ "" → reportMatchesSearch db s tx = true := by
    cases q.search with
    | none => simp
    | some s =>
      by_cases he : s.data.isEmpty = true
      · have : s = "" := (isEmpty_iff_eq s).mp he
        simp [this]
      · have hne : s ≠ "" := fun hs => he ((isEmpty_iff_eq s).mpr hs)
        simp [he, hne]
  rw [h1, h2, h3, h4]
  tauto

theorem reportMatching_ok (env : Env) (db : Db) (q : ListQuery) (gte lte : Option Int)
    (hgte : dateBound env q.startDate = .ok gte) (hlte : endDateBound env q.endDate = .ok lte) :
    reportMatching env db q = .ok (db.transactions.filter (reportWhere db q gte lte)) := by
  simp [reportMatching, hgte, hlte, bind, Except.bind, pure, Except.pure]

theorem getTransactionsReport_ok (env : Env) (db : Db) (q : ListQuery) (pq : PageQuery)
    (matching sorted : List Transaction) (itemOf : Transaction → Item) (p l : Int)
    (hmatch : reportMatching env db q = .ok matching)
    (hcount : env.fault .countTransactions = none)
    (hfind : env.fault .findTransactions = none)
    (hsum : env.fault .aggregateTransactions = none)
    (hsort : env.orderTransactions (orderSpec pq "transaction_date" true).1
      (orderSpec pq "transaction_date" true).2 matching = some sorted)
    (hperm : sorted.Perm matching)
    (hitems : ∀ tx ∈ matching, db.findItem tx.item_id = some (itemOf tx))
    (hp : queryInt pq.page 1 = some p) (hl : queryInt pq.limit 10 = some l)
    (hp1 : 1 ≤ p) (hl1 : 1 ≤ l) :
    getTransactionsReportWork env db q pq = .ok
      { data := ((sorted.drop ((p - 1) * l).toNat).take l.toNat).map
          (fun tx => reportRowOf tx (itemOf tx)),
        pagination := { total := matching.length, page := p, limit := l,
                        totalPages := ceilQuotient matching.length l },
        totals := { totalTransactions := matching.length,
                    totalQuantity := (matching.map (fun t => t.quantity)).sum,
                    totalValue := (matching.map (fun tx => transactionValue tx (itemOf tx))).sum } } := by
  have hskip : ¬ (p - 1) * l < 0 := by
    have : 0 ≤ (p - 1) * l := mul_nonneg (by omega) (by omega)
    omega
  have hpage : ∀ tx ∈ (sorted.drop ((p - 1) * l).toNat).take l.toNat,
      db.findItem tx.item_id = some (itemOf tx) := by
    intro tx htx
    exact hitems tx (hperm.subset (List.mem_of_mem_drop (List.mem_of_mem_take htx)))
  have hrows := reportRows_ok db itemOf _ hpage
  have hval := foldl_addValue_ok db itemOf matching 0 hitems
  obtain ⟨v, hs, hv⟩ : ∃ v, sumQuantity env matching = .ok v ∧
      (match v with
        | some n => if n = 0 then 0 else n
        | none => 0) = (matching.map (fun t => t.quantity)).sum := by
    cases hm : matching with
    | nil => exact ⟨none, by simp [sumQuantity, hsum], rfl⟩
    | cons t ts =>
      refine ⟨some ((t :: ts).map (fun t => t.quantity)).sum, by simp [sumQuantity, hsum], ?_⟩
      simp only
      split
      · rename_i h; exact h.symm
      · rfl
  unfold getTransactionsReportWork
  simp only [hmatch, fetchMatching, hcount, hfind, findManyTransactionsPage, hsort, hp, hl, skipOf,
    skipTake, hskip, if_false, show 0 ≤ l by omega, if_true, bind, Except.bind, pure, Except.pure,
    hrows, hs, hval, zero_add, paginationOf, Option.getD_some, hv]

/-! ## Lemmas: users -/

theorem findUser_id (db : UserDb) (id : Int) (user : User) (h : db.findUser id = some user) :
    user.id = id := by
  have := List.find?_some h
  simpa using this

theorem findUser_map_update (users : List User) (id : Int) (f : User → User) (user : User)
    (hf : ∀ u, (f u).id = u.id)
    (h : users.find? (fun u => decide (u.id = id)) = some user) :
    (users.map (fun u => if u.id = id then f u else u)).find? (fun u => decide (u.id = id))
      = some (f user) := by
  induction users with
  | nil => simp at h
  | cons r rs ih =>
    by_cases hr : r.id = id
    · rw [List.find?_cons_of_pos _ (by simpa using hr)] at h
      simp only [Option.some.injEq] at h
      subst h
      rw [List.map_cons, if_pos hr, List.find?_cons_of_pos _ (by simpa [hf] using hr)]
    · rw [List.find?_cons_of_neg _ (by simpa using hr)] at h
      rw [List.map_cons, if_neg hr, List.find?_cons_of_neg _ (by simpa using hr)]
      exact ih h

theorem findUser_map_other (users : List User) (id id0 : Int) (f : User → User)
    (hf : ∀ u, (f u).id = u.id) (hne : id ≠ id0) :
    (users.map (fun u => if u.id = id0 then f u else u)).find? (fun u => decide (u.id = id))
      = users.find? (fun u => decide (u.id = id)) := by
  induction users with
  | nil => rfl
  | cons r rs ih =>
    by_cases hr0 : r.id = id0
    · have hr : r.id ≠ id := fun h => hne (h.symm.trans hr0)
      rw [List.map_cons, if_pos hr0, List.find?_cons_of_neg _ (by simpa [hf] using hr),
        List.find?_cons_of_neg _ (by simpa using hr), ih]
    · rw [List.map_cons, if_neg hr0]
      by_cases hr : r.id = id
      · rw [List.find?_cons_of_pos _ (by simpa using hr),
          List.find?_cons_of_pos _ (by simpa using hr)]
      · rw [List.find?_cons_of_neg _ (by simpa using hr),
          List.find?_cons_of_neg _ (by simpa using hr), ih]

theorem truthy_str (s : String) (h : s ≠ "") : (JsVal.str s).truthy = true := by
  simp [JsVal.truthy, isEmpty_false_of_ne s h]

theorem updateProfile_accepts_six_characters (env : AuthEnv) (db : UserDb)
    (req : ProfileRequest) (user : User) (current new : String)
    (hfind : env.fault .findUser = none) (hupdate : env.fault .updateUser = none)
    (huser : db.findUser req.user_id = some user)
    (hfirst : req.firstName = .undefined) (hlast : req.lastName = .undefined)
    (hcur : req.currentPassword = .str current) (hcne : current ≠ "")
    (hnew : req.newPassword = .str new)
    (hmatch : env.bcryptCompare current user.password = true)
    (hlen : 6 ≤ utf16Length new) :
    (updateProfile env db req).1 = { status := 200, message := "Profile updated successfully" } ∧
    (updateProfile env db req).2.findUser req.user_id
      = some { user with password := env.bcryptHash new 12 } ∧
    (updateProfile env db req).2.roles = db.roles := by
  have hne : new ≠ "" := by
    intro h
    rw [h] at hlen
    simp [utf16Length] at hlen
  have hres : updateProfileWork env db req =
      .ok ({ status := 200, message := "Profile updated successfully" },
        { db with users :=
            db.users.map (fun u => if u.id = req.user_id then
              { u with password := env.bcryptHash new 12 } else u) }) := by
    unfold updateProfileWork
    simp [findUniqueUser, hfind, huser, hnew, truthy_str new hne, changePassword, hcur,
      truthy_str current hcne, bcryptCompare, hmatch, validatePassword, hlen, bcryptHash,
      updateProfileRow, hfirst, hlast, nameChange, updateUserRow, hupdate]
  unfold updateProfile
  rw [hres]
  refine ⟨rfl, ?_, rfl⟩
  exact findUser_map_update db.users req.user_id _ user (fun _ => rfl) huser

theorem updateProfile_rejects_short (env : AuthEnv) (db : UserDb)
    (req : ProfileRequest) (user : User) (current new : String)
    (hfind : env.fault .findUser = none)
    (huser : db.findUser req.user_id = some user)
    (hcur : req.currentPassword = .str current) (hcne : current ≠ "")
    (hnew : req.newPassword = .str new) (hne : new ≠ "")
    (hmatch : env.bcryptCompare current user.password = true)
    (hlen : utf16Length new < 6) :
    updateProfile env db req =
      ({ status := 400,
         message := "New password must be at least 8 characters long and include at least one number, one uppercase letter, and one special character" },
       db) := by
  have hl : ¬ 6 ≤ utf16Length new := by omega
  unfold updateProfile updateProfileWork
  simp [findUniqueUser, hfind, huser, hnew, truthy_str new hne, changePassword, hcur,
    truthy_str current hcne, bcryptCompare, hmatch, validatePassword, hl]

/-! ## Lemmas: the password column -/

theorem find_map_login (users : List User) (id0 : Int) (f : User → User) (email : String)
    (hemail : ∀ u, (f u).email = u.email) :
    (users.map (fun u => if u.id = id0 then f u else u)).find? (fun u => decide (u.email = email))
      = (users.find? (fun u => decide (u.email = email))).map
          (fun u => if u.id = id0 then f u else u) := by
  induction users with
  | nil => rfl
  | cons r rs ih =>
    have hr : (if r.id = id0 then f r else r).email = r.email := by
      split
      · rw [hemail]
      · rfl
    by_cases he : r.email = email
    · rw [List.map_cons, List.find?_cons_of_pos _ (by simpa [hr] using he),
        List.find?_cons_of_pos _ (by simpa using he)]
      rfl
    · rw [List.map_cons, List.find?_cons_of_neg _ (by simpa [hr] using he),
        List.find?_cons_of_neg _ (by simpa using he), ih]

theorem loginWork_congr (env : AuthEnv) (db db' : UserDb) (email password : JsVal)
    (h : ∀ e, ∃ g : User → User, db'.findUserByEmail e = (db.findUserByEmail e).map g ∧
      ∀ u, (g u).password = u.password ∧ (g u).email_verified = u.email_verified) :
    loginWork env db' email password = loginWork env db email password := by
  unfold loginWork
  split
  · rfl
  · cases email with
    | str e =>
      obtain ⟨g, hg, hkeep⟩ := h e
      simp only [findUniqueUserByEmail]
      cases env.fault .findUser with
      | some msg => rfl
      | none =>
        simp only [hg]
        cases db.findUserByEmail e with
        | none => rfl
        | some u =>
          simp only [Option.map_some', (hkeep u).1, (hkeep u).2]
    | _ => rfl

theorem storeResetPassword_shape (env : AuthEnv) (db db1 : UserDb) (id : Int) (hash : String)
    (h : storeResetPassword env db id hash = .ok db1) :
    db1 = ⟨db.users.map (fun u => if u.id = id then resetPasswordData hash u else u), db.roles⟩ := by
  unfold storeResetPassword updateUserRow at h
  split at h
  · simp only at h
    split at h
    · simp at h
    · split at h
      · simp at h
      · simp only [Except.ok.injEq] at h
        exact h.symm
  · simp at h

theorem resetFound_shape (env : AuthEnv) (db db1 : UserDb) (user : User)
    (verification_code password : JsVal) (r : AuthResponse)
    (h : resetFound env db user verification_code password = .ok (r, db1)) :
    db1 = db ∨ ∃ id hash, db1
      = ⟨db.users.map (fun u => if u.id = id then resetPasswordData hash u else u), db.roles⟩ := by
  unfold resetFound at h
  split at h
  · simp only [Except.ok.injEq, Prod.mk.injEq] at h
    exact Or.inl h.2.symm
  · split at h
    · simp only [Except.ok.injEq, Prod.mk.injEq] at h
      exact Or.inl h.2.symm
    · split at h
      · simp at h
      · rename_i hash _
        split at h
        · simp at h
        · rename_i db2 hstore
          simp only [Except.ok.injEq, Prod.mk.injEq] at h
          rw [← h.2]
          exact Or.inr ⟨user.id, hash, storeResetPassword_shape env db db2 user.id hash hstore⟩

theorem resetPassword_shape (env : AuthEnv) (db : UserDb)
    (email verification_code password : JsVal) :
    (resetPassword env db email verification_code password).2 = db ∨
    ∃ id hash, (resetPassword env db email verification_code password).2
      = ⟨db.users.map (fun u => if u.id = id then resetPasswordData hash u else u), db.roles⟩ := by
  unfold resetPassword
  cases hw : resetPasswordWork env db email verification_code password with
  | error e => exact Or.inl rfl
  | ok r =>
    obtain ⟨resp, db1⟩ := r
    show db1 = db ∨ _
    unfold resetPasswordWork at hw
    split at hw
    · simp only [Except.ok.injEq, Prod.mk.injEq] at hw
      exact Or.inl hw.2.symm
    · split at hw
      · simp only [Except.ok.injEq, Prod.mk.injEq] at hw
        exact Or.inl hw.2.symm
      · split at hw
        · simp at hw
        · simp only [Except.ok.injEq, Prod.mk.injEq] at hw
          exact Or.inl hw.2.symm
        · exact resetFound_shape env db db1 _ _ _ resp hw

theorem login_after_resetPassword (env : AuthEnv) (db : UserDb)
    (email verification_code password email' password' : JsVal) :
    login env (resetPassword env db email verification_code password).2 email' password'
      = login env db email' password' := by
  rcases resetPassword_shape env db email verification_code password with h | ⟨id0, hash, h⟩
  · rw [h]
  · unfold login
    rw [loginWork_congr env db _ email' password']
    intro e
    refine ⟨fun u => if u.id = id0 then resetPasswordData hash u else u, ?_, ?_⟩
    · rw [h]
      exact find_map_login db.users id0 _ e (fun _ => rfl)
    · intro u
      by_cases hu : u.id = id0
      · simp only [hu, if_true]
        exact ⟨rfl, rfl⟩
      · simp only [hu, if_false]
        exact ⟨trivial, trivial⟩

theorem login_after_updateProfile (env : AuthEnv) (db : UserDb)
    (req : ProfileRequest) (user : User) (current new : String)
    (hsound : env.bcryptSound)
    (hfind : env.fault .findUser = none) (hupdate : env.fault .updateUser = none)
    (huser : db.findUser req.user_id = some user)
    (hfirst : req.firstName = .undefined) (hlast : req.lastName = .undefined)
    (hcur : req.currentPassword = .str current) (hcne : current ≠ "")
    (hnew : req.newPassword = .str new)
    (hmatch : env.bcryptCompare current user.password = true)
    (hlen : 6 ≤ utf16Length new) :
    ∃ stored, (updateProfile env db req).2.findUser req.user_id = some stored ∧
      bcryptCompare env (.str new) stored.password = .ok true := by
  obtain ⟨_, h, _⟩ := updateProfile_accepts_six_characters env db req user current new hfind
    hupdate huser hfirst hlast hcur hcne hnew hmatch hlen
  exact ⟨_, h, by simp [bcryptCompare, hsound new 12]⟩

/-! ## Lemmas: deleting users and assigning roles -/

theorem findUser_filter_self (users : List User) (id : Int) :
    (users.filter (fun u => !decide (u.id = id))).find? (fun u => decide (u.id = id)) = none := by
  induction users with
  | nil => rfl
  | cons r rs ih =>
    by_cases hr : r.id = id
    · rw [List.filter_cons_of_neg (by simpa using hr)]
      exact ih
    · rw [List.filter_cons_of_pos (by simpa using hr),
        List.find?_cons_of_neg _ (by simpa using hr)]
      exact ih

theorem findUser_filter_other (users : List User) (id id0 : Int) (hne : id ≠ id0) :
    (users.filter (fun u => !decide (u.id = id0))).find? (fun u => decide (u.id = id))
      = users.find? (fun u => decide (u.id = id)) := by
  induction users with
  | nil => rfl
  | cons r rs ih =>
    by_cases hr0 : r.id = id0
    · have hr : r.id ≠ id := fun h => hne (h.symm.trans hr0)
      rw [List.filter_cons_of_neg (by simpa using hr0),
        List.find?_cons_of_neg _ (by simpa using hr), ih]
    · rw [List.filter_cons_of_pos (by simpa using hr0)]
      by_cases hr : r.id = id
      · rw [List.find?_cons_of_pos _ (by simpa using hr),
          List.find?_cons_of_pos _ (by simpa using hr)]
      · rw [List.find?_cons_of_neg _ (by simpa using hr),
          List.find?_cons_of_neg _ (by simpa using hr), ih]

theorem deleteUser_self (env : AuthEnv) (db : UserDb) (a : User) (id : String)
    (hparse : numberParseInt (.str id) = some a.id) (huser : db.findUser a.id = some a)
    (hfind : env.fault .findUser = none) :
    deleteUser env db id a.id
      = ({ status := 400, message := "Cannot delete your own account" }, db) := by
  simp [deleteUser, deleteUserWork, hparse, findUniqueUser, hfind, huser]

theorem updateUserRole_self_db (env : AuthEnv) (db : UserDb) (a : User) (id : String)
    (roleName : JsVal)
    (hparse : numberParseInt (.str id) = some a.id) (huser : db.findUser a.id = some a) :
    (updateUserRole env db id roleName a.id).2 = db := by
  unfold updateUserRole updateUserRoleWork
  by_cases ht : roleName.truthy = true
  · simp only [ht, Bool.not_true, Bool.false_eq_true, if_false]
    cases findFirstRole env db roleName with
    | error e => rfl
    | ok role? =>
      cases role? with
      | none => rfl
      | some role =>
        simp only [assignRole, hparse, findUniqueUser]
        cases env.fault .findUser with
        | some msg => rfl
        | none => simp [huser]
  · simp [ht]

theorem updateUserRole_self_status (env : AuthEnv) (db : UserDb) (a : User) (id : String)
    (roleName : JsVal)
    (hparse : numberParseInt (.str id) = some a.id) (huser : db.findUser a.id = some a)
    (hfind : env.fault .findUser = none) (hrole : env.fault .findRole = none)
    (hname : roleName.truthy = false ∨ ∃ s, roleName = .str s) :
    (updateUserRole env db id roleName a.id).1.status = 400 := by
  unfold updateUserRole updateUserRoleWork
  by_cases ht : roleName.truthy = true
  · rcases hname with h | ⟨s, hs⟩
    · rw [h] at ht; simp at ht
    · subst hs
      simp only [ht, Bool.not_true, Bool.false_eq_true, if_false, findFirstRole, hrole]
      cases db.findRole s with
      | none => rfl
      | some role => simp [assignRole, hparse, findUniqueUser, hfind, huser]
  · simp [ht]

theorem updateUserRole_nonstring (env : AuthEnv) (db : UserDb) (id : String) (roleName : JsVal)
    (actor : Int) (ht : roleName.truthy = true) (hns : ∀ s, roleName ≠ .str s) :
    updateUserRole env db id roleName actor
      = ({ status := 500, message := "Server error updating user role" }, db) := by
  unfold updateUserRole updateUserRoleWork
  cases roleName with
  | str s => exact absurd rfl (hns s)
  | undefined => simp [JsVal.truthy] at ht
  | null => simp [JsVal.truthy] at ht
  | bool b => simp [ht, findFirstRole]
  | num x => simp [ht, findFirstRole]

theorem deleteUser_other (env : AuthEnv) (db : UserDb) (b : User) (id : String) (actor : Int)
    (hne : b.id ≠ actor)
    (hparse : numberParseInt (.str id) = some b.id) (huser : db.findUser b.id = some b)
    (hfind : env.fault .findUser = none) (hdelete : env.fault .deleteUser = none) :
    deleteUser env db id actor
      = ({ status := 200, message := "User deleted successfully" },
         { db with users := db.users.filter (fun u => !decide (u.id = b.id)) }) := by
  simp [deleteUser, deleteUserWork, hparse, findUniqueUser, hfind, huser, hne, deleteUserRow,
    hdelete]

theorem updateUserRole_other (env : AuthEnv) (db : UserDb) (b : User) (id roleName : String)
    (role : Role) (actor : Int) (hne : b.id ≠ actor)
    (hparse : numberParseInt (.str id) = some b.id) (huser : db.findUser b.id = some b)
    (hname : roleName ≠ "") (hrole : db.findRole roleName = some role)
    (hfind : env.fault .findUser = none) (hfr : env.fault .findRole = none)
    (hupdate : env.fault .updateUser = none) :
    updateUserRole env db id (.str roleName) actor
      = ({ status := 200, message := "User role updated successfully" },
         { db with users :=
             db.users.map (fun u => if u.id = b.id then { u with role_id := role.id } else u) }) := by
  simp [updateUserRole, updateUserRoleWork, truthy_str roleName hname, findFirstRole, hfr, hrole,
    assignRole, hparse, findUniqueUser, hfind, huser, hne, updateUserRow, hupdate]

/-! ## The claims -/

/-- C1: a `createTransaction` request of type `adjustment_decrease` for an
existing item, with a positive integer quantity above the item's stock, is
answered 400 with the insufficient-stock message and leaves the database (items
and transaction rows) exactly as it was. -/
theorem createTransaction_decrease_insufficient (env : Env) (db : Db) (req : Request)
    (item : Item) (id q : Int)
    (hid : req.item_id.truthy = true) (hparse : numberParseInt req.item_id = some id)
    (hitem : db.findItem id = some item)
    (htype : req.transaction_type = .str "adjustment_decrease")
    (hqty : req.quantity = .num (.ofInt q)) (hq : 0 < q) (hstock : item.current_stock < q)
    (hfind : env.fault .findItem = none) :
    createTransaction env db req =
      ({ status := 400, success := false, message := "Insufficient stock for adjustment" }, db) := by
  have hq0 : ¬ q ≤ 0 := by omega
  have hinc : jsIncludes "Insufficient stock for adjustment" "Insufficient stock" = true := by decide
  have hmsg : messageOr "Insufficient stock for adjustment" "Failed to record transaction"
      = "Insufficient stock for adjustment" := by decide
  have hvalid : validTypesIncludes (.str "adjustment_decrease") = true := by decide
  have htruthy : (JsVal.str "adjustment_decrease").truthy = true := by decide
  have hwork : createTransactionWork env db req "adjustment_decrease"
      = .error "Insufficient stock for adjustment" := by
    simp [createTransactionWork, hparse, findUniqueItem, hfind, hitem, hqty, JsVal.toNumber,
      requireItem, computeNewStock, JsNum.lt_ofInt, hstock, bind, Except.bind]
  unfold createTransaction
  simp [hid, htype, hqty, htruthy, truthy_num_ofInt q (by omega), JsVal.toNumber,
    JsNum.le_ofInt, hq0, hvalid, hwork, runInTransaction, hinc, hmsg]

/-- Witness for C1: stock 3, decrease by 5. -/
theorem createTransaction_decrease_insufficient_witness :
    (3 : Int) < 5 ∧
    createTransaction sampleEnv (sampleDb 3) (adjustRequest 1 "adjustment_decrease" (.num (.ofInt 5)))
      = ({ status := 400, success := false, message := "Insufficient stock for adjustment" },
         sampleDb 3) :=
  ⟨by decide,
   createTransaction_decrease_insufficient sampleEnv (sampleDb 3)
    (adjustRequest 1 "adjustment_decrease" (.num (.ofInt 5))) (sampleItem 3) 1 5
    (by decide) (by decide) (by decide) rfl rfl (by decide) (by decide) rfl⟩

/-- C2: for an existing item and a positive integer quantity, with the
database working, `buyItem` fails exactly when the stock is below the quantity;
the failure has status 400 and leaves the database as it was. -/
theorem buyItem_fails_iff_insufficient (env : Env) (db : Db) (req : Request) (item : Item)
    (id q : Int)
    (hid : req.item_id.truthy = true) (hparse : numberParseInt req.item_id = some id)
    (hitem : db.findItem id = some item)
    (hqty : req.quantity = .num (.ofInt q)) (hq : 0 < q) (hworks : env.storeWorks) :
    ((buyItem env db req).1.success = false ↔ item.current_stock < q) ∧
      (item.current_stock < q →
        (buyItem env db req).1.status = 400 ∧ (buyItem env db req).2 = db) := by
  have hq0 : ¬ q ≤ 0 := by omega
  have htr := truthy_num_ofInt q (by omega)
  obtain ⟨m, hm⟩ := numberParseInt_ofInt_isSome q hq
  by_cases hs : item.current_stock < q
  · have hwork := buyItemWork_insufficient env db req item id hparse hitem hworks.1
      (by simp [hqty, JsVal.toNumber, JsNum.lt_ofInt, hs])
    have hres : buyItem env db req
        = ({ status := 400, success := false, message := "Insufficient stock" }, db) := by
      unfold buyItem
      simp [hid, hqty, htr, JsVal.toNumber, JsNum.le_ofInt, hq0, runInTransaction]
      rw [hwork]
      simp [messageOr]
    simp [hres, hs]
  · have hwork := buyItemWork_ok env db req item id (item.current_stock - q) m hparse hitem
      hworks (by simp [hqty, JsVal.toNumber, JsNum.lt_ofInt, hs])
      (by simp [hqty, JsVal.toNumber, JsNum.sub_ofInt, JsNum.toInt_ofInt]) (by rw [hqty, hm])
    have hres : (buyItem env db req).1.success = true := by
      unfold buyItem
      simp [hid, hqty, htr, JsVal.toNumber, JsNum.le_ofInt, hq0, runInTransaction]
      rw [hwork]
      simp [hworks.2.2.2]
    simp [hres, hs]

/-- Witness for C2: stock 3, purchase of 5. -/
theorem buyItem_fails_iff_insufficient_witness :
    ((buyItem sampleEnv (sampleDb 3) (buyRequest 1 (.num (.ofInt 5)))).1.success = false
        ↔ (sampleItem 3).current_stock < 5) ∧
      ((sampleItem 3).current_stock < 5 →
        (buyItem sampleEnv (sampleDb 3) (buyRequest 1 (.num (.ofInt 5)))).1.status = 400 ∧
          (buyItem sampleEnv (sampleDb 3) (buyRequest 1 (.num (.ofInt 5)))).2 = sampleDb 3) :=
  buyItem_fails_iff_insufficient sampleEnv (sampleDb 3) (buyRequest 1 (.num (.ofInt 5)))
    (sampleItem 3) 1 5 (by decide) (by decide) (by decide) rfl (by decide) ⟨rfl, rfl, rfl, rfl⟩

/-- C3 (failing input): from stock 20 and no transactions, `buyItem` with the
quantity string `1e1` succeeds, lowers the stock by 10 and records a sale of
quantity 1, so the stock (10) is not the baseline plus the signed sum of the
recorded rows (19). -/
theorem buyItem_exponent_string_breaks_conservation :
    (buyItem sampleEnv (sampleDb 20) (buyRequest 1 (.str "1e1"))).1.status = 200 ∧
    (runCalls sampleEnv (sampleDb 20) [.buy (buyRequest 1 (.str "1e1"))]).findItem 1
      = some (sampleItem 10) ∧
    (runCalls sampleEnv (sampleDb 20) [.buy (buyRequest 1 (.str "1e1"))]).transactions.map
      (fun t => (t.transaction_type, t.quantity)) = [("sale", 1)] ∧
    20 + ledgerSum (runCalls sampleEnv (sampleDb 20) [.buy (buyRequest 1 (.str "1e1"))]) 1 = 19 := by
  decide

/-- C4 (failing input): with stock 3, `createTransaction` of type
`adjustment_decrease` with the quantity string `5abc` passes validation,
answers 201 and leaves the stock at -2. -/
theorem createTransaction_coerced_decrease_goes_negative :
    (createTransaction sampleEnv (sampleDb 3)
      (adjustRequest 1 "adjustment_decrease" (.str "5abc"))).1.status = 201 ∧
    (createTransaction sampleEnv (sampleDb 3)
      (adjustRequest 1 "adjustment_decrease" (.str "5abc"))).2.findItem 1
        = some (sampleItem (-2)) := by
  decide

/-- C5 (failing input): with stock 10, `createTransaction` of type
`adjustment_increase` with the integer quantity `10 ^ 21` succeeds, returns
the item with stock 11 and records quantity 1. -/
theorem createTransaction_increase_huge_quantity :
    (createTransaction sampleEnv (sampleDb 10)
      (adjustRequest 1 "adjustment_increase" (.num (.ofInt (10 ^ 21))))).1.status = 201 ∧
    (createTransaction sampleEnv (sampleDb 10)
      (adjustRequest 1 "adjustment_increase" (.num (.ofInt (10 ^ 21))))).1.item
        = some (sampleItem 11) ∧
    (createTransaction sampleEnv (sampleDb 10)
      (adjustRequest 1 "adjustment_increase" (.num (.ofInt (10 ^ 21))))).2.transactions.map
        (fun t => t.quantity) = [1] := by
  decide

/-- C6 (failing input): with stock 10, `createTransaction` of type
`adjustment_increase` with the fractional quantity 1.5 is not rejected: it
answers 201, raises the stock to 11 and records a row of quantity 1. -/
theorem createTransaction_accepts_fractional_quantity :
    (createTransaction sampleEnv (sampleDb 10)
      (adjustRequest 1 "adjustment_increase" (.num (.dec 15 1)))).1.status = 201 ∧
    (createTransaction sampleEnv (sampleDb 10)
      (adjustRequest 1 "adjustment_increase" (.num (.dec 15 1)))).2.findItem 1
        = some (sampleItem 11) ∧
    (createTransaction sampleEnv (sampleDb 10)
      (adjustRequest 1 "adjustment_increase" (.num (.dec 15 1)))).2.transactions.map
        (fun t => t.quantity) = [1] := by
  decide

/-- C7: a `createTransaction` request whose type is none of `initial_stock`,
`adjustment_increase`, `adjustment_decrease` (so also `sale`) is answered 400,
whether or not item id and quantity are present; it leaves the database as it
was, and its response is the same whatever the database holds: no row is
consulted. -/
theorem createTransaction_rejects_other_types (env : Env) (db : Db) (req : Request)
    (h1 : req.transaction_type ≠ .str "initial_stock")
    (h2 : req.transaction_type ≠ .str "adjustment_increase")
    (h3 : req.transaction_type ≠ .str "adjustment_decrease") :
    (createTransaction env db req).1.status = 400 ∧
      (createTransaction env db req).2 = db ∧
      ∀ env' db', (createTransaction env' db' req).1 = (createTransaction env db req).1 := by
  have hv := validTypesIncludes_false req.transaction_type h1 h2 h3
  have key : ∀ env db, ∃ msg, createTransaction env db req
      = ({ status := 400, success := false, message := msg }, db) ∧
      ∀ env' db', createTransaction env' db' req
        = ({ status := 400, success := false, message := msg }, db') := by
    intro env db
    unfold createTransaction
    by_cases c1 : (!req.item_id.truthy || !req.transaction_type.truthy || !req.quantity.truthy) = true
    · exact ⟨_, by rw [if_pos c1], fun _ _ => by rw [if_pos c1]⟩
    · by_cases c2 : JsNum.le req.quantity.toNumber (.ofInt 0) = true
      · exact ⟨_, by rw [if_neg c1, if_pos c2], fun _ _ => by rw [if_neg c1, if_pos c2]⟩
      · cases hty : req.transaction_type with
        | str ty =>
          rw [hty] at hv
          simp only [hv, Bool.not_false, if_true]
          exact ⟨_, by rw [if_neg (by rw [← hty]; exact c1), if_neg c2],
            fun _ _ => by rw [if_neg (by rw [← hty]; exact c1), if_neg c2]⟩
        | _ =>
          simp only
          exact ⟨_, by rw [if_neg (by rw [← hty]; exact c1), if_neg c2],
            fun _ _ => by rw [if_neg (by rw [← hty]; exact c1), if_neg c2]⟩
  obtain ⟨msg, hres, hall⟩ := key env db
  rw [hres]
  exact ⟨rfl, rfl, fun env' db' => by rw [hall env' db']⟩

/-- Witness for C7: the type `sale`. -/
theorem createTransaction_rejects_other_types_witness :
    (createTransaction sampleEnv (sampleDb 10)
      (adjustRequest 1 "sale" (.num (.ofInt 5)))).1.status = 400 ∧
    (createTransaction sampleEnv (sampleDb 10)
      (adjustRequest 1 "sale" (.num (.ofInt 5)))).2 = sampleDb 10 ∧
    ∀ env' db', (createTransaction env' db' (adjustRequest 1 "sale" (.num (.ofInt 5)))).1
      = (createTransaction sampleEnv (sampleDb 10) (adjustRequest 1 "sale" (.num (.ofInt 5)))).1 :=
  createTransaction_rejects_other_types sampleEnv (sampleDb 10)
    (adjustRequest 1 "sale" (.num (.ofInt 5))) (by decide) (by decide) (by decide)

/-- C8: no item has id 2.  Valid `createTransaction` and `buyItem` requests
for item 2 are answered 500 with the message `Item not found` and change
nothing; 500 is also the answer to a failure of the database, while
`deleteItem` answers 404 when the item does not exist. -/
theorem item_not_found_answers_500 :
    (sampleDb 10).findItem 2 = none ∧
    createTransaction sampleEnv (sampleDb 10)
        (adjustRequest 2 "adjustment_increase" (.num (.ofInt 5)))
      = ({ status := 500, success := false, message := "Item not found" }, sampleDb 10) ∧
    buyItem sampleEnv (sampleDb 10) (buyRequest 2 (.num (.ofInt 5)))
      = ({ status := 500, success := false, message := "Item not found" }, sampleDb 10) ∧
    (createTransaction faultyEnv (sampleDb 10)
      (adjustRequest 1 "adjustment_increase" (.num (.ofInt 5)))).1.status = 500 ∧
    (buyItem faultyEnv (sampleDb 10) (buyRequest 1 (.num (.ofInt 5)))).1.status = 500 ∧
    deleteItem sampleEnv (sampleDb 10) "2"
      = ({ status := 404, success := false, message := "Item not found" }, sampleDb 10) := by
  decide

/-- C9: failure atomicity.  A `createTransaction` or `buyItem` request that
does not answer with its success status (201, respectively 200) leaves the
database exactly as it was; and whenever a request changes the item table, it
has appended a transaction row as well. -/
theorem failure_leaves_database_unchanged (env : Env) (db : Db) (req : Request) :
    ((createTransaction env db req).1.status ≠ 201 → (createTransaction env db req).2 = db) ∧
    ((buyItem env db req).1.status ≠ 200 → (buyItem env db req).2 = db) ∧
    ((createTransaction env db req).2.items ≠ db.items →
      ∃ tx, (createTransaction env db req).2.transactions = db.transactions ++ [tx]) ∧
    ((buyItem env db req).2.items ≠ db.items →
      ∃ tx, (buyItem env db req).2.transactions = db.transactions ++ [tx]) := by
  have hc := createTransaction_cases env db req
  have hb := buyItem_cases env db req
  refine ⟨?_, ?_, ?_, ?_⟩
  · intro hst
    rcases hc with ⟨_, _, h⟩ | ⟨ty, db2, tx, it, _, _, h⟩
    · exact h
    · rw [h] at hst; exact absurd rfl hst
  · intro hst
    rcases hb with ⟨_, _, h⟩ | ⟨db2, tx, it, _, h⟩
    · exact h
    · rw [h] at hst; exact absurd rfl hst
  · intro hitems
    rcases hc with ⟨_, _, h⟩ | ⟨ty, db2, tx, it, _, hw, h⟩
    · rw [h] at hitems; exact absurd rfl hitems
    · obtain ⟨htxs, htid⟩ := createTransactionWork_shape env db req ty db2 tx it hw
      rw [h]
      refine ⟨(attachDigest env db2 tx).2, ?_⟩
      exact attachDigest_transactions env db2 db.transactions tx htxs
        (fun t ht => by rw [htid]; exact nextTransactionId_fresh db t ht)
  · intro hitems
    rcases hb with ⟨_, _, h⟩ | ⟨db2, tx, it, hw, h⟩
    · rw [h] at hitems; exact absurd rfl hitems
    · obtain ⟨htxs, htid⟩ := buyItemWork_shape env db req db2 tx it hw
      rw [h]
      refine ⟨(attachDigest env db2 tx).2, ?_⟩
      exact attachDigest_transactions env db2 db.transactions tx htxs
        (fun t ht => by rw [htid]; exact nextTransactionId_fresh db t ht)

/-- Witness for C9: the insertion of the row fails after the stock was written
inside the unit of work; the request answers 500 and nothing is kept. -/
theorem failure_leaves_database_unchanged_witness :
    (createTransaction faultyEnv (sampleDb 10)
      (adjustRequest 1 "adjustment_increase" (.num (.ofInt 5)))).1.status = 500 ∧
    (createTransaction faultyEnv (sampleDb 10)
      (adjustRequest 1 "adjustment_increase" (.num (.ofInt 5)))).2 = sampleDb 10 :=
  ⟨by decide,
   (failure_leaves_database_unchanged faultyEnv (sampleDb 10)
    (adjustRequest 1 "adjustment_increase" (.num (.ofInt 5)))).1 (by decide)⟩

/-- C10: a successful `buyItem` request by user `u` for an existing item with a
positive integer quantity `q` answers 200, appends exactly one transaction row
(for that item, of type `sale`, with quantity `q`, user `u` and the note
`Online Sale`) and returns, and stores, the item with its stock lowered by `q`.
The stock read from the integer column is taken to be below `10 ^ 21`. -/
theorem buyItem_success_records_sale (env : Env) (db : Db) (req : Request) (item : Item)
    (id q : Int)
    (hparse : numberParseInt req.item_id = some id) (hitem : db.findItem id = some item)
    (hqty : req.quantity = .num (.ofInt q)) (hq : 0 < q)
    (hcol : item.current_stock < 10 ^ 21)
    (hsucc : (buyItem env db req).1.success = true) :
    (buyItem env db req).1.status = 200 ∧
    (buyItem env db req).1.item = some { item with current_stock := item.current_stock - q } ∧
    (buyItem env db req).2.findItem id
      = some { item with current_stock := item.current_stock - q } ∧
    ∃ tx, (buyItem env db req).1.transaction = some tx ∧
      (buyItem env db req).2.transactions = db.transactions ++ [tx] ∧
      tx.item_id = item.id ∧ tx.transaction_type = "sale" ∧ tx.quantity = q ∧
      tx.user_id = req.user_id ∧ tx.notes = some "Online Sale" := by
  obtain ⟨db2, tx, it, hwork, hres⟩ := buyItem_success_inv env db req hsucc
  obtain ⟨hlt, n, hn, hit, hitems, htxs, htid, htitem, httype, htq, htuser, htnotes, _, _⟩ :=
    buyItemWork_inv env db req item id db2 tx it hparse hitem hwork
  rw [hqty] at hlt hn htq
  simp only [JsVal.toNumber, JsNum.lt_ofInt, decide_eq_false_iff_not, not_lt] at hlt
  simp only [JsVal.toNumber, JsNum.sub_ofInt, JsNum.toInt_ofInt, Option.some.injEq] at hn
  rw [numberParseInt_ofInt q hq (by omega)] at htq
  simp only [Option.some.injEq] at htq
  subst hn
  have hfresh : ∀ t ∈ db.transactions, t.id ≠ tx.id := by
    intro t ht
    rw [htid]
    exact nextTransactionId_fresh db t ht
  have hrows := attachDigest_transactions env db2 db.transactions tx htxs hfresh
  have hfields : (attachDigest env db2 tx).2.item_id = tx.item_id ∧
      (attachDigest env db2 tx).2.transaction_type = tx.transaction_type ∧
      (attachDigest env db2 tx).2.quantity = tx.quantity ∧
      (attachDigest env db2 tx).2.user_id = tx.user_id ∧
      (attachDigest env db2 tx).2.notes = tx.notes := by
    rcases attachDigest_row env db2 tx with h | ⟨d, h⟩ <;> rw [h] <;> simp
  rw [hres]
  refine ⟨rfl, by rw [hit], ?_, (attachDigest env db2 tx).2, rfl, hrows, ?_, ?_, ?_, ?_, ?_⟩
  · show (attachDigest env db2 tx).1.findItem id = _
    unfold Db.findItem
    rw [attachDigest_items, hitems]
    exact findItem_map_update db.items id _ item hitem
  · rw [hfields.1, htitem, findItem_id db id item hitem]
  · rw [hfields.2.1, httype]
  · rw [hfields.2.2.1, ← htq]
  · rw [hfields.2.2.2.1, htuser]
  · rw [hfields.2.2.2.2, htnotes]

/-- Witness for C10: stock 10, purchase of 3 by user 7. -/
theorem buyItem_success_records_sale_witness :
    (buyItem sampleEnv (sampleDb 10) (buyRequest 1 (.num (.ofInt 3)))).1.status = 200 ∧
    (buyItem sampleEnv (sampleDb 10) (buyRequest 1 (.num (.ofInt 3)))).1.item
      = some (sampleItem 7) ∧
    (buyItem sampleEnv (sampleDb 10) (buyRequest 1 (.num (.ofInt 3)))).2.findItem 1
      = some (sampleItem 7) ∧
    ∃ tx, (buyItem sampleEnv (sampleDb 10) (buyRequest 1 (.num (.ofInt 3)))).1.transaction = some tx ∧
      (buyItem sampleEnv (sampleDb 10) (buyRequest 1 (.num (.ofInt 3)))).2.transactions
        = (sampleDb 10).transactions ++ [tx] ∧
      tx.item_id = 1 ∧ tx.transaction_type = "sale" ∧ tx.quantity = 3 ∧
      tx.user_id = 7 ∧ tx.notes = some "Online Sale" :=
  buyItem_success_records_sale sampleEnv (sampleDb 10) (buyRequest 1 (.num (.ofInt 3)))
    (sampleItem 10) 1 3 (by decide) (by decide) rfl (by decide) (by decide) (by decide)

/-- C11: best-effort digest.  When the unit of work of a `createTransaction`
or `buyItem` request has committed and the digest function throws or the
update that stores the digest fails, the request still answers 201
(respectively 200) with the committed row, which has no digest, and the
updated item, and the database is the committed one. -/
theorem digest_failure_keeps_commit (env : Env) (db : Db) (req : Request)
    (hid : req.item_id.truthy = true) (hq : req.quantity.truthy = true)
    (hpos : JsNum.le req.quantity.toNumber (.ofInt 0) = false) :
    (∀ ty db2 tx it, req.transaction_type = .str ty → ty ∈ validTypes →
      runInTransaction env (createTransactionWork env db req ty) = .ok (db2, tx, it) →
      (env.generateTransactionHash tx = none ∨ env.fault .attachHash ≠ none) →
      createTransaction env db req =
        ({ status := 201, success := true, message := "Transaction recorded successfully",
           transaction := some tx, item := some it }, db2) ∧
      tx.blockchain_tx_hash = none) ∧
    (∀ db2 tx it,
      runInTransaction env (buyItemWork env db req) = .ok (db2, tx, it) →
      (env.generateTransactionHash tx = none ∨ env.fault .attachHash ≠ none) →
      buyItem env db req =
        ({ status := 200, success := true, message := "Purchase successful",
           transaction := some tx, item := some it }, db2) ∧
      tx.blockchain_tx_hash = none) := by
  constructor
  · intro ty db2 tx it hty hvalid hrun hfail
    obtain ⟨htr, hinc⟩ := validType_truthy ty hvalid
    obtain ⟨hwork, _⟩ := runInTransaction_ok env _ _ hrun
    refine ⟨?_, createTransactionWork_hash_none env db req ty db2 tx it hwork⟩
    unfold createTransaction
    simp [hid, hq, hpos, hty, htr, hinc, hrun, attachDigest_of_failure env db2 tx hfail]
  · intro db2 tx it hrun hfail
    obtain ⟨hwork, _⟩ := runInTransaction_ok env _ _ hrun
    refine ⟨?_, buyItemWork_hash_none env db req db2 tx it hwork⟩
    unfold buyItem
    simp [hid, hq, hpos, hrun, attachDigest_of_failure env db2 tx hfail]

/-- Witness for C11: the digest function throws after a committed increase by 5. -/
theorem digest_failure_keeps_commit_witness :
    createTransaction noDigestEnv (sampleDb 10)
        (adjustRequest 1 "adjustment_increase" (.num (.ofInt 5))) =
      ({ status := 201, success := true, message := "Transaction recorded successfully",
         transaction := some (sampleRow 1 "adjustment_increase" 5 none none),
         item := some (sampleItem 15) },
       { items := [sampleItem 15],
         transactions := [sampleRow 1 "adjustment_increase" 5 none none] }) ∧
    (sampleRow 1 "adjustment_increase" 5 none none).blockchain_tx_hash = none :=
  (digest_failure_keeps_commit noDigestEnv (sampleDb 10)
    (adjustRequest 1 "adjustment_increase" (.num (.ofInt 5)))
    (by decide) (by decide) (by decide)).1 "adjustment_increase"
    { items := [sampleItem 15], transactions := [sampleRow 1 "adjustment_increase" 5 none none] }
    (sampleRow 1 "adjustment_increase" 5 none none) (sampleItem 15)
    rfl (by decide) rfl (Or.inl rfl)

/-- C12: the digest step changes only the digest of the row just created.
For the state `db2` and the row `tx` that the unit of work of `createTransaction`
or `buyItem` committed from `db`: after the step the item table is that of
`db2`, the transaction table is the old rows followed by one row, and that row
agrees with `tx` in id, item, type, quantity, date, user and notes. -/
theorem digest_step_changes_only_the_digest (env : Env) (db : Db) (req : Request) (db2 : Db)
    (tx : Transaction) (it : Item)
    (hwork : (∃ ty, createTransactionWork env db req ty = .ok (db2, tx, it)) ∨
      buyItemWork env db req = .ok (db2, tx, it)) :
    db2.transactions = db.transactions ++ [tx] ∧
    (attachDigest env db2 tx).1.items = db2.items ∧
    (attachDigest env db2 tx).1.transactions = db.transactions ++ [(attachDigest env db2 tx).2] ∧
    (attachDigest env db2 tx).2.id = tx.id ∧
    (attachDigest env db2 tx).2.item_id = tx.item_id ∧
    (attachDigest env db2 tx).2.transaction_type = tx.transaction_type ∧
    (attachDigest env db2 tx).2.quantity = tx.quantity ∧
    (attachDigest env db2 tx).2.transaction_date = tx.transaction_date ∧
    (attachDigest env db2 tx).2.user_id = tx.user_id ∧
    (attachDigest env db2 tx).2.notes = tx.notes := by
  have hshape : db2.transactions = db.transactions ++ [tx] ∧ tx.id = db.nextTransactionId := by
    rcases hwork with ⟨ty, h⟩ | h
    · exact createTransactionWork_shape env db req ty db2 tx it h
    · exact buyItemWork_shape env db req db2 tx it h
  have hfresh : ∀ t ∈ db.transactions, t.id ≠ tx.id := by
    intro t ht
    rw [hshape.2]
    exact nextTransactionId_fresh db t ht
  exact ⟨hshape.1, attachDigest_frame env db2 db.transactions tx hshape.1 hfresh⟩

/-- Witness for C12: the digest step after a committed purchase of 3 from stock 10. -/
theorem digest_step_changes_only_the_digest_witness :
    ({ items := [sampleItem 7],
       transactions := [sampleRow 1 "sale" 3 (some "Online Sale") none] } : Db).transactions
      = (sampleDb 10).transactions ++ [sampleRow 1 "sale" 3 (some "Online Sale") none] ∧
    (attachDigest sampleEnv
      { items := [sampleItem 7], transactions := [sampleRow 1 "sale" 3 (some "Online Sale") none] }
      (sampleRow 1 "sale" 3 (some "Online Sale") none)).1
      = { items := [sampleItem 7],
          transactions := [sampleRow 1 "sale" 3 (some "Online Sale") (some "digest")] } :=
  ⟨(digest_step_changes_only_the_digest sampleEnv (sampleDb 10) (buyRequest 1 (.num (.ofInt 3)))
      { items := [sampleItem 7], transactions := [sampleRow 1 "sale" 3 (some "Online Sale") none] }
      (sampleRow 1 "sale" 3 (some "Online Sale") none) (sampleItem 7) (Or.inr rfl)).1,
   by decide⟩

/-- C13: `verifyBlockchainTransaction` never changes the database.  For a path
parameter that reads as the integer `n`, with the lookup not failing: it
answers 404 `Transaction not found` when no row has id `n`; 404 `No blockchain
record found for this transaction` when the row's digest is absent or empty;
and otherwise, the helper functions returning, 200 with the row's id, the
stored digest and the result of verifying the row against that digest. -/
theorem verifyBlockchainTransaction_responses (env : Env) (db : Db) (id : String) (n : Int)
    (hparse : numberParseInt (.str id) = some n) (hfault : env.fault .findTransaction = none) :
    (verifyBlockchainTransaction env db id).2 = db ∧
    (db.findTransaction n = none →
      (verifyBlockchainTransaction env db id).1 =
        { status := 404, success := false, message := some "Transaction not found" }) ∧
    (∀ tx, db.findTransaction n = some tx →
      (tx.blockchain_tx_hash = none ∨ tx.blockchain_tx_hash = some "") →
      (verifyBlockchainTransaction env db id).1 =
        { status := 404, success := false,
          message := some "No blockchain record found for this transaction" }) ∧
    (∀ tx digest valid url, db.findTransaction n = some tx →
      tx.blockchain_tx_hash = some digest → digest ≠ "" →
      env.verifyTransactionHash tx digest = .ok valid →
      env.getBlockExplorerUrl digest = .ok url →
      (verifyBlockchainTransaction env db id).1 =
        { status := 200, success := true,
          data := some { transaction_id := tx.id, blockchain_tx_hash := digest,
                         is_valid := valid, block_explorer_url := url } }) := by
  have hwork := verifyBlockchainTransactionWork_found env db id n hparse hfault
  refine ⟨verifyBlockchainTransaction_db env db id, ?_, ?_, ?_⟩
  · intro hnone
    unfold verifyBlockchainTransaction
    rw [hwork, hnone]
  · intro tx hfind hdig
    unfold verifyBlockchainTransaction
    rw [hwork, hfind]
    rcases hdig with h | h
    · simp [verifyFound, h]
    · simp [verifyFound, h]
  · intro tx digest valid url hfind hdig hne hver hurl
    exact verifyBlockchainTransaction_ok env db id n tx digest valid url hparse hfault hfind hdig
      hne hver hurl

/-- Witness for C13: a row with a stored digest, looked up by the path parameter `1`. -/
theorem verifyBlockchainTransaction_responses_witness :
    (verifyBlockchainTransaction sampleEnv
      { items := [sampleItem 7],
        transactions := [sampleRow 1 "sale" 3 (some "Online Sale") (some "digest")] } "1").1 =
      { status := 200, success := true,
        data := some { transaction_id := 1, blockchain_tx_hash := "digest", is_valid := true,
                       block_explorer_url := "https://explorer.example/tx/digest" } } :=
  (verifyBlockchainTransaction_responses sampleEnv
    { items := [sampleItem 7],
      transactions := [sampleRow 1 "sale" 3 (some "Online Sale") (some "digest")] } "1" 1
    (by decide) rfl).2.2.2 (sampleRow 1 "sale" 3 (some "Online Sale") (some "digest"))
    "digest" true "https://explorer.example/tx/digest" (by decide) rfl (by decide) rfl rfl

/-- C14: round trip.  With the helper functions of `utils/blockchain` as the
spec describes them, over a hash function that never returns the empty string:
when `createTransaction` or `buyItem` returns a row that carries a digest,
`verifyBlockchainTransaction` on the resulting database, for a path parameter
that reads as the row's id, answers 200 with `is_valid = true` and the digest
recomputed from the row's stored fields. -/
theorem digest_round_trip (sha256 : String → String) (env : Env) (db : Db) (req : Request)
    (id : String) (tx : Transaction)
    (hspec : env.followsSpec sha256) (hne : ∀ s, sha256 s ≠ "")
    (hfault : env.fault .findTransaction = none)
    (hdig : tx.blockchain_tx_hash ≠ none) (hparse : numberParseInt (.str id) = some tx.id) :
    ((createTransaction env db req).1.transaction = some tx →
      ∃ url, (verifyBlockchainTransaction env (createTransaction env db req).2 id).1 =
        { status := 200, success := true,
          data := some { transaction_id := tx.id, blockchain_tx_hash := computeDigest sha256 tx,
                         is_valid := true, block_explorer_url := url } }) ∧
    ((buyItem env db req).1.transaction = some tx →
      ∃ url, (verifyBlockchainTransaction env (buyItem env db req).2 id).1 =
        { status := 200, success := true,
          data := some { transaction_id := tx.id, blockchain_tx_hash := computeDigest sha256 tx,
                         is_valid := true, block_explorer_url := url } }) := by
  constructor
  · intro hresp
    rcases createTransaction_cases env db req with ⟨hs, _, _⟩ | ⟨ty, db2, tx0, it, _, hw, h⟩
    · have hd := createTransaction_data env db req
      rw [hs, hresp] at hd
      simp at hd
    · rw [h] at hresp ⊢
      simp only [Option.some.injEq] at hresp
      obtain ⟨hdb2, hid0⟩ := createTransactionWork_shape env db req ty db2 tx0 it hw
      exact round_trip_after_attach sha256 env db db2 tx0 id tx hspec hne hfault hdb2 hid0
        (createTransactionWork_hash_none env db req ty db2 tx0 it hw) hresp hdig hparse
  · intro hresp
    rcases buyItem_cases env db req with ⟨hs, _, _⟩ | ⟨db2, tx0, it, hw, h⟩
    · have hd := buyItem_data env db req
      rw [hs, hresp] at hd
      simp at hd
    · rw [h] at hresp ⊢
      simp only [Option.some.injEq] at hresp
      obtain ⟨hdb2, hid0⟩ := buyItemWork_shape env db req db2 tx0 it hw
      exact round_trip_after_attach sha256 env db db2 tx0 id tx hspec hne hfault hdb2 hid0
        (buyItemWork_hash_none env db req db2 tx0 it hw) hresp hdig hparse

/-- Witness for C14: an increase by 5 recorded with its digest, then verified. -/
theorem digest_round_trip_witness :
    ∃ url, (verifyBlockchainTransaction specEnv
      (createTransaction specEnv (sampleDb 10)
        (adjustRequest 1 "adjustment_increase" (.num (.ofInt 5)))).2 "1").1 =
      { status := 200, success := true,
        data := some { transaction_id := digestedRow.id,
                       blockchain_tx_hash := computeDigest toySha digestedRow,
                       is_valid := true, block_explorer_url := url } } :=
  (digest_round_trip toySha specEnv (sampleDb 10)
    (adjustRequest 1 "adjustment_increase" (.num (.ofInt 5))) "1" digestedRow
    ⟨fun _ => rfl, fun _ _ => rfl, fun _ => ⟨_, rfl⟩⟩
    (fun s h => by
      have := congrArg String.length h
      simp [toySha] at this
      exact absurd this.1 (by decide))
    rfl (by decide) (by decide)).1 (by decide)

/-- C15: the seed script stores, with every transaction it creates, the hash
(`sha256`, lowercase hexadecimal) of the canonical string built from the
stored fields of that same row: item id, type, quantity, date as ISO-8601 with
milliseconds and user id, in this order, joined with `-`. -/
theorem seed_digest_is_hash_of_stored_fields (sha256 : String → String) (users : SeedUsers)
    (draws : SeedDraws) (db : Db) :
    ∃ created,
      (seedLedger sha256 users draws db).transactions = db.transactions ++ created ∧
      created.length = (seedTransactions sha256 users db.items draws).length ∧
      ∀ t ∈ created, t.blockchain_tx_hash = some (sha256 (canonicalString t)) := by
  obtain ⟨_, created, hc, hlen, hall⟩ := createManyTransactions_rows
    (seedTransactions sha256 users db.items draws) db
    (fun t => t.blockchain_tx_hash = some (sha256 (canonicalString t)))
    (fun r hr id => by
      show some r.blockchain_tx_hash = _
      rw [seedTransactions_hash sha256 users db.items draws r hr]
      rfl)
  exact ⟨created, hc, hlen, hall⟩

/-- Witness for C15: the rows of a full run of the seed script over `toySha`. -/
theorem seed_digest_is_hash_of_stored_fields_witness :
    ∃ created,
      (seedLedger toySha seedUsers unluckyDraws
        { items := seedItems, transactions := [] }).transactions = [] ++ created ∧
      created.length = (seedTransactions toySha seedUsers seedItems unluckyDraws).length ∧
      ∀ t ∈ created, t.blockchain_tx_hash = some (toySha (canonicalString t)) :=
  seed_digest_is_hash_of_stored_fields toySha seedUsers unluckyDraws
    { items := seedItems, transactions := [] }

/-- C16: the digest input is injective.  Two tuples of item id, type, quantity,
date and user id, with positive ids and quantities, a type among the four
kinds and the date given as a string of 24 characters, that differ in a field
have different `-`-joined digest inputs, as lists of characters and as strings. -/
theorem digestInput_injective (i i' q q' u u' : Int) (ty ty' : String) (d d' : List Char)
    (hi : 0 < i) (hi' : 0 < i') (hq : 0 < q) (hq' : 0 < q') (hu : 0 < u) (hu' : 0 < u')
    (hty : ty ∈ transactionKinds) (hty' : ty' ∈ transactionKinds)
    (hd : d.length = 24) (hd' : d'.length = 24)
    (hne : (i, ty, q, d, u) ≠ (i', ty', q', d', u')) :
    digestInput i ty q d u ≠ digestInput i' ty' q' d' u' ∧
    String.mk (digestInput i ty q d u) ≠ String.mk (digestInput i' ty' q' d' u') := by
  have key : digestInput i ty q d u ≠ digestInput i' ty' q' d' u' := by
    intro h
    obtain ⟨h1, h2, h3, h4, h5⟩ :=
      digestInput_inj i i' q q' u u' ty ty' d d' hi hi' hq hq' hu hu' hty hty' hd hd' h
    apply hne
    rw [h1, h2, h3, h4, h5]
  exact ⟨key, fun h => key (congrArg String.data h)⟩

/-- Witness for C16: two sales of item 1 by user 7 at the same instant, of 3
and of 4 units. -/
theorem digestInput_injective_witness :
    digestInput 1 "sale" 3 (toISOString 1700000000000) 7
      ≠ digestInput 1 "sale" 4 (toISOString 1700000000000) 7 ∧
    String.mk (digestInput 1 "sale" 3 (toISOString 1700000000000) 7)
      ≠ String.mk (digestInput 1 "sale" 4 (toISOString 1700000000000) 7) :=
  digestInput_injective 1 1 3 4 7 7 "sale" "sale" (toISOString 1700000000000)
    (toISOString 1700000000000) (by decide) (by decide) (by decide) (by decide) (by decide)
    (by decide) (by decide) (by decide) (by decide) (by decide) (by decide)

/-- C17: `deleteItem` for an existing item that a transaction row refers to
answers 400 and leaves the database (the item and every transaction row) as
it was; and whenever `deleteItem` changes the database, the path parameter
names an existing item to which no transaction refers, and exactly the rows
with that id leave the item table. -/
theorem deleteItem_keeps_referenced_items (env : Env) (db : Db) (id : String) :
    (∀ n item t, numberParseInt (.str id) = some n → db.findItem n = some item →
      t ∈ db.transactions → t.item_id = n →
      env.fault .findItem = none → env.fault .findTransactions = none →
      deleteItem env db id =
        ({ status := 400, success := false,
           message := "Cannot delete item with existing transactions" }, db)) ∧
    ((deleteItem env db id).2 ≠ db →
      ∃ n item, numberParseInt (.str id) = some n ∧ db.findItem n = some item ∧
        (∀ t ∈ db.transactions, t.item_id ≠ n) ∧
        (deleteItem env db id).2.transactions = db.transactions ∧
        (deleteItem env db id).2.items = db.items.filter (fun r => !decide (r.id = n))) := by
  constructor
  · intro n item t hp hitem ht htn hf hft
    have hrows : (db.transactions.filter (fun t => decide (t.item_id = n))).length > 0 := by
      apply List.length_pos_of_mem (a := t)
      simp [List.mem_filter, ht, htn]
    unfold deleteItem deleteItemWork
    simp [findUniqueItem, hf, hitem, deleteFound, findManyTransactionsOfItem, hp, hft,
      hrows, bind, Except.bind, pure, Except.pure]
  · intro hne
    rcases deleteItem_cases env db id with h | ⟨n, item, hp, hitem, hnone, h⟩
    · exact absurd h hne
    · exact ⟨n, item, hp, hitem, hnone, by rw [h], by rw [h]⟩

/-- Witness for C17: item 1 with one recorded sale cannot be deleted. -/
theorem deleteItem_keeps_referenced_items_witness :
    deleteItem sampleEnv
        { items := [sampleItem 7], transactions := [sampleRow 1 "sale" 3 none none] } "1" =
      ({ status := 400, success := false,
         message := "Cannot delete item with existing transactions" },
       { items := [sampleItem 7], transactions := [sampleRow 1 "sale" 3 none none] }) :=
  (deleteItem_keeps_referenced_items sampleEnv
    { items := [sampleItem 7], transactions := [sampleRow 1 "sale" 3 none none] } "1").1
    1 (sampleItem 7) (sampleRow 1 "sale" 3 none none)
    (by decide) (by decide) (by decide) rfl rfl rfl

/-- C18 (counterexample): a run of the seed script within the ranges of its
random draws (initial stock 20, sales of 3 units) in which the 45 sales all hit
item 1: the stock pass stores 0 for item 1 while the signed sum of its
transactions is -115. -/
theorem seed_stock_is_clamped :
    (seedLedger toySha seedUsers unluckyDraws { items := seedItems, transactions := [] }).findItem 1
      = some { seedItem 1 with current_stock := 0 } ∧
    ledgerSum (seedLedger toySha seedUsers unluckyDraws
      { items := seedItems, transactions := [] }) 1 = -115 := by
  set_option maxRecDepth 100000 in decide

/-- C18 (amended): after the stock pass of the seed script, the stock of every
item is the signed sum of the quantities of its transactions when that sum is
not negative, and 0 otherwise. -/
theorem seed_stock_is_clamped_sum (db : Db) (item : Item)
    (hitem : item ∈ (seedStockPass db).items) :
    item.current_stock = max 0 (ledgerSum (seedStockPass db) item.id) := by
  unfold seedStockPass at hitem
  simp only [List.mem_map] at hitem
  obtain ⟨it, _, rfl⟩ := hitem
  show seedStock _ = max 0 (ledgerSum _ it.id)
  rw [seedStock_eq]
  rfl

/-- Witness for C18 (amended): item 2 of the run `unluckyDraws` ends with 20 + 20 * 5 units. -/
theorem seed_stock_is_clamped_sum_witness :
    ({ seedItem 2 with current_stock := 120 } : Item).current_stock =
      max 0 (ledgerSum (seedStockPass (createManyTransactions
        { items := seedItems, transactions := [] }
        (seedTransactions toySha seedUsers seedItems unluckyDraws))) 2) :=
  seed_stock_is_clamped_sum (createManyTransactions { items := seedItems, transactions := [] }
    (seedTransactions toySha seedUsers seedItems unluckyDraws))
    { seedItem 2 with current_stock := 120 } (by set_option maxRecDepth 100000 in decide)

/-- C19 (counterexample): two requests that differ only in `transaction_date`,
one without a date and one with a text that is not a date; the first is
answered 201 and raises the stock, the second is answered 500 and changes nothing. -/
theorem invalid_date_changes_outcome :
    (createTransaction dateEnv (sampleDb 10)
      (adjustRequest 1 "adjustment_increase" (.num (.ofInt 5)))).1.status = 201 ∧
    (createTransaction dateEnv (sampleDb 10) misdatedRequest).1.status = 500 ∧
    (createTransaction dateEnv (sampleDb 10)
      (adjustRequest 1 "adjustment_increase" (.num (.ofInt 5)))).2.findItem 1
        = some (sampleItem 15) ∧
    (createTransaction dateEnv (sampleDb 10) misdatedRequest).2.findItem 1
      = some (sampleItem 10) := by
  decide

/-- C19 (amended): two `createTransaction` requests that differ only in
`transaction_date`, each date being absent (or falsy) or one that the `Date`
constructor accepts, get the same status, return the same item and leave the
same item table; and the row a request returns carries the date read from its
`transaction_date` when that is given, and the current time otherwise.  A
request whose `transaction_date` is given and is not a valid date fails, with
status 400 or 500, and leaves the database as it was. -/
theorem backdating_keeps_outcome (env : Env) (db : Db) (r1 r2 : Request) (t1 t2 : Int)
    (hu : r1.user_id = r2.user_id) (hi : r1.item_id = r2.item_id)
    (hty : r1.transaction_type = r2.transaction_type)
    (hq : r1.quantity = r2.quantity) (hn : r1.notes = r2.notes)
    (h1 : (if r1.transaction_date.truthy then env.parseDate r1.transaction_date
      else some env.now) = some t1)
    (h2 : (if r2.transaction_date.truthy then env.parseDate r2.transaction_date
      else some env.now) = some t2) :
    (createTransaction env db r1).1.status = (createTransaction env db r2).1.status ∧
    (createTransaction env db r1).1.item = (createTransaction env db r2).1.item ∧
    (createTransaction env db r1).2.items = (createTransaction env db r2).2.items ∧
    (∀ tx, (createTransaction env db r1).1.transaction = some tx → tx.transaction_date = t1) ∧
    (∀ tx, (createTransaction env db r2).1.transaction = some tx → tx.transaction_date = t2) ∧
    (∀ r : Request, r.transaction_date.truthy = true → env.parseDate r.transaction_date = none →
      (createTransaction env db r).1.success = false ∧
      ((createTransaction env db r).1.status = 400 ∨
        (createTransaction env db r).1.status = 500) ∧
      (createTransaction env db r).2 = db) := by
  have key : ∀ (ra rb : Request) (ta tb : Int), ra.user_id = rb.user_id →
      ra.item_id = rb.item_id → ra.transaction_type = rb.transaction_type →
      ra.quantity = rb.quantity → ra.notes = rb.notes →
      (if ra.transaction_date.truthy then env.parseDate ra.transaction_date
        else some env.now) = some ta →
      (if rb.transaction_date.truthy then env.parseDate rb.transaction_date
        else some env.now) = some tb →
      (createTransaction env db ra).1.status = (createTransaction env db rb).1.status ∧
      (createTransaction env db ra).1.item = (createTransaction env db rb).1.item ∧
      (createTransaction env db ra).2.items = (createTransaction env db rb).2.items ∧
      (∀ tx, (createTransaction env db ra).1.transaction = some tx →
        tx.transaction_date = ta) := by
    intro ra rb ta tb hu hi hty hq hn h1 h2
    unfold createTransaction
    rw [← hi, ← hty, ← hq]
    by_cases c1 : (!ra.item_id.truthy || !ra.transaction_type.truthy || !ra.quantity.truthy) = true
    · simp [c1]
    · rw [if_neg c1, if_neg c1]
      by_cases c2 : JsNum.le ra.quantity.toNumber (.ofInt 0) = true
      · simp [c2]
      · rw [if_neg c2, if_neg c2]
        split
        · rename_i ty _
          by_cases c3 : (!validTypesIncludes (.str ty)) = true
          · simp [c3]
          · rw [if_neg c3, if_neg c3]
            rcases createTransactionWork_date env db ra rb ty ta tb hu hi hq hn h1 h2 with
              ⟨e, he1, he2⟩ | ⟨db2, db2', tx, it, hok1, hok2, hitems, hdate⟩
            · rw [he1, he2]
              simp [runInTransaction]
            · rw [hok1, hok2]
              cases hc : env.fault .commit with
              | some m => simp [runInTransaction, hc]
              | none =>
                simp only [runInTransaction, hc]
                refine ⟨trivial, trivial, ?_, ?_⟩
                · rw [attachDigest_items, attachDigest_items, hitems]
                · intro tx' htx'
                  simp only [Option.some.injEq] at htx'
                  rw [← htx']
                  rcases attachDigest_row env db2 tx with h | ⟨d, h⟩ <;> rw [h]
                  · exact hdate
                  · exact hdate
        · simp
  obtain ⟨a1, a2, a3, a4⟩ := key r1 r2 t1 t2 hu hi hty hq hn h1 h2
  obtain ⟨_, _, _, b4⟩ := key r2 r1 t2 t1 hu.symm hi.symm hty.symm hq.symm hn.symm h2 h1
  refine ⟨a1, a2, a3, a4, b4, ?_⟩
  intro r htr hnone
  exact createTransaction_invalid_date env db r (by rw [if_pos htr]; exact hnone)

/-- Witness for C19 (amended): an increase of item 1 by 5, without a date and dated 15 January 2024. -/
theorem backdating_keeps_outcome_witness :
    (createTransaction dateEnv (sampleDb 10)
        (adjustRequest 1 "adjustment_increase" (.num (.ofInt 5)))).1.status
      = (createTransaction dateEnv (sampleDb 10) backdatedRequest).1.status ∧
    (createTransaction dateEnv (sampleDb 10)
        (adjustRequest 1 "adjustment_increase" (.num (.ofInt 5)))).1.item
      = (createTransaction dateEnv (sampleDb 10) backdatedRequest).1.item ∧
    (createTransaction dateEnv (sampleDb 10)
        (adjustRequest 1 "adjustment_increase" (.num (.ofInt 5)))).2.items
      = (createTransaction dateEnv (sampleDb 10) backdatedRequest).2.items ∧
    (∀ tx, (createTransaction dateEnv (sampleDb 10)
        (adjustRequest 1 "adjustment_increase" (.num (.ofInt 5)))).1.transaction = some tx →
      tx.transaction_date = 1700000000000) ∧
    (∀ tx, (createTransaction dateEnv (sampleDb 10) backdatedRequest).1.transaction = some tx →
      tx.transaction_date = 1705314600000) ∧
    (createTransaction dateEnv (sampleDb 10) misdatedRequest).2 = sampleDb 10 :=
  have h := backdating_keeps_outcome dateEnv (sampleDb 10)
    (adjustRequest 1 "adjustment_increase" (.num (.ofInt 5))) backdatedRequest
    1700000000000 1705314600000 rfl rfl rfl rfl rfl (by decide) (by decide)
  ⟨h.1, h.2.1, h.2.2.1, h.2.2.2.1, h.2.2.2.2.1,
    (h.2.2.2.2.2 misdatedRequest (by decide) (by decide)).2.2⟩

/-- C20 (counterexample): a transaction whose notes contain the text
`damaged`, on the item `Widget` with SKU `WID0001`; the matching set of
`getAllTransactions` for `search = damaged` is empty, while the filter of
`getTransactionsReport` keeps the row. -/
theorem getAllTransactions_search_ignores_notes :
    notedDb.transactions
      = [sampleRow 1 "adjustment_decrease" 2 (some "Damaged in transit") none] ∧
    containsInsensitive "Damaged in transit" "damaged" = true ∧
    getAllTransactionsMatching sampleEnv notedDb { search := some "damaged" } = .ok [] ∧
    notedDb.transactions.filter (reportMatchesSearch notedDb "damaged")
      = notedDb.transactions :=
  ⟨by decide, by decide, rfl, by decide⟩

/-- C20 (amended): for every non-empty search text `s`, `getAllTransactions`
called with `search = s` and no other filter has as its matching set exactly
the transactions whose item has a name or a SKU that contains `s`, letter case
ignored; the notes of a transaction play no part. -/
theorem getAllTransactions_search_matches_item (env : Env) (db : Db) (s : String)
    (hs : s ≠ "") (hfault : env.fault .countTransactions = none) :
    getAllTransactionsMatching env db { search := some s }
      = .ok (db.transactions.filter (matchesItemSearch db s)) ∧
    (∀ tx, tx ∈ db.transactions.filter (matchesItemSearch db s) ↔
      tx ∈ db.transactions ∧ ∃ item, db.findItem tx.item_id = some item ∧
        (containsInsensitive item.item_name s = true ∨
          containsInsensitive item.SKU s = true)) ∧
    (∀ tx notes, matchesItemSearch db s { tx with notes := notes }
      = matchesItemSearch db s tx) := by
  have hne := isEmpty_false_of_ne s hs
  refine ⟨?_, ?_, ?_⟩
  · have hfun : matchesWhere db { search := some s } none none = matchesItemSearch db s :=
      funext (matchesWhere_search_only db s hne)
    simp [getAllTransactionsMatching, dateBound, hfault, bind, Except.bind, pure, Except.pure,
      hfun]
  · intro tx
    rw [List.mem_filter, matchesItemSearch_iff]
  · intro tx notes
    rfl

/-- Witness for C20 (amended): the search text `wid` on the sample item. -/
theorem getAllTransactions_search_matches_item_witness :
    getAllTransactionsMatching sampleEnv notedDb { search := some "wid" }
      = .ok (notedDb.transactions.filter (matchesItemSearch notedDb "wid")) ∧
    (∀ tx, tx ∈ notedDb.transactions.filter (matchesItemSearch notedDb "wid") ↔
      tx ∈ notedDb.transactions ∧ ∃ item, notedDb.findItem tx.item_id = some item ∧
        (containsInsensitive item.item_name "wid" = true ∨
          containsInsensitive item.SKU "wid" = true)) ∧
    (∀ tx notes, matchesItemSearch notedDb "wid" { tx with notes := notes }
      = matchesItemSearch notedDb "wid" tx) :=
  getAllTransactions_search_matches_item sampleEnv notedDb "wid" (by decide) rfl

/-- C21 (counterexample): a filter whose start date is not a date, and a
sort column the table does not have, are each answered 500 with no count and
no rows, while the same request without them is answered 200. -/
theorem getAllTransactions_rejects_invalid_filter :
    getAllTransactions dateEnv mixedDb misdatedQuery {}
      = { status := 500, message := some "Failed to get transactions",
          error := some "Invalid invocation" } ∧
    getAllTransactions dateEnv mixedDb {} unknownSort
      = { status := 500, message := some "Failed to get transactions",
          error := some "Invalid invocation" } ∧
    (getAllTransactions dateEnv mixedDb {} {}).status = 200 ∧
    ((getAllTransactions dateEnv mixedDb {} {}).pagination.map (fun pg => pg.total)) = some 4 := by
  decide

/-- C21 (amended): for a filter whose dates are valid (`gte` and `lte` are the
bounds read from `startDate` and `endDate`), a sort column the database knows,
and page and limit parameters that read as integers `p ≥ 1` and `l ≥ 1`,
with the database working, `getAllTransactions` answers 200 with
`pagination.total` the number of rows that match the filter (whatever the page
and the limit), `totalPages` the least integer `n` with `total ≤ n * l`, and
`data` the rows at positions `(p - 1) * l` up to `p * l - 1` of the ordered
matching list, which are `min l (max 0 (total - (p - 1) * l))` rows.  A row
matches when it is of the type given, lies in the date range given, and its
item has a name or SKU containing the search text given. -/
theorem getAllTransactions_pagination (env : Env) (db : Db) (q : ListQuery) (pq : PageQuery)
    (gte lte : Option Int) (sorted : List Transaction) (p l : Int)
    (hgte : dateBound env q.startDate = .ok gte) (hlte : dateBound env q.endDate = .ok lte)
    (hcount : env.fault .countTransactions = none)
    (hfault : env.fault .findTransactions = none)
    (hsort : env.orderTransactions (orderSpec pq "transaction_date" true).1
      (orderSpec pq "transaction_date" true).2
      (db.transactions.filter (matchesWhere db q gte lte)) = some sorted)
    (hperm : sorted.Perm (db.transactions.filter (matchesWhere db q gte lte)))
    (hp : queryInt pq.page 1 = some p) (hl : queryInt pq.limit 10 = some l)
    (hp1 : 1 ≤ p) (hl1 : 1 ≤ l) :
    ∃ n : Int,
      getAllTransactions env db q pq =
        { status := 200,
          data := (sorted.drop ((p - 1) * l).toNat).take l.toNat,
          pagination := some
            { total := (db.transactions.filter (matchesWhere db q gte lte)).length,
              page := p, limit := l, totalPages := .ofInt n } } ∧
      (n - 1) * l < (db.transactions.filter (matchesWhere db q gte lte)).length ∧
      ((db.transactions.filter (matchesWhere db q gte lte)).length : Int) ≤ n * l ∧
      (∀ i : Nat, (i : Int) < l →
        ((sorted.drop ((p - 1) * l).toNat).take l.toNat)[i]? = sorted[((p - 1) * l).toNat + i]?) ∧
      (((sorted.drop ((p - 1) * l).toNat).take l.toNat).length : Int)
        = min l (max 0 (((db.transactions.filter (matchesWhere db q gte lte)).length : Int)
            - (p - 1) * l)) ∧
      (∀ tx, tx ∈ db.transactions.filter (matchesWhere db q gte lte) ↔
        tx ∈ db.transactions ∧
        (∀ ty, q.type = some ty → ty ≠ "" → tx.transaction_type = ty) ∧
        (∀ t, gte = some t → t ≤ tx.transaction_date) ∧
        (∀ t, lte = some t → tx.transaction_date ≤ t) ∧
        (∀ s, q.search = some s → s ≠ "" →
          ∃ item, db.findItem tx.item_id = some item ∧
            (containsInsensitive item.item_name s = true ∨
              containsInsensitive item.SKU s = true))) ∧
      (∀ t, gte = some t ↔ ∃ s, q.startDate = some s ∧ s ≠ "" ∧ env.parseDate (.str s) = some t) ∧
      (∀ t, lte = some t ↔ ∃ s, q.endDate = some s ∧ s ≠ "" ∧ env.parseDate (.str s) = some t) := by
  have hmatch := getAllTransactionsMatching_ok env db q gte lte hgte hlte hcount
  obtain ⟨n, hn, hlow, hhigh⟩ :=
    ceilQuotient_pos (db.transactions.filter (matchesWhere db q gte lte)).length l (by omega)
  refine ⟨n, ?_, hlow, hhigh, ?_, ?_, ?_, dateBound_some_iff env _ gte hgte,
    dateBound_some_iff env _ lte hlte⟩
  · rw [getAllTransactions_page env db q pq _ sorted p l hmatch hfault hsort hp hl hp1 hl1, hn]
  · intro i hi
    exact page_getElem sorted _ _ i (by omega)
  · rw [← hperm.length_eq]
    exact page_length sorted _ l (mul_nonneg (by omega) (by omega)) (by omega)
  · intro tx
    rw [List.mem_filter, matchesWhere_iff]
    constructor
    · rintro ⟨hm, h1, h2, h3, h4⟩
      exact ⟨hm, h1, h2, h3, fun s hs hne => (matchesItemSearch_iff db s tx).mp (h4 s hs hne)⟩
    · rintro ⟨hm, h1, h2, h3, h4⟩
      exact ⟨hm, h1, h2, h3, fun s hs hne => (matchesItemSearch_iff db s tx).mpr (h4 s hs hne)⟩

/-- Witness for C21 (amended): three sales and one initial stock, the filter
on sales, second page of two rows, newest first: the page holds the oldest
sale and the total is 3. -/
theorem getAllTransactions_pagination_witness :
    getAllTransactions sampleEnv mixedDb saleQuery secondPage =
      { status := 200, data := [datedRow 4 1000],
        pagination := some { total := 3, page := 2, limit := 2, totalPages := .ofInt 2 } } ∧
    mixedDb.transactions.filter (matchesWhere mixedDb saleQuery none none)
      = [datedRow 1 2000, datedRow 3 3000, datedRow 4 1000] :=
  ⟨(getAllTransactions_pagination sampleEnv mixedDb saleQuery secondPage none none
      [datedRow 3 3000, datedRow 1 2000, datedRow 4 1000] 2 2 rfl rfl rfl rfl (by decide)
      (by decide) (by decide) (by decide) (by decide) (by decide)).elim
      (fun n h => by
        have h1 : (n - 1) * 2 < 3 := h.2.1
        have h2 : (3 : Int) ≤ n * 2 := h.2.2.1
        have hn : n = 2 := by omega
        subst hn
        exact h.1),
   by decide⟩

/-- C22: the end-to-end scenario, for every database that holds an item with
stock 10 and every environment whose database calls work.  Recording an
`initial_stock` of 5 answers 201 and leaves the stock at 15; buying 3 then
answers 200, leaves the stock at 12 and appends one row, of type `sale`;
buying 100 then answers 400 `Insufficient stock` and leaves the database, the
stock of 12 and the transaction rows, as it was. -/
theorem scenario_adjust_sale_oversale (env : Env) (db : Db) (item : Item) (id : Int)
    (hworks : env.storeWorks) (hid : 0 < id) (hidlt : id < 10 ^ 21)
    (hitem : db.findItem id = some item) (hstock : item.current_stock = 10) :
    (scenarioAdjust env db id).1.status = 201 ∧
    (scenarioAdjust env db id).1.success = true ∧
    (scenarioAdjust env db id).2.findItem id = some { item with current_stock := 15 } ∧
    (scenarioSale env db id).1.status = 200 ∧
    (scenarioSale env db id).1.success = true ∧
    (scenarioSale env db id).2.findItem id = some { item with current_stock := 12 } ∧
    (∃ tx, (scenarioSale env db id).1.transaction = some tx ∧
      tx.transaction_type = "sale" ∧ tx.quantity = 3 ∧
      (scenarioSale env db id).2.transactions
        = (scenarioAdjust env db id).2.transactions ++ [tx]) ∧
    (scenarioOversale env db id).1.status = 400 ∧
    (scenarioOversale env db id).1.success = false ∧
    (scenarioOversale env db id).1.message = "Insufficient stock" ∧
    (scenarioOversale env db id).2 = (scenarioSale env db id).2 := by
  have hpi : numberParseInt (.num (.ofInt id)) = some id := numberParseInt_ofInt id hid hidlt
  have htr := truthy_num_ofInt id (by omega)
  obtain ⟨dbA, txA, hAi, hAt, hAx, ha⟩ := createTransaction_initial_ok env db
    (adjustRequest id "initial_stock" (.num (.ofInt 5))) item id 5 env.now none htr hpi hitem
    hworks rfl rfl (by decide) (by decide) rfl rfl
  have h1 : (scenarioAdjust env db id).2.findItem id = some { item with current_stock := 15 } := by
    unfold scenarioAdjust
    rw [ha]
    show (attachDigest env dbA txA).1.findItem id = _
    unfold Db.findItem
    rw [attachDigest_items, hAi, findItem_map_update db.items id _ item hitem, hstock]
    rfl
  obtain ⟨dbB, txB, hBi, hBt, hBx, hb⟩ := buyItem_ok env (scenarioAdjust env db id).2
    (buyRequest id (.num (.ofInt 3))) { item with current_stock := 15 } id 3 htr hpi h1 hworks rfl
    (by decide) (by decide) (show (3 : Int) ≤ 15 by decide)
  have hfB : ∀ r ∈ (scenarioAdjust env db id).2.transactions, r.id ≠ txB.id := by
    intro r hr
    rw [hBx]
    exact nextTransactionId_fresh _ r hr
  obtain ⟨fB1, fB2, _, _, fB5, fB6, _, _, _⟩ :=
    attachDigest_frame env dbB (scenarioAdjust env db id).2.transactions txB hBt hfB
  have h2 : (scenarioSale env db id).2.findItem id = some { item with current_stock := 12 } := by
    unfold scenarioSale
    rw [hb]
    show (attachDigest env dbB txB).1.findItem id = _
    unfold Db.findItem
    rw [fB1, hBi]
    exact findItem_map_update _ id _ { item with current_stock := 15 } h1
  have h3 := buyItem_insufficient env (scenarioSale env db id).2
    (buyRequest id (.num (.ofInt 100))) { item with current_stock := 12 } id 100 htr hpi h2
    hworks.1 rfl (by decide) (show (12 : Int) < 100 by decide)
  refine ⟨?_, ?_, h1, ?_, ?_, h2, ⟨(attachDigest env dbB txB).2, ?_, ?_, ?_, ?_⟩, ?_, ?_, ?_, ?_⟩
  · unfold scenarioAdjust; rw [ha]
  · unfold scenarioAdjust; rw [ha]
  · unfold scenarioSale; rw [hb]
  · unfold scenarioSale; rw [hb]
  · unfold scenarioSale; rw [hb]
  · rw [fB5, hBx]
  · rw [fB6, hBx]
  · unfold scenarioSale; rw [hb]; exact fB2
  · unfold scenarioOversale; rw [h3]
  · unfold scenarioOversale; rw [h3]
  · unfold scenarioOversale; rw [h3]
  · unfold scenarioOversale; rw [h3]

/-- Witness for C22: the sample item with stock 10 in the sample environment. -/
theorem scenario_adjust_sale_oversale_witness :
    (scenarioAdjust sampleEnv (sampleDb 10) 1).2.findItem 1 = some (sampleItem 15) ∧
    (scenarioSale sampleEnv (sampleDb 10) 1).2.findItem 1 = some (sampleItem 12) ∧
    (scenarioOversale sampleEnv (sampleDb 10) 1).1.status = 400 ∧
    (scenarioOversale sampleEnv (sampleDb 10) 1).2.findItem 1 = some (sampleItem 12) ∧
    (scenarioOversale sampleEnv (sampleDb 10) 1).2.transactions.length = 2 :=
  ⟨(scenario_adjust_sale_oversale sampleEnv (sampleDb 10) (sampleItem 10) 1 ⟨rfl, rfl, rfl, rfl⟩
      (by decide) (by decide) (by decide) (by decide)).2.2.1,
   by decide, by decide, by decide, by decide⟩

/-- C23: a seeded Manager holds the permission `view_reports`, and every
report route answers such a user 403 `Forbidden: Insufficient permissions`
instead of calling `next()`. -/
theorem manager_cannot_view_reports :
    "view_reports" ∈ (seededManager 2).permissions ∧
    (seededManager 2).role ≠ "Admin" ∧
    ∀ route ∈ reportRoutes,
      route.2 (some (seededManager 2)) = .respond 403 "Forbidden: Insufficient permissions" := by
  decide

/-- C24: the admin of the examples, whose current password is `OldPass1!`,
asks for the new password `abcdef`, which has fewer than 8 characters and no
digit, uppercase letter or special character.  `updateProfile` answers 200,
stores the hash of `abcdef`, and `login` then accepts `abcdef` and refuses
`OldPass1!`. -/
theorem updateProfile_accepts_weak_password :
    meetsStatedPolicy "abcdef" = false ∧
    login toyAuthEnv sampleUsers (.str "admin@example.com") (.str "OldPass1!")
      = { status := 200, message := "Login successful" } ∧
    updateProfile toyAuthEnv sampleUsers weakPasswordRequest
      = ({ status := 200, message := "Profile updated successfully" },
         { sampleUsers with
           users := [{ sampleAdmin with password := "bcrypt:abcdef" }, sampleViewer] }) ∧
    login toyAuthEnv (updateProfile toyAuthEnv sampleUsers weakPasswordRequest).2
        (.str "admin@example.com") (.str "abcdef")
      = { status := 200, message := "Login successful" } ∧
    login toyAuthEnv (updateProfile toyAuthEnv sampleUsers weakPasswordRequest).2
        (.str "admin@example.com") (.str "OldPass1!")
      = { status := 401, message := "Invalid email or password" } := by
  decide

/-- C25: the guard `checkPermission(p)` answers 401 when the request carries
no user; otherwise it calls `next()` exactly when the user's role is `Admin`
or the user's permissions contain `p`, and answers 403 when not.
`checkAnyPermission([p])` decides every request as `checkPermission(p)` does,
and `checkAnyPermission([])` calls `next()` exactly for users whose role is
`Admin`. -/
theorem checkPermission_decision (p : String) (user : Option AuthUser) :
    (user = none → checkPermission p user = .respond 401 "Unauthorized") ∧
    (∀ u, user = some u →
      (checkPermission p user = .next ↔ u.role = "Admin" ∨ p ∈ u.permissions) ∧
      (¬ (u.role = "Admin" ∨ p ∈ u.permissions) →
        checkPermission p user = .respond 403 "Forbidden: Insufficient permissions")) ∧
    checkAnyPermission [p] user = checkPermission p user ∧
    (checkAnyPermission [] user = .next ↔ ∃ u, user = some u ∧ u.role = "Admin") ∧
    (checkAnyPermission [] user = .next ∨
      checkAnyPermission [] user = .respond 401 "Unauthorized" ∨
      checkAnyPermission [] user = .respond 403 "Forbidden: Insufficient permissions") := by
  cases user with
  | none =>
    refine ⟨fun _ => rfl, fun u h => by simp at h, rfl, ?_, Or.inr (Or.inl rfl)⟩
    simp [checkAnyPermission]
  | some u =>
    refine ⟨fun h => by simp at h, ?_, ?_, ?_, ?_⟩
    · intro u' hu
      simp only [Option.some.injEq] at hu
      subst hu
      by_cases hr : u.role = "Admin" <;> by_cases hp : p ∈ u.permissions <;>
        simp [checkPermission, hr, hp]
    · by_cases hr : u.role = "Admin" <;> by_cases hp : p ∈ u.permissions <;>
        simp [checkPermission, checkAnyPermission, hr, hp]
    · by_cases hr : u.role = "Admin" <;> simp [checkAnyPermission, hr]
    · by_cases hr : u.role = "Admin" <;> simp [checkAnyPermission, hr]

/-- C26 (counterexample): the admin, id 1, asks for the role `5` (a number)
on the account with id `1`; `updateUserRole` answers 500, not 400, and
changes nothing. -/
theorem updateUserRole_self_nonstring_role :
    updateUserRole toyAuthEnv sampleUsers "1" (.num (.ofInt 5)) 1
      = ({ status := 500, message := "Server error updating user role" }, sampleUsers) ∧
    updateUserRole toyAuthEnv sampleUsers "1" (.str "Manager") 1
      = ({ status := 400, message := "Cannot change your own role" }, sampleUsers) := by
  decide

/-- C26 (amended): for a user `a` of the table and a path parameter that reads
as the id of `a`, with the lookups not failing, `deleteUser` by `a` answers
400; `updateUserRole` by `a` answers 400 for every role name that is missing
or a string and 500 for every other truthy role name; and both leave the user
table, hence the row of `a` and its role, as it was.  Targeting another
existing user `b`, with the database working, `deleteUser` answers 200 and
removes exactly the row of `b`, and `updateUserRole` with the name of an
existing role answers 200 and sets the role of `b`, and of no other user, to
that role. -/
theorem admin_cannot_target_self (env : AuthEnv) (db : UserDb) (a : User) (id : String)
    (hparse : numberParseInt (.str id) = some a.id) (huser : db.findUser a.id = some a)
    (hfind : env.fault .findUser = none) (hfr : env.fault .findRole = none) :
    deleteUser env db id a.id
      = ({ status := 400, message := "Cannot delete your own account" }, db) ∧
    (∀ roleName : JsVal, (updateUserRole env db id roleName a.id).2 = db) ∧
    (∀ roleName : JsVal, (roleName.truthy = false ∨ ∃ s, roleName = .str s) →
      (updateUserRole env db id roleName a.id).1.status = 400) ∧
    (∀ roleName : JsVal, roleName.truthy = true → (∀ s, roleName ≠ .str s) →
      (updateUserRole env db id roleName a.id).1
        = { status := 500, message := "Server error updating user role" }) ∧
    (∀ (b : User) (idB : String), b.id ≠ a.id → numberParseInt (.str idB) = some b.id →
      db.findUser b.id = some b → env.fault .deleteUser = none →
      (deleteUser env db idB a.id).1
        = { status := 200, message := "User deleted successfully" } ∧
      (deleteUser env db idB a.id).2.findUser b.id = none ∧
      (∀ i, i ≠ b.id → (deleteUser env db idB a.id).2.findUser i = db.findUser i) ∧
      (deleteUser env db idB a.id).2.roles = db.roles) ∧
    (∀ (b : User) (idB roleName : String) (role : Role), b.id ≠ a.id →
      numberParseInt (.str idB) = some b.id → db.findUser b.id = some b →
      roleName ≠ "" → db.findRole roleName = some role → env.fault .updateUser = none →
      (updateUserRole env db idB (.str roleName) a.id).1
        = { status := 200, message := "User role updated successfully" } ∧
      (updateUserRole env db idB (.str roleName) a.id).2.findUser b.id
        = some { b with role_id := role.id } ∧
      (∀ i, i ≠ b.id →
        (updateUserRole env db idB (.str roleName) a.id).2.findUser i = db.findUser i) ∧
      (updateUserRole env db idB (.str roleName) a.id).2.roles = db.roles) := by
  refine ⟨deleteUser_self env db a id hparse huser hfind,
    fun roleName => updateUserRole_self_db env db a id roleName hparse huser,
    fun roleName hname => updateUserRole_self_status env db a id roleName hparse huser hfind hfr
      hname,
    fun roleName ht hns => by rw [updateUserRole_nonstring env db id roleName a.id ht hns],
    ?_, ?_⟩
  · intro b idB hne hp hb hdel
    rw [deleteUser_other env db b idB a.id hne hp hb hfind hdel]
    exact ⟨rfl, findUser_filter_self db.users b.id,
      fun i hi => findUser_filter_other db.users i b.id hi, rfl⟩
  · intro b idB roleName role hne hp hb hname hrole hupd
    rw [updateUserRole_other env db b idB roleName role a.id hne hp hb hname hrole hfind hfr hupd]
    exact ⟨rfl, findUser_map_update db.users b.id _ b (fun _ => rfl) hb,
      fun i hi => findUser_map_other db.users i b.id _ (fun _ => rfl) hi, rfl⟩

/-- Witness for C26 (amended): the admin, id 1, cannot delete the account with id `1`,
and deletes the viewer, id 2. -/
theorem admin_cannot_target_self_witness :
    deleteUser toyAuthEnv sampleUsers "1" 1
      = ({ status := 400, message := "Cannot delete your own account" }, sampleUsers) ∧
    (deleteUser toyAuthEnv sampleUsers "2" 1).2.users = [sampleAdmin] ∧
    (updateUserRole toyAuthEnv sampleUsers "2" (.str "Manager") 1).2.findUser 2
      = some { sampleViewer with role_id := 2 } :=
  ⟨(admin_cannot_target_self toyAuthEnv sampleUsers sampleAdmin "1" (by decide) (by decide)
      rfl rfl).1,
   by decide, by decide⟩

/-- C27: for an existing item and a positive integer quantity `q`, with the
database working and a `createTransaction` request whose notes and date the
database accepts, `buyItem` and `createTransaction` with type
`adjustment_decrease` agree on the stock effect: each fails exactly when the
stock is below `q`, then with status 400 and the database unchanged; and when
the stock suffices they answer 200 and 201, return and store the same item
with its stock lowered by `q`, leave the same item table, and append one row
each, the two rows having the same id, item and quantity `q`, and the type
`sale` and `adjustment_decrease`.  The stock read from the integer column is
taken to be below `10 ^ 21`. -/
theorem sale_and_decrease_agree (env : Env) (db : Db) (reqB reqC : Request) (item : Item)
    (id q t : Int) (notes : Option String)
    (hworks : env.storeWorks)
    (hidB : reqB.item_id.truthy = true) (hidC : reqC.item_id.truthy = true)
    (hparseB : numberParseInt reqB.item_id = some id)
    (hparseC : numberParseInt reqC.item_id = some id)
    (hitem : db.findItem id = some item)
    (htype : reqC.transaction_type = .str "adjustment_decrease")
    (hqtyB : reqB.quantity = .num (.ofInt q)) (hqtyC : reqC.quantity = .num (.ofInt q))
    (hq : 0 < q) (hcol : item.current_stock < 10 ^ 21)
    (hnotes : (if reqC.notes.truthy then reqC.notes else .null)
      = (match notes with | some s => .str s | none => .null))
    (hdate : (if reqC.transaction_date.truthy then env.parseDate reqC.transaction_date
      else some env.now) = some t) :
    ((buyItem env db reqB).1.success = false ↔ item.current_stock < q) ∧
    ((createTransaction env db reqC).1.success = false ↔ item.current_stock < q) ∧
    (item.current_stock < q →
      (buyItem env db reqB).1.status = 400 ∧ (createTransaction env db reqC).1.status = 400 ∧
      (buyItem env db reqB).2 = db ∧ (createTransaction env db reqC).2 = db) ∧
    (q ≤ item.current_stock →
      (buyItem env db reqB).1.status = 200 ∧ (createTransaction env db reqC).1.status = 201 ∧
      (buyItem env db reqB).1.item = some { item with current_stock := item.current_stock - q } ∧
      (createTransaction env db reqC).1.item
        = some { item with current_stock := item.current_stock - q } ∧
      (buyItem env db reqB).2.items = (createTransaction env db reqC).2.items ∧
      (buyItem env db reqB).2.findItem id
        = some { item with current_stock := item.current_stock - q } ∧
      ∃ txB txC,
        (buyItem env db reqB).1.transaction = some txB ∧
        (createTransaction env db reqC).1.transaction = some txC ∧
        (buyItem env db reqB).2.transactions = db.transactions ++ [txB] ∧
        (createTransaction env db reqC).2.transactions = db.transactions ++ [txC] ∧
        txB.id = txC.id ∧ txB.item_id = id ∧ txC.item_id = id ∧
        txB.quantity = q ∧ txC.quantity = q ∧
        txB.user_id = reqB.user_id ∧ txC.user_id = reqC.user_id ∧
        txB.transaction_type = "sale" ∧ txC.transaction_type = "adjustment_decrease" ∧
        txB.notes = some "Online Sale" ∧ txC.notes = notes ∧
        txB.transaction_date = env.now ∧ txC.transaction_date = t) := by
  by_cases hs : item.current_stock < q
  · obtain ⟨hb, hc⟩ := insufficient_both env db reqB reqC item id q hidB hidC hparseB hparseC
      hitem hworks.1 htype hqtyB hqtyC hq hs
    rw [hb, hc]
    exact ⟨⟨fun _ => hs, fun _ => rfl⟩, ⟨fun _ => hs, fun _ => rfl⟩,
      fun _ => ⟨rfl, rfl, rfl, rfl⟩, fun h => absurd hs (by omega)⟩
  · have hle : q ≤ item.current_stock := by omega
    have hlt : q < 10 ^ 21 := by omega
    obtain ⟨dbB, txB, hBi, hBt, hBx, hb⟩ := buyItem_ok env db reqB item id q hidB hparseB hitem
      hworks hqtyB hq hlt hle
    obtain ⟨dbC, txC, hCi, hCt, hCx, hc⟩ := createTransaction_decrease_ok env db reqC item id q t
      notes hidC hparseC hitem hworks htype hqtyC hq hlt hle hnotes hdate
    have hfB : ∀ r ∈ db.transactions, r.id ≠ txB.id := by
      intro r hr
      rw [hBx]
      exact nextTransactionId_fresh db r hr
    have hfC : ∀ r ∈ db.transactions, r.id ≠ txC.id := by
      intro r hr
      rw [hCx]
      exact nextTransactionId_fresh db r hr
    obtain ⟨fB1, fB2, fB3, fB4, fB5, fB6, fB7, fB8, fB9⟩ :=
      attachDigest_frame env dbB db.transactions txB hBt hfB
    obtain ⟨fC1, fC2, fC3, fC4, fC5, fC6, fC7, fC8, fC9⟩ :=
      attachDigest_frame env dbC db.transactions txC hCt hfC
    rw [hb, hc]
    refine ⟨⟨fun h => by simp at h, fun h => absurd h hs⟩,
      ⟨fun h => by simp at h, fun h => absurd h hs⟩, fun h => absurd h hs, fun _ => ?_⟩
    refine ⟨rfl, rfl, rfl, rfl, ?_, ?_, _, _, rfl, rfl, fB2, fC2, ?_, ?_, ?_, ?_, ?_, ?_, ?_, ?_,
      ?_, ?_, ?_, ?_, ?_⟩
    · show (attachDigest env dbB txB).1.items = (attachDigest env dbC txC).1.items
      rw [fB1, fC1, hBi, hCi]
    · show (attachDigest env dbB txB).1.findItem id = _
      unfold Db.findItem
      rw [fB1, hBi]
      exact findItem_map_update db.items id _ item hitem
    · rw [fB3, fC3, hBx, hCx]
    · rw [fB4, hBx]
    · rw [fC4, hCx]
    · rw [fB6, hBx]
    · rw [fC6, hCx]
    · rw [fB8, hBx]
    · rw [fC8, hCx]
    · rw [fB5, hBx]
    · rw [fC5, hCx]
    · rw [fB9, hBx]
    · rw [fC9, hCx]
    · rw [fB7, hBx]
    · rw [fC7, hCx]

/-- Witness for C27: stock 10, a purchase of 3 and a decrease by 3. -/
theorem sale_and_decrease_agree_witness :
    (buyItem sampleEnv (sampleDb 10) (buyRequest 1 (.num (.ofInt 3)))).2.items
      = (createTransaction sampleEnv (sampleDb 10)
          (adjustRequest 1 "adjustment_decrease" (.num (.ofInt 3)))).2.items ∧
    (buyItem sampleEnv (sampleDb 10) (buyRequest 1 (.num (.ofInt 3)))).2.findItem 1
      = some (sampleItem 7) :=
  ⟨((sale_and_decrease_agree sampleEnv (sampleDb 10) (buyRequest 1 (.num (.ofInt 3)))
      (adjustRequest 1 "adjustment_decrease" (.num (.ofInt 3))) (sampleItem 10) 1 3
      1700000000000 none ⟨rfl, rfl, rfl, rfl⟩ (by decide) (by decide) (by decide) (by decide) (by decide)
      rfl rfl rfl (by decide) (by decide) (by decide) (by decide)).2.2.2 (by decide)).2.2.2.2.1,
   by decide⟩

/-- C28: the admin of the examples resets the password to `NewPass1!` with a
valid reset code.  When the user table has no column `password_hash` the
request is answered 500 and nothing is stored.  When it has one, the request
is answered 200, the hash goes to `password_hash`, the column `password` that
`login` compares with keeps the old hash, and `login` refuses `NewPass1!`
and accepts the old password. -/
theorem resetPassword_misses_login_column :
    toyAuthEnv.bcryptCompare "NewPass1!" (toyAuthEnv.bcryptHash "NewPass1!" 10) = true ∧
    resetPassword toyAuthEnv sampleUsers (.str "admin@example.com") (.str "a1b2c3")
        (.str "NewPass1!")
      = ({ status := 500, message := "Server error during password reset" }, sampleUsers) ∧
    (resetPassword toyAuthEnvWithColumn sampleUsers (.str "admin@example.com") (.str "a1b2c3")
        (.str "NewPass1!")).1
      = { status := 200, message := "Password reset successful" } ∧
    ((resetPassword toyAuthEnvWithColumn sampleUsers (.str "admin@example.com") (.str "a1b2c3")
        (.str "NewPass1!")).2.findUser 1).map (fun u => (u.password, u.password_hash))
      = some ("bcrypt:OldPass1!", some "bcrypt:NewPass1!") ∧
    login toyAuthEnvWithColumn
        (resetPassword toyAuthEnvWithColumn sampleUsers (.str "admin@example.com")
          (.str "a1b2c3") (.str "NewPass1!")).2
        (.str "admin@example.com") (.str "NewPass1!")
      = { status := 401, message := "Invalid email or password" } ∧
    login toyAuthEnvWithColumn
        (resetPassword toyAuthEnvWithColumn sampleUsers (.str "admin@example.com")
          (.str "a1b2c3") (.str "NewPass1!")).2
        (.str "admin@example.com") (.str "OldPass1!")
      = { status := 200, message := "Login successful" } := by
  decide

/-- C29: over exact arithmetic, with the database working, a sort column it
knows and page parameters that read as integers `p ≥ 1` and `l ≥ 1`.  Each
row of the inventory summary has `total_value = unit_price * current_stock`,
`total_sale_value = sale_price * current_stock` and `potential_profit =
total_sale_value - total_value`.  The totals of `getInventorySummary` are
taken over all matching items, whatever the page: `totalStock` is the sum of
their stocks and `totalPotentialProfit = totalSaleValue - totalValue`.  They
are the totals `generateInventorySummaryDocument` computes on the same list
of items, in any order; so without a search text the two handlers return the
same totals. -/
theorem inventory_totals_consistent (env : Env) (db : Db) (search : Option String)
    (pq : PageQuery) (sorted sortedAll : List Item) (p l : Int)
    (hcount : env.fault .countItems = none) (hfind : env.fault .findItems = none)
    (hsort : env.orderItems (orderSpec pq "item_name" false).1 (orderSpec pq "item_name" false).2
      (db.items.filter (inventoryWhere search)) = some sorted)
    (hall : env.orderItems "item_name" false db.items = some sortedAll)
    (hperm : sortedAll.Perm db.items)
    (hp : queryInt pq.page 1 = some p) (hl : queryInt pq.limit 10 = some l)
    (hp1 : 1 ≤ p) (hl1 : 1 ≤ l) :
    (getInventorySummary env db search pq).status = 200 ∧
    (getInventorySummary env db search pq).body = some
      { data := ((sorted.drop ((p - 1) * l).toNat).take l.toNat).map summaryRow,
        pagination := { total := (db.items.filter (inventoryWhere search)).length, page := p,
                        limit := l,
                        totalPages :=
                          ceilQuotient (db.items.filter (inventoryWhere search)).length l },
        totals := summaryTotals (db.items.filter (inventoryWhere search)) } ∧
    (∀ item : Item,
      (summaryRow item).total_value = item.unit_price * (item.current_stock : ℚ) ∧
      (summaryRow item).total_sale_value = item.sale_price * (item.current_stock : ℚ) ∧
      (summaryRow item).potential_profit
        = (summaryRow item).total_sale_value - (summaryRow item).total_value) ∧
    (∀ items : List Item,
      (summaryTotals items).totalPotentialProfit
        = (summaryTotals items).totalSaleValue - (summaryTotals items).totalValue ∧
      (summaryTotals items).totalStock = (items.map (fun i => i.current_stock)).sum ∧
      (summaryTotals items).totalValue = ((items.map summaryRow).map (fun r => r.total_value)).sum ∧
      (summaryTotals items).totalSaleValue
        = ((items.map summaryRow).map (fun r => r.total_sale_value)).sum ∧
      summaryTotals items = documentTotals items ∧
      ∀ items', items'.Perm items → documentTotals items' = summaryTotals items) ∧
    (generateInventorySummaryDocument env db).status = 200 ∧
    (generateInventorySummaryDocument env db).body
      = some { rows := sortedAll.map summaryRow, totals := documentTotals sortedAll } ∧
    documentTotals sortedAll = summaryTotals (db.items.filter (inventoryWhere none)) := by
  have hwork := getInventorySummary_ok env db search pq sorted p l hcount hfind hsort hp hl hp1 hl1
  have hnone : db.items.filter (inventoryWhere none) = db.items := by
    simp [inventoryWhere]
  have hdoc : findManyItemsOrdered env db none ("item_name", false) none = .ok sortedAll := by
    simp [findManyItemsOrdered, hfind, hnone, hall]
  refine ⟨?_, ?_, ?_, ?_, ?_, ?_, ?_⟩
  · unfold getInventorySummary; rw [hwork]
  · unfold getInventorySummary; rw [hwork]
  · intro item
    exact ⟨rfl, rfl, rfl⟩
  · intro items
    refine ⟨?_, ?_, ?_, ?_, summaryTotals_eq_documentTotals items, ?_⟩
    · rw [summaryTotals_eq]
      exact sum_map_sub_rat _ _ items
    · rw [summaryTotals_eq]
    · rw [summaryTotals_eq, List.map_map]; rfl
    · rw [summaryTotals_eq, List.map_map]; rfl
    · intro items' h
      rw [← summaryTotals_eq_documentTotals, summaryTotals_perm items' items h]
  · unfold generateInventorySummaryDocument; rw [hdoc]
  · unfold generateInventorySummaryDocument; rw [hdoc]
  · rw [hnone, ← summaryTotals_eq_documentTotals, summaryTotals_perm sortedAll db.items hperm]

/-- Witness for C29: three priced items, first page of two, ordered by name;
the totals are 112 units worth 240 at cost and 420 at sale, a profit of 180. -/
theorem inventory_totals_consistent_witness :
    (getInventorySummary sampleEnv pricedDb none firstPage).body = some
      { data := [summaryRow (pricedItem 2 "Anvil" 2 50 80), summaryRow (pricedItem 3 "Bolt" 100 1 2)],
        pagination := { total := 3, page := 1, limit := 2, totalPages := .ofInt 2 },
        totals := summaryTotals pricedDb.items } ∧
    summaryTotals pricedDb.items
      = { totalItems := 3, totalStock := 112, totalValue := 240, totalSaleValue := 420,
          totalPotentialProfit := 180 } :=
  ⟨(inventory_totals_consistent sampleEnv pricedDb none firstPage
      [pricedItem 2 "Anvil" 2 50 80, pricedItem 3 "Bolt" 100 1 2, pricedItem 1 "Widget" 10 4 6]
      [pricedItem 2 "Anvil" 2 50 80, pricedItem 3 "Bolt" 100 1 2, pricedItem 1 "Widget" 10 4 6]
      1 2 rfl rfl (by decide) (by decide) (by decide) (by decide) (by decide) (by decide)
      (by decide)).2.1,
   by norm_num [summaryTotals, addToTotals, pricedDb, pricedItem]⟩

/-- C30 (counterexample): a filter whose end date is not a date is answered
500 with no totals, while the same request without it is answered 200. -/
theorem getTransactionsReport_rejects_invalid_filter :
    (getTransactionsReport dateEnv pricedDb misdatedEndQuery {}).status = 500 ∧
    (getTransactionsReport dateEnv pricedDb misdatedEndQuery {}).body = none ∧
    (getTransactionsReport dateEnv pricedDb misdatedEndQuery {}).message
      = some "Failed to get transactions report" ∧
    (getTransactionsReport dateEnv pricedDb {} {}).status = 200 ∧
    ((getTransactionsReport dateEnv pricedDb {} {}).body.map
      (fun report => report.totals.totalTransactions)) = some 2 := by
  decide

/-- C30 (amended): over exact arithmetic, for a filter whose dates are valid
(`gte` and `lte` are the bounds read from `startDate` and `endDate`, the
latter moved to the end of its day), with the database working, a sort column
it knows, page parameters that read as integers `p ≥ 1` and `l ≥ 1`, and
every matching transaction pointing to its item.  `getTransactionsReport`
answers 200; each row of the page carries the value `sale_price * quantity`
when its type is `sale` and `unit_price * quantity` otherwise;
`totals.totalValue` is the sum of these values over all matching transactions
and `totals.totalQuantity` the sum of their quantities (0 when none match),
whatever the page and the limit; and `totals.totalTransactions` is
`pagination.total`, the number of matching transactions.  A row matches when
it is of the type given (other than `all`), lies in the date range given, and
its notes, or the name or SKU of its item, contain the search text given. -/
theorem transactions_report_totals (env : Env) (db : Db) (q : ListQuery) (pq : PageQuery)
    (gte lte : Option Int) (sorted : List Transaction) (itemOf : Transaction → Item) (p l : Int)
    (hgte : dateBound env q.startDate = .ok gte) (hlte : endDateBound env q.endDate = .ok lte)
    (hcount : env.fault .countTransactions = none)
    (hfind : env.fault .findTransactions = none)
    (hsum : env.fault .aggregateTransactions = none)
    (hsort : env.orderTransactions (orderSpec pq "transaction_date" true).1
      (orderSpec pq "transaction_date" true).2
      (db.transactions.filter (reportWhere db q gte lte)) = some sorted)
    (hperm : sorted.Perm (db.transactions.filter (reportWhere db q gte lte)))
    (hitems : ∀ tx ∈ db.transactions.filter (reportWhere db q gte lte),
      db.findItem tx.item_id = some (itemOf tx))
    (hp : queryInt pq.page 1 = some p) (hl : queryInt pq.limit 10 = some l)
    (hp1 : 1 ≤ p) (hl1 : 1 ≤ l) :
    (getTransactionsReport env db q pq).status = 200 ∧
    (getTransactionsReport env db q pq).body = some
      { data := ((sorted.drop ((p - 1) * l).toNat).take l.toNat).map
          (fun tx => reportRowOf tx (itemOf tx)),
        pagination :=
          { total := (db.transactions.filter (reportWhere db q gte lte)).length, page := p,
            limit := l,
            totalPages := ceilQuotient (db.transactions.filter (reportWhere db q gte lte)).length l },
        totals :=
          { totalTransactions := (db.transactions.filter (reportWhere db q gte lte)).length,
            totalQuantity :=
              ((db.transactions.filter (reportWhere db q gte lte)).map (fun t => t.quantity)).sum,
            totalValue :=
              ((db.transactions.filter (reportWhere db q gte lte)).map
                (fun tx => (reportRowOf tx (itemOf tx)).total_value)).sum } } ∧
    (∀ (tx : Transaction) (item : Item),
      (tx.transaction_type = "sale" →
        (reportRowOf tx item).total_value = item.sale_price * (tx.quantity : ℚ)) ∧
      (tx.transaction_type ≠ "sale" →
        (reportRowOf tx item).total_value = item.unit_price * (tx.quantity : ℚ))) ∧
    (db.transactions.filter (reportWhere db q gte lte) = [] →
      ((db.transactions.filter (reportWhere db q gte lte)).map (fun t => t.quantity)).sum = 0) ∧
    (∀ tx, tx ∈ db.transactions.filter (reportWhere db q gte lte) ↔
      tx ∈ db.transactions ∧
      (∀ ty, q.type = some ty → ty ≠ "" → ty ≠ "all" → tx.transaction_type = ty) ∧
      (∀ t, gte = some t → t ≤ tx.transaction_date) ∧
      (∀ t, lte = some t → tx.transaction_date ≤ t) ∧
      (∀ s, q.search = some s → s ≠ "" →
        (∃ notes, tx.notes = some notes ∧ containsInsensitive notes s = true) ∨
          ∃ item, db.findItem tx.item_id = some item ∧
            (containsInsensitive item.item_name s = true ∨
              containsInsensitive item.SKU s = true))) ∧
    (∀ t, gte = some t ↔ ∃ s, q.startDate = some s ∧ s ≠ "" ∧ env.parseDate (.str s) = some t) ∧
    (∀ t, lte = some t ↔ ∃ s t0, q.endDate = some s ∧ s ≠ "" ∧
      env.parseDate (.str s) = some t0 ∧ t = env.endOfDay t0) := by
  have hmatch := reportMatching_ok env db q gte lte hgte hlte
  have hwork := getTransactionsReport_ok env db q pq _ sorted itemOf p l hmatch hcount hfind
    hsum hsort hperm hitems hp hl hp1 hl1
  refine ⟨?_, ?_, ?_, ?_, ?_, dateBound_some_iff env _ gte hgte,
    endDateBound_some_iff env _ lte hlte⟩
  · unfold getTransactionsReport; rw [hwork]
  · unfold getTransactionsReport; rw [hwork]; rfl
  · intro tx item
    constructor
    · intro h
      simp [reportRowOf, transactionValue, h]
    · intro h
      simp [reportRowOf, transactionValue, h]
  · intro h
    rw [h]
    rfl
  · intro tx
    rw [List.mem_filter, reportWhere_iff]
    constructor
    · rintro ⟨hm, h1, h2, h3, h4⟩
      refine ⟨hm, h1, h2, h3, fun s hs hne => ?_⟩
      rcases (reportMatchesSearch_iff db s tx).mp (h4 s hs hne) with h | h
      · exact Or.inl h
      · exact Or.inr ((matchesItemSearch_iff db s tx).mp h)
    · rintro ⟨hm, h1, h2, h3, h4⟩
      refine ⟨hm, h1, h2, h3, fun s hs hne => (reportMatchesSearch_iff db s tx).mpr ?_⟩
      rcases h4 s hs hne with h | h
      · exact Or.inl h
      · exact Or.inr ((matchesItemSearch_iff db s tx).mpr h)

/-- Witness for C30 (amended): an initial stock of 10 and a sale of 3 of an
item bought at 4 and sold at 6, with the filter on sales: one row matches,
valued at 18. -/
theorem transactions_report_totals_witness :
    (getTransactionsReport sampleEnv pricedDb saleQuery firstPage).body = some
      { data := [reportRowOf (sampleRow 2 "sale" 3 none none) (pricedItem 1 "Widget" 10 4 6)],
        pagination := { total := 1, page := 1, limit := 2, totalPages := .ofInt 1 },
        totals := { totalTransactions := 1, totalQuantity := 3,
                    totalValue := ([sampleRow 2 "sale" 3 none none].map
                      (fun tx => (reportRowOf tx (pricedItem 1 "Widget" 10 4 6)).total_value)).sum } } ∧
    ([sampleRow 2 "sale" 3 none none].map
      (fun tx => (reportRowOf tx (pricedItem 1 "Widget" 10 4 6)).total_value)).sum = 18 :=
  ⟨(transactions_report_totals sampleEnv pricedDb saleQuery firstPage none none
      [sampleRow 2 "sale" 3 none none] (fun _ => pricedItem 1 "Widget" 10 4 6) 1 2 rfl rfl rfl rfl
      rfl (by decide) (by decide) (by decide) (by decide) (by decide) (by decide)
      (by decide)).2.1,
   by norm_num [sampleRow, reportRowOf, transactionValue, pricedItem]⟩

end Inventory
